import Mathlib

/-!
# Session and token lifecycle of the forum backend

A shallow embedding of `src/controller/authController.js` and
`src/middleware/authMiddleware.js`, followed by `castVote` of
`src/controller/voteController.js` and the vote tallies of
`src/controller/postController.js`.

* The relational store (the ORM client) is a value of type `Db`; every handler
  takes the store before the request and returns the response together with
  the store after it.
* The signing and hashing libraries are a parameter `Crypto`; nothing is
  assumed about them unless a theorem says so.
* Everything a handler reads from outside (wall clock, random draws, storage
  failures) is a parameter `Env`.  The clock is read once per request.
* Environment variables are taken to be set: each holds a string.
-/

set_option autoImplicit false

namespace RedditClone

/-! ## Configuration and collaborators -/

/-- Process environment read at `authController.js` lines 7-8; the signing secret
is part of `Crypto`. -/
structure Config where
  JWT_EXPIRES_IN : String
  REFRESH_TOKEN_EXPIRES_IN : String
  NODE_ENV : String
deriving DecidableEq, Repr

/-- Claims carried by a signed token: the user id and, for refresh credentials,
the issuance timestamp and the random nonce. -/
structure Payload where
  userId : Nat
  timestamp : Option Nat
  random : Option String
deriving DecidableEq, Repr

/-- Result of `jwt.verify`: the decoded payload, or the `name` of the error it
throws (`"TokenExpiredError"`, `"JsonWebTokenError"`, ...). -/
inductive Verified where
  | ok (payload : Payload)
  | threw (name : String)
deriving DecidableEq, Repr

/-- The signing library under the configured secret, and the password hashing
library. `sign payload expiresIn now` is `jwt.sign(payload, JWT_SECRET, {expiresIn})`
evaluated at time `now`; `verify token now` is `jwt.verify(token, JWT_SECRET)`. -/
structure Crypto where
  sign : Payload → String → Nat → String
  verify : String → Nat → Verified
  hash : String → String
  compare : String → String → Bool

/-- An error thrown by a storage call: `error.name`, `error.code` and
`error.meta.target` (empty when absent). -/
structure PrismaError where
  name : String
  code : String
  target : List String
deriving DecidableEq, Repr

/-- What a request reads from outside the store: the wall clock, the successive
draws of `Math.random().toString(36).substring(2, 15)`, and for the k-th storage
call of the request the error it throws, if the storage layer fails there. -/
structure Env where
  now : Nat
  random : Nat → String
  fault : Nat → Option PrismaError

/-- The k-th storage call of a request: it throws the injected failure, leaving
the store untouched, or else behaves as the store operation does. -/
def Env.call {α : Type} (env : Env) (k : Nat) (r : Except PrismaError α) :
    Except PrismaError α :=
  match env.fault k with
  | some e => .error e
  | none => r

/-! ## The store -/

/-- Projection `{id, name, logo}` of a community related to a user. -/
structure Community where
  id : Nat
  name : String
  logo : Option String
deriving DecidableEq, Repr

/-- Modelled from the spec: the `User` table of the ORM schema, which is not
among the sources. Fields are those of section 3 (unique id, unique login name,
unique email, password hash, active flag, creation time, last-login time) and
the `communities` relation selected by `login` and `getCurrentUser`. -/
structure User where
  id : Nat
  userName : String
  email : String
  password : String
  isActive : Bool
  createdAt : Nat
  lastLogin : Option Nat
  communities : List Community
deriving DecidableEq, Repr

/-- Modelled from the spec: the `RefreshToken` table (the session record) of the
ORM schema, which is not among the sources. Fields are those of section 3:
token string (unique), owning user id, expiration timestamp, optional revocation
timestamp, creation timestamp. -/
structure RefreshToken where
  id : Nat
  token : String
  userId : Nat
  expiresAt : Nat
  revokedAt : Option Nat
  createdAt : Nat
deriving DecidableEq, Repr

/-- The database: the two tables the auth code touches. -/
structure Db where
  users : List User
  refreshTokens : List RefreshToken
deriving DecidableEq, Repr

/-- A primary key not yet in use: one more than the largest key. -/
def freshId (ids : List Nat) : Nat :=
  ids.foldr max 0 + 1

/-- The error of a failed unique constraint on the given column. -/
def uniqueViolation (column : String) : PrismaError :=
  ⟨"PrismaClientKnownRequestError", "P2002", [column]⟩

/-- The error of an update whose record does not exist. -/
def recordNotFound : PrismaError :=
  ⟨"PrismaClientKnownRequestError", "P2025", []⟩

/-- Store call `prisma.user.findFirst({where: {OR: [{userName}, {email}]}})`. -/
def userFindFirstByNameOrEmail (db : Db) (userName email : String) : Option User :=
  db.users.find? (fun u => u.userName == userName || u.email == email)

/-- Store call `prisma.user.findUnique({where: {userName}})`. -/
def userFindUniqueByName (db : Db) (userName : String) : Option User :=
  db.users.find? (fun u => u.userName == userName)

/-- Store call `prisma.user.findUnique({where: {id}})`. -/
def userFindUniqueById (db : Db) (id : Nat) : Option User :=
  db.users.find? (fun u => u.id == id)

/-- Store call `prisma.user.create({data: {userName, email, password, isActive: true}})`;
the login name and the email are unique columns. -/
def userCreate (db : Db) (userName email password : String) (now : Nat) :
    Except PrismaError (User × Db) :=
  if db.users.any (fun u => u.userName == userName) then .error (uniqueViolation "userName")
  else if db.users.any (fun u => u.email == email) then .error (uniqueViolation "email")
  else
    let user : User :=
      ⟨freshId (db.users.map User.id), userName, email, password, true, now, none, []⟩
    .ok (user, { db with users := db.users ++ [user] })

/-- Store call `prisma.user.update({where: {id}, data: {lastLogin: new Date()}})`. -/
def userUpdateLastLogin (db : Db) (id now : Nat) : Except PrismaError Db :=
  if db.users.any (fun u => u.id == id) then
    .ok { db with
      users := db.users.map (fun u => if u.id = id then { u with lastLogin := some now } else u) }
  else .error recordNotFound

/-- Store call `prisma.refreshToken.findFirst` with the filter of `refreshToken`:
exact token, owning user, `revokedAt: null`, `expiresAt: {gt: new Date()}`. -/
def refreshTokenFindFirst (db : Db) (token : String) (userId now : Nat) :
    Option RefreshToken :=
  db.refreshTokens.find?
    (fun r => r.token == token && r.userId == userId && r.revokedAt.isNone
      && decide (now < r.expiresAt))

/-- Store call `prisma.refreshToken.create({data: {token, userId, expiresAt}})`; the
token column is unique, so a token already stored is a uniqueness conflict. The
handlers call it only for a user they have just read or created, so the
reference to the user is not checked here. -/
def refreshTokenCreate (db : Db) (token : String) (userId expiresAt now : Nat) :
    Except PrismaError Db :=
  if db.refreshTokens.any (fun r => r.token == token) then .error (uniqueViolation "token")
  else
    .ok { db with refreshTokens := db.refreshTokens ++
      [⟨freshId (db.refreshTokens.map RefreshToken.id), token, userId, expiresAt, none, now⟩] }

/-- Store call `prisma.refreshToken.update({where: {id}, data: {revokedAt: new Date()}})`. -/
def refreshTokenRevokeById (db : Db) (id now : Nat) : Except PrismaError Db :=
  if db.refreshTokens.any (fun r => r.id == id) then
    .ok { db with
      refreshTokens := db.refreshTokens.map
        (fun r => if r.id = id then { r with revokedAt := some now } else r) }
  else .error recordNotFound

/-- Store call `prisma.refreshToken.updateMany({where: {token, revokedAt: null},
data: {revokedAt: new Date()}})`. -/
def refreshTokenRevokeMany (db : Db) (token : String) (now : Nat) : Db :=
  { db with
    refreshTokens := db.refreshTokens.map
      (fun r => if r.token = token ∧ r.revokedAt = none then { r with revokedAt := some now }
        else r) }

/-- The transaction of `refreshToken` (lines 324-336): revoke the old record,
then create the new one; when either step throws, neither takes effect. -/
def rotateTransaction (db : Db) (oldId : Nat) (newToken : String) (userId now : Nat) :
    Except PrismaError Db :=
  match refreshTokenRevokeById db oldId now with
  | .error e => .error e
  | .ok db1 => refreshTokenCreate db1 newToken userId (now + 7 * 24 * 60 * 60 * 1000) now

/-- The transaction of `login` (lines 185-197): create the session record, then
stamp the last login; when either step throws, neither takes effect. -/
def loginTransaction (db : Db) (token : String) (userId now : Nat) : Except PrismaError Db :=
  match refreshTokenCreate db token userId (now + 7 * 24 * 60 * 60 * 1000) now with
  | .error e => .error e
  | .ok db1 => userUpdateLastLogin db1 userId now

/-! ## JavaScript numbers -/

/-- A non-negative JavaScript number as the timespan code produces it: a finite
double holding a natural, or `Infinity`. -/
inductive JsNumber where
  | finite (value : Nat)
  | infinity
deriving DecidableEq, Repr

instance (n : Nat) : OfNat JsNumber n := ⟨JsNumber.finite n⟩

/-- How often `n` must be halved to fall below 2^53: the number of low bits that
the 53-bit significand of a double cannot hold. `fuel` bounds the halvings. -/
def droppedBits : Nat → Nat → Nat
  | 0, _ => 0
  | fuel + 1, n => if n < 2 ^ 53 then 0 else droppedBits fuel (n / 2) + 1

/-- The Number value of a natural: the natural itself below 2^53, else the nearest
multiple of 2^e with a 53-bit significand, a tie going to the even significand
(IEEE 754 binary64, round to nearest even); `Infinity` when that reaches
2^1024 = 2^53 * 2^971. -/
def JsNumber.round (n : Nat) : JsNumber :=
  let e := droppedBits n n
  if e = 0 then .finite n
  else
    let q := n / 2 ^ e
    let r := n % 2 ^ e
    let half := 2 ^ (e - 1)
    let significand := if half < r ∨ (r = half ∧ q % 2 = 1) then q + 1 else q
    if e < 971 ∨ (e = 971 ∧ significand < 2 ^ 53) then .finite (significand * 2 ^ e)
    else .infinity

/-- JavaScript `x * k` for a non-negative number `x` and a positive integer
literal `k`: the exact product, rounded to a double. -/
def JsNumber.mul (x : JsNumber) (k : Nat) : JsNumber :=
  match x with
  | .finite value => JsNumber.round (value * k)
  | .infinity => .infinity

/-! ## Requests and responses -/

/-- Options of `res.cookie` and `res.clearCookie`. -/
structure CookieOptions where
  httpOnly : Bool
  secure : Bool
  sameSite : String
  maxAge : Option JsNumber
  path : String
deriving DecidableEq, Repr

/-- A cookie instruction on the response. -/
inductive CookieAction where
  | set (name value : String) (options : CookieOptions)
  | clear (name : String) (options : CookieOptions)
deriving DecidableEq, Repr

/-- The user object of a response or of `req.user`: the selected columns; a
column that is not selected, or was deleted from the object, is `none`. -/
structure UserView where
  id : Nat
  userName : String
  email : String
  createdAt : Option Nat
  lastLogin : Option (Option Nat)
  isActive : Option Bool
  password : Option String
  communities : Option (List Community)
deriving DecidableEq, Repr

/-- JSON bodies the auth code sends. -/
inductive Body where
  | error (error : String)
  | message (message : String)
  | fail (message : String) (shouldRefresh : Option Bool)
  | session (user : UserView) (accessToken refreshToken : String)
  | user (user : UserView)
deriving DecidableEq, Repr

/-- The response object `res`: status (200 until set), cookie instructions in
the order issued, and the JSON body once sent. -/
structure Response where
  status : Nat
  cookies : List CookieAction
  body : Option Body
deriving DecidableEq, Repr

/-- The response object a handler receives. -/
def Response.init : Response := ⟨200, [], none⟩

/-- Express call `res.status(code)`. -/
def Response.withStatus (res : Response) (code : Nat) : Response :=
  { res with status := code }

/-- Express call `res.json(body)`. -/
def Response.json (res : Response) (body : Body) : Response :=
  { res with body := some body }

/-- Express call `res.cookie(name, value, options)`. -/
def Response.cookie (res : Response) (name value : String) (options : CookieOptions) :
    Response :=
  { res with cookies := res.cookies ++ [CookieAction.set name value options] }

/-- Express call `res.clearCookie(name, options)`. -/
def Response.clearCookie (res : Response) (name : String) (options : CookieOptions) :
    Response :=
  { res with cookies := res.cookies ++ [CookieAction.clear name options] }

/-- The response of every outer `catch` of the auth controller. -/
def internalError (res : Response) : Response :=
  (res.withStatus 500).json (.error "Internal server error")

/-- The parsed cookies `req.cookies` of a request. -/
structure Cookies where
  accessToken : Option String
  refreshToken : Option String
deriving DecidableEq, Repr

/-- JavaScript truthiness of an optional string: present and not empty. -/
def truthy (v : Option String) : Option String :=
  match v with
  | some s => if s = "" then none else some s
  | none => none

/-- Body of a signup request. -/
structure SignupBody where
  userName : Option String
  email : Option String
  password : Option String
deriving DecidableEq, Repr

/-- Body of a login request. -/
structure LoginBody where
  userName : Option String
  password : Option String
deriving DecidableEq, Repr

/-- What `protect` reads from and writes to the request. -/
structure Request where
  path : String
  cookies : Cookies
  authorization : Option String
  user : Option UserView
  userId : Option Nat
deriving DecidableEq, Repr

/-- Outcome of a middleware: it calls `next()` with the request as it left it,
or it sends a response. -/
inductive Outcome where
  | next (req : Request)
  | respond (res : Response)
deriving DecidableEq, Repr

/-- The user object of a JSON body, when it has one. -/
def Body.userView : Body → Option UserView
  | Body.session view _ _ => some view
  | Body.user view => some view
  | _ => none

/-- The user object of the body of a response, when it has one. -/
def Response.userView (res : Response) : Option UserView :=
  match res.body with
  | some body => body.userView
  | none => none

/-! ## authController.js -/

/-- Source function `generateAccessToken` (lines 11-15). -/
def generateAccessToken (lib : Crypto) (cfg : Config) (env : Env) (userId : Nat) : String :=
  lib.sign ⟨userId, none, none⟩ cfg.JWT_EXPIRES_IN env.now

/-- Source function `generateRefreshToken` (lines 17-25); `draw` is the index of
the random draw it consumes. -/
def generateRefreshToken (lib : Crypto) (env : Env) (userId draw : Nat) : String :=
  lib.sign ⟨userId, some env.now, some (env.random draw)⟩ "7d" env.now

/-- The integer that a run of decimal digits denotes. -/
def digitsValue (digits : List Char) : Nat :=
  digits.foldl (fun acc c => 10 * acc + (c.toNat - 48)) 0

/-- JavaScript `parseInt` on a run of decimal digits (the first capture group):
the Number value of the integer the digits denote. (Past 20 significant digits
ECMAScript lets an implementation replace later digits by 0; the value is then
above 10^19 in either case.) -/
def parseInt (digits : List Char) : JsNumber :=
  JsNumber.round (digitsValue digits)

/-- Source function `parseTimespanToMs` (lines 28-47): the string must match
`/^(\d+)([smhd])$/`, otherwise the fallback of 15 minutes is returned. The
products are taken from left to right, each rounded to a double. -/
def parseTimespanToMs (timespan : String) : JsNumber :=
  match timespan.data.reverse with
  | [] => .finite (15 * 60 * 1000)
  | unit :: rest =>
    let digits := rest.reverse
    if digits ≠ [] ∧ digits.all Char.isDigit = true then
      let value := parseInt digits
      if unit = 's' then value.mul 1000
      else if unit = 'm' then (value.mul 60).mul 1000
      else if unit = 'h' then ((value.mul 60).mul 60).mul 1000
      else if unit = 'd' then (((value.mul 24).mul 60).mul 60).mul 1000
      else .finite (15 * 60 * 1000)
    else .finite (15 * 60 * 1000)

/-- Source function `setCookies` (lines 49-67). -/
def setCookies (cfg : Config) (res : Response) (accessToken refreshToken : String) :
    Response :=
  let isProduction : Bool := cfg.NODE_ENV == "production"
  let res1 := res.cookie "accessToken" accessToken
    ⟨true, isProduction, if isProduction then "strict" else "lax",
      some (parseTimespanToMs cfg.JWT_EXPIRES_IN), "/"⟩
  res1.cookie "refreshToken" refreshToken
    ⟨true, isProduction, if isProduction then "strict" else "lax",
      some (parseTimespanToMs cfg.REFRESH_TOKEN_EXPIRES_IN), "/api/auth/refresh"⟩

/-- Source function `signup` (lines 70-136). Storage calls: 0 the lookup of an
existing user, 1 the creation of the user, 2 the creation of the session record. -/
def signup (lib : Crypto) (cfg : Config) (env : Env) (db : Db) (body : SignupBody) :
    Response × Db :=
  let res := Response.init
  match truthy body.userName, truthy body.email, truthy body.password with
  | some userName, some email, some password =>
    match env.call 0 (.ok (userFindFirstByNameOrEmail db userName email)) with
    | .error _ => (internalError res, db)
    | .ok (some _) =>
      ((res.withStatus 409).json (.error "User with this userName or email already exists"), db)
    | .ok none =>
      let hashedPassword := lib.hash password
      match env.call 1 (userCreate db userName email hashedPassword env.now) with
      | .error _ => (internalError res, db)
      | .ok (created, db1) =>
        let user : UserView :=
          ⟨created.id, created.userName, created.email, some created.createdAt,
            none, none, none, none⟩
        let accessToken := generateAccessToken lib cfg env user.id
        let refreshToken := generateRefreshToken lib env user.id 0
        match env.call 2 (refreshTokenCreate db1 refreshToken user.id
            (env.now + 7 * 24 * 60 * 60 * 1000) env.now) with
        | .error _ => (internalError res, db1)
        | .ok db2 =>
          let res1 := setCookies cfg res accessToken refreshToken
          ((res1.withStatus 201).json (.session user accessToken refreshToken), db2)
  | _, _, _ =>
    ((res.withStatus 400).json (.error "userName, email, and password are required"), db)

/-- Source function `login` (lines 139-214). Storage calls: 0 the lookup of the
user, 1 the transaction. -/
def login (lib : Crypto) (cfg : Config) (env : Env) (db : Db) (body : LoginBody) :
    Response × Db :=
  let res := Response.init
  match truthy body.userName, truthy body.password with
  | some userName, some password =>
    match env.call 0 (.ok (userFindUniqueByName db userName)) with
    | .error _ => (internalError res, db)
    | .ok none => ((res.withStatus 401).json (.error "Invalid credentials"), db)
    | .ok (some user) =>
      if !user.isActive then ((res.withStatus 401).json (.error "Invalid credentials"), db)
      else if !lib.compare password user.password then
        ((res.withStatus 401).json (.error "Invalid credentials"), db)
      else
        let accessToken := generateAccessToken lib cfg env user.id
        let refreshToken := generateRefreshToken lib env user.id 0
        match env.call 1 (loginTransaction db refreshToken user.id env.now) with
        | .error _ => (internalError res, db)
        | .ok db1 =>
          let res1 := setCookies cfg res accessToken refreshToken
          let view : UserView :=
            ⟨user.id, user.userName, user.email, none, none, some user.isActive, none,
              some user.communities⟩
          (res1.json (.session view accessToken refreshToken), db1)
  | _, _ => ((res.withStatus 400).json (.error "userName and password are required"), db)

/-- Source function `logout` (lines 217-253). Storage call 0 is the `updateMany`. -/
def logout (cfg : Config) (env : Env) (db : Db) (cookies : Cookies) : Response × Db :=
  let isProduction : Bool := cfg.NODE_ENV == "production"
  let res0 := Response.init
  let res1 := res0.clearCookie "accessTokne"
    ⟨true, isProduction, if isProduction then "strict" else "lax", none, "/"⟩
  let res2 := res1.clearCookie "refreshToken"
    ⟨true, isProduction, if isProduction then "strict" else "lax", none, "/api/auth/refresh"⟩
  match truthy cookies.refreshToken with
  | some refreshToken =>
    match env.call 0 (.ok (refreshTokenRevokeMany db refreshToken env.now)) with
    | .error _ => (internalError res2, db)
    | .ok db1 => (res2.json (.message "Logged out successfully"), db1)
  | none => (res2.json (.message "Logged out successfully"), db)

/-- The bound `maxAttempts` of the retry loop of `refreshToken` (line 306). -/
def maxAttempts : Nat := 3

/-- The loop `while (attempts < maxAttempts && !success)` of `refreshToken` (lines
310-349), entered with `remaining = maxAttempts - attempts`. It yields the new
refresh credential and the store after the swap on success, `none` and the store
as it was when the attempts are used up, and the error when an attempt throws
anything but a uniqueness conflict on the token column. Attempt number `attempts`
consumes random draw `attempts` and is storage call `2 + attempts`. -/
def rotateLoop (lib : Crypto) (env : Env) (db : Db) (userId recordId : Nat) :
    Nat → Nat → Except PrismaError (Option String × Db)
  | 0, _ => .ok (none, db)
  | remaining + 1, attempts =>
    let newRefreshToken := lib.sign ⟨userId, some env.now, some (env.random attempts)⟩ "7d" env.now
    match env.call (2 + attempts)
        (rotateTransaction db recordId newRefreshToken userId env.now) with
    | .ok db1 => .ok (some newRefreshToken, db1)
    | .error error =>
      if error.code = "P2002" ∧ "token" ∈ error.target then
        rotateLoop lib env db userId recordId remaining (attempts + 1)
      else .error error

/-- Source function `refreshToken` (lines 256-370). Storage calls: 0 the lookup
of the session record, 1 the lookup of the user, 2, 3, 4 the swap attempts. -/
def refreshToken (lib : Crypto) (cfg : Config) (env : Env) (db : Db) (cookies : Cookies) :
    Response × Db :=
  let res := Response.init
  match truthy cookies.refreshToken with
  | none => ((res.withStatus 401).json (.error "Refresh token required"), db)
  | some oldRefreshToken =>
    match lib.verify oldRefreshToken env.now with
    | .threw _ => ((res.withStatus 401).json (.error "Invalid refresh token"), db)
    | .ok payload =>
      match env.call 0 (.ok (refreshTokenFindFirst db oldRefreshToken payload.userId env.now)) with
      | .error _ => (internalError res, db)
      | .ok none => ((res.withStatus 401).json (.error "Invalid refresh token"), db)
      | .ok (some tokenRecord) =>
        match env.call 1 (.ok (userFindUniqueById db payload.userId)) with
        | .error _ => (internalError res, db)
        | .ok none => ((res.withStatus 401).json (.error "User not found or inactive"), db)
        | .ok (some user) =>
          if !user.isActive then
            ((res.withStatus 401).json (.error "User not found or inactive"), db)
          else
            let newAccessToken := generateAccessToken lib cfg env payload.userId
            match rotateLoop lib env db payload.userId tokenRecord.id maxAttempts 0 with
            | .error _ => (internalError res, db)
            | .ok (none, db1) =>
              ((res.withStatus 500).json (.error "Failed to generate unique token"), db1)
            | .ok (some newRefreshToken, db1) =>
              let res1 := setCookies cfg res newAccessToken newRefreshToken
              let view : UserView :=
                ⟨user.id, user.userName, user.email, none, none, none, none, none⟩
              (res1.json (.session view newAccessToken newRefreshToken), db1)

/-- Source function `getCurrentUser` (lines 372-409); `userId` is `req.userId`.
Storage call 0 is the lookup of the user. -/
def getCurrentUser (env : Env) (db : Db) (userId : Option Nat) : Response × Db :=
  let res := Response.init
  match userId with
  | none => ((res.withStatus 401).json (.error "Not authenticated"), db)
  | some id =>
    if id = 0 then ((res.withStatus 401).json (.error "Not authenticated"), db)
    else
      match env.call 0 (.ok (userFindUniqueById db id)) with
      | .error _ => (internalError res, db)
      | .ok none => ((res.withStatus 401).json (.error "User not found or inactive"), db)
      | .ok (some user) =>
        if !user.isActive then
          ((res.withStatus 401).json (.error "User not found or inactive"), db)
        else
          (res.json (.user ⟨user.id, user.userName, user.email, some user.createdAt,
            some user.lastLogin, some user.isActive, none, some user.communities⟩), db)

/-! ## authMiddleware.js -/

/-- JavaScript `s.split(" ")` on the characters of `s`. -/
def splitOnSpace : List Char → List (List Char)
  | [] => [[]]
  | c :: cs =>
    match splitOnSpace cs with
    | [] => [[c]]
    | w :: ws => if c = ' ' then [] :: w :: ws else (c :: w) :: ws

/-- Token extraction of `protect` (lines 15-20): the `accessToken` cookie when it
is truthy, else the second space-separated piece of an authorization header that
starts with `Bearer`. -/
def extractToken (req : Request) : Option String :=
  match truthy req.cookies.accessToken with
  | some token => some token
  | none =>
    match req.authorization with
    | none => none
    | some header =>
      if "Bearer".data.isPrefixOf header.data then
        ((splitOnSpace header.data).get? 1).map String.mk
      else none

/-- The `catch` block of `protect` (lines 55-70), given `err.name`. -/
def protectCatch (req : Request) (errName : String) : Response :=
  if errName = "TokenExpiredError" ∧ req.path ≠ "/api/auth/refresh" then
    (Response.init.withStatus 401).json
      (.fail "Session expired. Attempting to refresh..." (some true))
  else (Response.init.withStatus 401).json (.fail "Authentication failed" none)

/-- Source function `protect` (lines 7-71). Storage call 0 is the lookup of the
user. The middleware only reads the store. -/
def protect (lib : Crypto) (env : Env) (db : Db) (req : Request) : Outcome :=
  if req.path = "/api/auth/refresh" then .next req
  else
    match truthy (extractToken req) with
    | none =>
      .respond ((Response.init.withStatus 401).json
        (.fail "Please log in to access this resource" none))
    | some token =>
      if token = "loggedout" then
        .respond ((Response.init.withStatus 401).json
          (.fail "Please log in to access this resource" none))
      else
        match lib.verify token env.now with
        | .threw name => .respond (protectCatch req name)
        | .ok decoded =>
          match env.call 0 (.ok (userFindUniqueById db decoded.userId)) with
          | .error err => .respond (protectCatch req err.name)
          | .ok none =>
            .respond ((Response.init.withStatus 401).json
              (.fail "User account is inactive or deleted" none))
          | .ok (some currentUser) =>
            if !currentUser.isActive then
              .respond ((Response.init.withStatus 401).json
                (.fail "User account is inactive or deleted" none))
            else
              .next { req with
                user := some ⟨currentUser.id, currentUser.userName, currentUser.email,
                  some currentUser.createdAt, none, some currentUser.isActive, none, none⟩
                userId := some currentUser.id }

/-! ## Sequences of requests -/

/-- One request to the auth controller or the auth middleware. -/
inductive Op where
  | signup (body : SignupBody)
  | login (body : LoginBody)
  | logout (cookies : Cookies)
  | refreshToken (cookies : Cookies)
  | getCurrentUser (userId : Option Nat)
  | protect (req : Request)

/-- The store after one request. -/
def Op.exec (lib : Crypto) (cfg : Config) (env : Env) (db : Db) : Op → Db
  | .signup body => (RedditClone.signup lib cfg env db body).2
  | .login body => (RedditClone.login lib cfg env db body).2
  | .logout cookies => (RedditClone.logout cfg env db cookies).2
  | .refreshToken cookies => (RedditClone.refreshToken lib cfg env db cookies).2
  | .getCurrentUser userId => (RedditClone.getCurrentUser env db userId).2
  | .protect _ => db

/-- The store after a sequence of requests, each with its own environment. -/
def runOps (lib : Crypto) (cfg : Config) (db : Db) : List (Env × Op) → Db
  | [] => db
  | (env, op) :: rest => runOps lib cfg (op.exec lib cfg env db) rest

/-- A session record is valid for use at time `now`: not revoked and not expired. -/
def RefreshToken.validAt (r : RefreshToken) (now : Nat) : Prop :=
  r.revokedAt = none ∧ now < r.expiresAt

instance (r : RefreshToken) (now : Nat) : Decidable (r.validAt now) := by
  unfold RefreshToken.validAt; infer_instance

/-- The unique constraints of the session table hold: no two records share a
token and no two share an id. -/
def Db.sessionsUnique (db : Db) : Prop :=
  (db.refreshTokens.map RefreshToken.token).Nodup ∧ (db.refreshTokens.map RefreshToken.id).Nodup

instance (db : Db) : Decidable db.sessionsUnique := by
  unfold Db.sessionsUnique; infer_instance

/-- No storage call of the request fails. -/
def Env.storageUp (env : Env) : Prop :=
  ∀ k, env.fault k = none

/-! ## The await points of `refreshToken` -/

/-- The local variables of `refreshToken` once both lookups have passed (line 300). -/
structure Looked where
  payload : Payload
  tokenRecord : RefreshToken
  user : User
deriving DecidableEq, Repr

/-- The part of `refreshToken` up to the check of the user (lines 258-299). It
only reads the store; it either ends the request with a response or goes on with
what it has read. -/
def refreshTokenLookups (lib : Crypto) (env : Env) (db : Db) (cookies : Cookies) :
    Response ⊕ Looked :=
  let res := Response.init
  match truthy cookies.refreshToken with
  | none => .inl ((res.withStatus 401).json (.error "Refresh token required"))
  | some oldRefreshToken =>
    match lib.verify oldRefreshToken env.now with
    | .threw _ => .inl ((res.withStatus 401).json (.error "Invalid refresh token"))
    | .ok payload =>
      match env.call 0 (.ok (refreshTokenFindFirst db oldRefreshToken payload.userId env.now)) with
      | .error _ => .inl (internalError res)
      | .ok none => .inl ((res.withStatus 401).json (.error "Invalid refresh token"))
      | .ok (some tokenRecord) =>
        match env.call 1 (.ok (userFindUniqueById db payload.userId)) with
        | .error _ => .inl (internalError res)
        | .ok none => .inl ((res.withStatus 401).json (.error "User not found or inactive"))
        | .ok (some user) =>
          if !user.isActive then
            .inl ((res.withStatus 401).json (.error "User not found or inactive"))
          else .inr ⟨payload, tokenRecord, user⟩

/-- The part of `refreshToken` from line 301 on, run on the store as it is when
the request resumes after the `await` of the second lookup. -/
def refreshTokenSwap (lib : Crypto) (cfg : Config) (env : Env) (db : Db) (looked : Looked) :
    Response × Db :=
  let res := Response.init
  let newAccessToken := generateAccessToken lib cfg env looked.payload.userId
  match rotateLoop lib env db looked.payload.userId looked.tokenRecord.id maxAttempts 0 with
  | .error _ => (internalError res, db)
  | .ok (none, db1) =>
    ((res.withStatus 500).json (.error "Failed to generate unique token"), db1)
  | .ok (some newRefreshToken, db1) =>
    let res1 := setCookies cfg res newAccessToken newRefreshToken
    let view : UserView :=
      ⟨looked.user.id, looked.user.userName, looked.user.email, none, none, none, none, none⟩
    (res1.json (.session view newAccessToken newRefreshToken), db1)

/-- Two requests in flight: each runs its lookups on the store it finds, and
the second resumes on the store the first has left. This is the schedule in
which request B is served while request A waits for its transaction. -/
def refreshTokenRace (lib : Crypto) (cfg : Config) (envA envB : Env) (db : Db)
    (cookiesA cookiesB : Cookies) : Option ((Response × Response) × Db) :=
  match refreshTokenLookups lib envA db cookiesA, refreshTokenLookups lib envB db cookiesB with
  | .inr lookedA, .inr lookedB =>
    let outA := refreshTokenSwap lib cfg envA db lookedA
    let outB := refreshTokenSwap lib cfg envB outA.2 lookedB
    some ((outA.1, outB.1), outB.2)
  | _, _ => none

/-! ## The client of the routes -/

/-- Path of the logout route: the mount point of the auth router (`index.js` line
32) joined with the route (`authRoute.js` line 15). -/
def logoutRoute : String := "/api/auth/logout"

/-- Path of the refresh route (`index.js` line 32, `authRoute.js` line 16). -/
def refreshRoute : String := "/api/auth/refresh"

/-- A request path lies within a cookie path: the paths are equal, or the cookie
path is a leading part of the request path that ends in `/` or is followed by
`/` in the request path. -/
def pathMatches (cookiePath requestPath : String) : Bool :=
  cookiePath.data == requestPath.data ||
    (cookiePath.data.isPrefixOf requestPath.data &&
      (cookiePath.data.getLast? == some '/' ||
        (requestPath.data.drop cookiePath.data.length).head? == some '/'))

/-- The cookies a client holds, as (name, path, value), after obeying the cookie
instructions of a response in order: a cookie set replaces the one of the same
name and path, a cookie cleared is dropped. -/
def storeCookies (jar : List (String × String × String)) :
    List CookieAction → List (String × String × String)
  | [] => jar
  | .set name value options :: rest =>
    storeCookies
      (jar.filter (fun c => !(c.1 == name && c.2.1 == options.path)) ++
        [(name, options.path, value)]) rest
  | .clear name options :: rest =>
    storeCookies (jar.filter (fun c => !(c.1 == name && c.2.1 == options.path))) rest

/-- The value a client sends for the cookie `name` on a request to `requestPath`. -/
def sentCookie (jar : List (String × String × String)) (name requestPath : String) :
    Option String :=
  (jar.find? (fun c => c.1 == name && pathMatches c.2.1 requestPath)).map (fun c => c.2.2)

/-- The cookies `req.cookies` of a request to `requestPath` from a client that
started without cookies, obeyed the cookie instructions `actions`, and sends
each cookie only on requests whose path lies within the path of the cookie. -/
def clientCookies (actions : List CookieAction) (requestPath : String) : Cookies :=
  let jar := storeCookies [] actions
  ⟨sentCookie jar "accessToken" requestPath, sentCookie jar "refreshToken" requestPath⟩

/-! ## voteController.js and the vote tallies of postController.js -/

/-- The columns of the `Post` table that the vote and tally code reads; the ORM
schema is not among the sources. -/
structure Post where
  id : Nat
  authorId : Nat
  communityId : Nat
  createdAt : Nat
deriving DecidableEq, Repr

/-- The `Vote` table as the handlers use it (the ORM schema is not among the
sources): a type, `"UP"` or `"DOWN"`, the voter, the post, and the timestamps;
the pair of voter and post is unique (`userId_postId`). -/
structure Vote where
  id : Nat
  type : String
  userId : Nat
  postId : Nat
  createdAt : Nat
  updatedAt : Nat
deriving DecidableEq, Repr

/-- The tables the vote and tally code touches. -/
structure Forum where
  posts : List Post
  votes : List Vote
deriving DecidableEq, Repr

/-- Store call `prisma.post.findUnique({where: {id}})`. -/
def postFindUnique (db : Forum) (id : Nat) : Option Post :=
  db.posts.find? (fun p => p.id == id)

/-- Store call `prisma.vote.findUnique({where: {userId_postId: {userId, postId}}})`. -/
def voteFindUnique (db : Forum) (userId postId : Nat) : Option Vote :=
  db.votes.find? (fun v => v.userId == userId && v.postId == postId)

/-- Store call `prisma.vote.delete({where: {userId_postId: {userId, postId}}})`. -/
def voteDelete (db : Forum) (userId postId : Nat) : Except PrismaError Forum :=
  if db.votes.any (fun v => v.userId == userId && v.postId == postId) then
    .ok { db with
      votes := db.votes.filter (fun v => !(v.userId == userId && v.postId == postId)) }
  else .error recordNotFound

/-- Store call `prisma.vote.update({where: {userId_postId: {userId, postId}},
data: {type, updatedAt: new Date()}})`; it returns the updated vote. -/
def voteUpdate (db : Forum) (userId postId : Nat) (type : String) (now : Nat) :
    Except PrismaError (Vote × Forum) :=
  match voteFindUnique db userId postId with
  | none => .error recordNotFound
  | some found =>
    .ok ({ found with type := type, updatedAt := now },
      { db with
        votes := db.votes.map (fun v =>
          if v.userId = userId ∧ v.postId = postId then
            { v with type := type, updatedAt := now }
          else v) })

/-- Store call `prisma.vote.create({data: {type, userId, postId}})`; it returns the
created vote. A second vote of the same voter on the same post is a uniqueness
conflict. -/
def voteCreate (db : Forum) (type : String) (userId postId now : Nat) :
    Except PrismaError (Vote × Forum) :=
  if db.votes.any (fun v => v.userId == userId && v.postId == postId) then
    .error ⟨"PrismaClientKnownRequestError", "P2002", ["userId", "postId"]⟩
  else
    let vote : Vote := ⟨freshId (db.votes.map Vote.id), type, userId, postId, now, now⟩
    .ok (vote, { db with votes := db.votes ++ [vote] })

/-- Store call `prisma.vote.count({where: {postId, type}})`. -/
def voteCount (db : Forum) (postId : Nat) (type : String) : Nat :=
  (db.votes.filter (fun v => v.postId == postId && v.type == type)).length

/-- Body of a vote request. -/
structure VoteRequest where
  postId : Option Nat
  type : Option String
deriving DecidableEq, Repr

/-- JSON bodies `castVote` sends. -/
inductive VoteJson where
  | error (error : String)
  | success (vote : Option Vote) (voteScore : Int) (upvotes downvotes : Nat)
deriving DecidableEq, Repr

/-- Response of `castVote`. -/
structure VoteResponse where
  status : Nat
  body : VoteJson
deriving DecidableEq, Repr

/-- JavaScript truthiness of an optional id: present and not the falsy id 0. -/
def truthyId (v : Option Nat) : Option Nat :=
  match v with
  | some id => if id = 0 then none else some id
  | none => none

/-- Source function `castVote` (`voteController.js` lines 6-109); `userId` is
`req.userId`, set by `protect`. Storage calls: 0 the lookup of the post, 1 the
lookup of the vote, 2 the delete, update or create, 3 and 4 the two counts. -/
def castVote (env : Env) (db : Forum) (userId : Nat) (body : VoteRequest) :
    VoteResponse × Forum :=
  match truthyId body.postId, truthy body.type with
  | some postId, some type =>
    if type ≠ "UP" ∧ type ≠ "DOWN" then (⟨400, .error "Vote type must be UP or DOWN."⟩, db)
    else
      match env.call 0 (.ok (postFindUnique db postId)) with
      | .error _ => (⟨500, .error "Internal server error."⟩, db)
      | .ok none => (⟨404, .error "Post not found."⟩, db)
      | .ok (some _) =>
        match env.call 1 (.ok (voteFindUnique db userId postId)) with
        | .error _ => (⟨500, .error "Internal server error."⟩, db)
        | .ok existingVote =>
          let changed : Except PrismaError (Option Vote × Forum) :=
            match existingVote with
            | some existing =>
              if existing.type = type then
                match env.call 2 (voteDelete db userId postId) with
                | .error e => .error e
                | .ok db1 => .ok (none, db1)
              else
                match env.call 2 (voteUpdate db userId postId type env.now) with
                | .error e => .error e
                | .ok (vote, db1) => .ok (some vote, db1)
            | none =>
              match env.call 2 (voteCreate db type userId postId env.now) with
              | .error e => .error e
              | .ok (vote, db1) => .ok (some vote, db1)
          match changed with
          | .error _ => (⟨500, .error "Internal server error."⟩, db)
          | .ok (vote, db1) =>
            match env.call 3 (.ok (voteCount db1 postId "UP")) with
            | .error _ => (⟨500, .error "Internal server error."⟩, db1)
            | .ok upvotes =>
              match env.call 4 (.ok (voteCount db1 postId "DOWN")) with
              | .error _ => (⟨500, .error "Internal server error."⟩, db1)
              | .ok downvotes =>
                (⟨200, .success vote ((upvotes : Int) - (downvotes : Int)) upvotes downvotes⟩,
                  db1)
  | _, _ => (⟨400, .error "PostId and type are required."⟩, db)

/-- A post of a listing with the vote figures added to it. -/
structure PostWithVotes where
  post : Post
  voteScore : Int
  upvotes : Nat
  downvotes : Nat
deriving DecidableEq, Repr

/-- The per-post tally of `getPosts` (`postController.js` lines 318-342): two
counts for each post of the listing. -/
def getPostsVoteCounts (db : Forum) (posts : List Post) : List PostWithVotes :=
  posts.map (fun post =>
    let upvotes := voteCount db post.id "UP"
    let downvotes := voteCount db post.id "DOWN"
    ⟨post, (upvotes : Int) - (downvotes : Int), upvotes, downvotes⟩)

/-- One row of `prisma.vote.groupBy({by: ["postId", "type"], _count: true})`. -/
structure VoteGroup where
  postId : Nat
  type : String
  count : Nat
deriving DecidableEq, Repr

/-- Store call `prisma.vote.groupBy({by: ["postId", "type"], where: {postId: {in:
postIds}}, _count: true})`: one row for each pair of post and type that occurs
among the selected votes, with the number of those votes. -/
def voteGroupBy (db : Forum) (postIds : List Nat) : List VoteGroup :=
  let selected := db.votes.filter (fun v => postIds.contains v.postId)
  let keys := (selected.map (fun v => (v.postId, v.type))).dedup
  keys.map (fun key =>
    ⟨key.1, key.2, (selected.filter (fun v => v.postId == key.1 && v.type == key.2)).length⟩)

/-- The batched tally of `getPostsByAuthorId` (`postController.js` lines 481-502):
one grouped query, then for each post the count of its `"UP"` row and of its
`"DOWN"` row, 0 when the row is absent. -/
def getPostsByAuthorIdVoteCounts (db : Forum) (posts : List Post) : List PostWithVotes :=
  let voteCounts := voteGroupBy db (posts.map (fun post => post.id))
  posts.map (fun post =>
    let postVotes := voteCounts.filter (fun v => v.postId == post.id)
    let upvotes := ((postVotes.find? (fun v => v.type == "UP")).map VoteGroup.count).getD 0
    let downvotes := ((postVotes.find? (fun v => v.type == "DOWN")).map VoteGroup.count).getD 0
    ⟨post, (upvotes : Int) - (downvotes : Int), upvotes, downvotes⟩)

/-- The unique constraint of the vote table holds: no two votes share voter and
post. -/
def Forum.votesUnique (db : Forum) : Prop :=
  (db.votes.map (fun v => (v.userId, v.postId))).Nodup

instance (db : Forum) : Decidable db.votesUnique := by
  unfold Forum.votesUnique; infer_instance

/-- The votes of `userId` on `postId`. -/
def Forum.votesOf (db : Forum) (userId postId : Nat) : List Vote :=
  db.votes.filter (fun v => v.userId == userId && v.postId == postId)

/-- The vote table without the votes of `userId` on `postId`. -/
def votesWithout (votes : List Vote) (userId postId : Nat) : List Vote :=
  votes.filter (fun v => !(v.userId == userId && v.postId == postId))

/-- The vote table with the votes of `userId` on `postId` set to `type` at time
`now`. -/
def votesRetyped (votes : List Vote) (userId postId : Nat) (type : String) (now : Nat) :
    List Vote :=
  votes.map (fun v =>
    if v.userId = userId ∧ v.postId = postId then { v with type := type, updatedAt := now }
    else v)

/-- The number of votes of the given type on `postId` in a vote table, counted
directly on the table. -/
def votesOn (votes : List Vote) (postId : Nat) (type : String) : Nat :=
  votes.countP (fun v => decide (v.postId = postId ∧ v.type = type))

/-- The response the claim on `castVote` describes: status 200, the vote, the
numbers of `"UP"` and of `"DOWN"` votes on `postId` in the vote table of `db`,
and their difference as `voteScore`. -/
def voteReport (db : Forum) (postId : Nat) (vote : Option Vote) : VoteResponse :=
  ⟨200, .success vote ((votesOn db.votes postId "UP" : Int) - (votesOn db.votes postId "DOWN" : Int))
    (votesOn db.votes postId "UP") (votesOn db.votes postId "DOWN")⟩

/-! ## Lifecycle relations -/

/-- A record `r1` is a later stage of record `r`: same id, token, owner and
expiry, and still revoked when `r` was. -/
def RefreshToken.evolves (r r1 : RefreshToken) : Prop :=
  r1.id = r.id ∧ r1.token = r.token ∧ r1.userId = r.userId ∧ r1.expiresAt = r.expiresAt ∧
    (r.revokedAt ≠ none → r1.revokedAt ≠ none)

/-- The session table of `d1` is a later stage of that of `d`: position by
position the old records have evolved, and the records appended carry tokens
that none of the old records carries. -/
def Db.grows (d d1 : Db) : Prop :=
  ∃ kept added : List RefreshToken, d1.refreshTokens = kept ++ added ∧
    List.Forall₂ RefreshToken.evolves d.refreshTokens kept ∧
    ∀ a ∈ added, ∀ r ∈ d.refreshTokens, a.token ≠ r.token

/-- The credential `token` is spent in `d`: some record carries it, and every
record that carries it is revoked. -/
def Db.spent (d : Db) (token : String) : Prop :=
  (∃ r ∈ d.refreshTokens, r.token = token) ∧
    ∀ r ∈ d.refreshTokens, r.token = token → r.revokedAt ≠ none

/-! ## A concrete instance -/

/-- A toy signing library: a refresh credential is `"refresh."` followed by its
nonce, an access credential is `"access"`; `"refresh.r0"` verifies as user 1,
`"expired"` is correctly signed but past its lifetime, and anything else is
rejected. -/
def demoCrypto : Crypto where
  sign := fun payload _ _ =>
    match payload.random with
    | some nonce => "refresh." ++ nonce
    | none => "access"
  verify := fun token _ =>
    if token = "refresh.r0" then .ok ⟨1, some 0, some "r0"⟩
    else if token = "expired" then .threw "TokenExpiredError"
    else .threw "JsonWebTokenError"
  hash := fun password => "h:" ++ password
  compare := fun password hashed => "h:" ++ password == hashed

/-- A development configuration. -/
def demoConfig : Config := ⟨"15m", "7d", "development"⟩

/-- Time 10, nonces `n1`, `n2`, `n3`, ..., storage available. -/
def demoEnv : Env where
  now := 10
  random := fun k => if k = 0 then "n1" else if k = 1 then "n2" else "n3"
  fault := fun _ => none

/-- One active user holding one unrevoked session that expires at time 100. -/
def demoDb : Db where
  users := [⟨1, "alice", "alice@example.com", "h:secret123", true, 0, none, []⟩]
  refreshTokens := [⟨1, "refresh.r0", 1, 100, none, 0⟩]

/-- As `demoDb`, with the user deactivated. -/
def demoDbInactive : Db where
  users := [⟨1, "alice", "alice@example.com", "h:secret123", false, 0, none, []⟩]
  refreshTokens := [⟨1, "refresh.r0", 1, 100, none, 0⟩]

/-- As `demoDb`, with the first three credentials that `demoEnv` mints already
stored, so that every swap attempt collides. -/
def demoDbCollide : Db where
  users := [⟨1, "alice", "alice@example.com", "h:secret123", true, 0, none, []⟩]
  refreshTokens := [⟨1, "refresh.r0", 1, 100, none, 0⟩, ⟨2, "refresh.n1", 1, 100, none, 0⟩,
    ⟨3, "refresh.n2", 1, 100, none, 0⟩, ⟨4, "refresh.n3", 1, 100, none, 0⟩]

/-- A request to a protected path carrying `token` in the `accessToken` cookie. -/
def demoRequest (token : String) : Request :=
  ⟨"/api/posts", ⟨some token, none⟩, none, none, none⟩

/-- As `demoCrypto`, except that the access credential `"access"` verifies as
user 1, which is the payload it is signed from for that user. -/
def demoCryptoAccess : Crypto where
  sign := demoCrypto.sign
  verify := fun token now =>
    if token = "access" then .ok ⟨1, none, none⟩ else demoCrypto.verify token now
  hash := demoCrypto.hash
  compare := demoCrypto.compare

/-- A development configuration whose refresh-credential lifetime is one day. -/
def demoConfigOneDay : Config := ⟨"15m", "1d", "development"⟩

/-- A signing library whose token spells out the lifetime it was asked for. -/
def lifetimeCrypto : Crypto where
  sign := fun _ expiresIn _ => expiresIn
  verify := demoCrypto.verify
  hash := demoCrypto.hash
  compare := demoCrypto.compare

/-- A second request environment: time 11, nonces `m1`, `m2`, `m3`, storage
available. -/
def demoEnvB : Env where
  now := 11
  random := fun k => if k = 0 then "m1" else if k = 1 then "m2" else "m3"
  fault := fun _ => none

/-- Cookies of a client holding the session of `demoDb`. -/
def demoCookies : Cookies := ⟨none, some "refresh.r0"⟩

/-- As `demoEnv`, except that the third storage call of the request fails
because the database cannot be reached. -/
def demoEnvUnreachable : Env where
  now := 10
  random := fun k => if k = 0 then "n1" else if k = 1 then "n2" else "n3"
  fault := fun k => if k = 2 then some ⟨"PrismaClientKnownRequestError", "P1001", []⟩ else none

/-- A forum with one post, number 7, on which user 2 has voted up. -/
def demoForum : Forum where
  posts := [⟨7, 1, 1, 0⟩]
  votes := [⟨1, "UP", 2, 7, 0, 0⟩]

/-! ## Lemmas on the store -/

theorem call_of_storageUp {α : Type} (env : Env) (h : env.storageUp) (k : Nat)
    (r : Except PrismaError α) : env.call k r = r := by
  unfold Env.call
  rw [h k]

theorem find?_eq_of_unique {α : Type} (p : α → Bool) (l : List α) (a : α)
    (hmem : a ∈ l) (hp : p a = true) (huniq : ∀ b ∈ l, p b = true → b = a) :
    l.find? p = some a := by
  induction l with
  | nil => simp at hmem
  | cons x xs ih =>
    by_cases hx : p x = true
    · have hxa : x = a := huniq x (List.mem_cons_self x xs) hx
      subst hxa
      simp [List.find?, hx]
    · have hne : a ≠ x := fun h => hx (h ▸ hp)
      have hmem2 : a ∈ xs := by
        rcases List.mem_cons.mp hmem with h | h
        · exact absurd h hne
        · exact h
      have := ih hmem2 (fun b hb => huniq b (List.mem_cons_of_mem x hb))
      simp [List.find?, hx, this]

theorem eq_of_token_eq (l : List RefreshToken) (h : (l.map RefreshToken.token).Nodup)
    (a b : RefreshToken) (ha : a ∈ l) (hb : b ∈ l) (hab : a.token = b.token) : a = b :=
  List.inj_on_of_nodup_map h ha hb hab

theorem eq_of_id_eq (l : List RefreshToken) (h : (l.map RefreshToken.id).Nodup)
    (a b : RefreshToken) (ha : a ∈ l) (hb : b ∈ l) (hab : a.id = b.id) : a = b :=
  List.inj_on_of_nodup_map h ha hb hab

theorem lt_freshId (ids : List Nat) (n : Nat) (h : n ∈ ids) : n < freshId ids := by
  unfold freshId
  induction ids with
  | nil => simp at h
  | cons x xs ih =>
    simp only [List.foldr_cons]
    rcases List.mem_cons.mp h with h | h
    · subst h
      omega
    · have := ih h
      omega

/-- Under the unique constraint on the token column the lookup of `refreshToken`
returns the one record that matches. -/
theorem refreshTokenFindFirst_eq (db : Db) (old : String) (userId now : Nat)
    (record : RefreshToken) (huniq : (db.refreshTokens.map RefreshToken.token).Nodup)
    (hmem : record ∈ db.refreshTokens) (htoken : record.token = old)
    (huser : record.userId = userId) (hrev : record.revokedAt = none)
    (hexp : now < record.expiresAt) :
    refreshTokenFindFirst db old userId now = some record := by
  unfold refreshTokenFindFirst
  apply find?_eq_of_unique _ _ _ hmem
  · simp [htoken, huser, hrev, hexp]
  · intro b hb hpb
    simp at hpb
    exact eq_of_token_eq _ huniq b record hb hmem (by rw [hpb.1.1.1, htoken])

/-- The swap succeeds when the old record exists and the new token is not stored:
the record with the old id is revoked and one record is appended. -/
theorem rotateTransaction_ok (db : Db) (oldId : Nat) (newToken : String) (userId now : Nat)
    (hex : ∃ r ∈ db.refreshTokens, r.id = oldId)
    (hfresh : ∀ r ∈ db.refreshTokens, r.token ≠ newToken) :
    rotateTransaction db oldId newToken userId now = .ok
      { db with
        refreshTokens := db.refreshTokens.map
            (fun r => if r.id = oldId then { r with revokedAt := some now } else r) ++
          [⟨freshId ((db.refreshTokens.map
              (fun r => if r.id = oldId then { r with revokedAt := some now } else r)).map
              RefreshToken.id),
            newToken, userId, now + 7 * 24 * 60 * 60 * 1000, none, now⟩] } := by
  obtain ⟨r0, hr0, hid⟩ := hex
  have hany : db.refreshTokens.any (fun r => r.id == oldId) = true := by
    simp only [List.any_eq_true]
    exact ⟨r0, hr0, by simp [hid]⟩
  have hnone : (db.refreshTokens.map
      (fun r => if r.id = oldId then { r with revokedAt := some now } else r)).any
      (fun r => r.token == newToken) = false := by
    rw [Bool.eq_false_iff]
    intro hc
    simp only [List.any_eq_true, List.mem_map] at hc
    obtain ⟨x, ⟨y, hy, rfl⟩, hx⟩ := hc
    have := hfresh y hy
    by_cases hyid : y.id = oldId <;> simp [hyid] at hx <;> exact this hx
  simp [rotateTransaction, refreshTokenRevokeById, refreshTokenCreate, hany, hnone]

/-- The swap collides when the new token is already stored: it throws the
uniqueness conflict on the token column and nothing is written. -/
theorem rotateTransaction_collision (db : Db) (oldId : Nat) (newToken : String)
    (userId now : Nat) (hex : ∃ r ∈ db.refreshTokens, r.id = oldId)
    (hstored : ∃ r ∈ db.refreshTokens, r.token = newToken) :
    rotateTransaction db oldId newToken userId now = .error (uniqueViolation "token") := by
  obtain ⟨r0, hr0, hid⟩ := hex
  obtain ⟨r1, hr1, htok⟩ := hstored
  have hany : db.refreshTokens.any (fun r => r.id == oldId) = true := by
    simp only [List.any_eq_true]
    exact ⟨r0, hr0, by simp [hid]⟩
  have hsome : (db.refreshTokens.map
      (fun r => if r.id = oldId then { r with revokedAt := some now } else r)).any
      (fun r => r.token == newToken) = true := by
    simp only [List.any_eq_true, List.mem_map]
    refine ⟨_, ⟨r1, hr1, rfl⟩, ?_⟩
    by_cases h : r1.id = oldId <;> simp [h, htok]
  simp [rotateTransaction, refreshTokenRevokeById, refreshTokenCreate, hany, hsome]

/-! ## Lemmas on the lifecycle relations -/

theorem evolves_refl (r : RefreshToken) : r.evolves r :=
  ⟨rfl, rfl, rfl, rfl, fun h => h⟩

theorem evolves_trans {a b c : RefreshToken} (hab : a.evolves b) (hbc : b.evolves c) :
    a.evolves c :=
  ⟨hbc.1.trans hab.1, hbc.2.1.trans hab.2.1, hbc.2.2.1.trans hab.2.2.1,
    hbc.2.2.2.1.trans hab.2.2.2.1, fun h => hbc.2.2.2.2 (hab.2.2.2.2 h)⟩

theorem forall₂_evolves_map (f : RefreshToken → RefreshToken) (l : List RefreshToken)
    (h : ∀ r : RefreshToken, r.evolves (f r)) : List.Forall₂ RefreshToken.evolves l (l.map f) := by
  induction l with
  | nil => exact List.Forall₂.nil
  | cons x xs ih => exact List.Forall₂.cons (h x) ih

theorem forall₂_evolves_trans {l k m : List RefreshToken}
    (hlk : List.Forall₂ RefreshToken.evolves l k) (hkm : List.Forall₂ RefreshToken.evolves k m) :
    List.Forall₂ RefreshToken.evolves l m := by
  induction hlk generalizing m with
  | nil => cases hkm; exact List.Forall₂.nil
  | cons hab _ ih =>
    cases hkm with
    | cons hbc htl => exact List.Forall₂.cons (evolves_trans hab hbc) (ih htl)

theorem forall₂_split_left {l1 l2 m : List RefreshToken}
    (h : List.Forall₂ RefreshToken.evolves (l1 ++ l2) m) :
    ∃ m1 m2, m = m1 ++ m2 ∧ List.Forall₂ RefreshToken.evolves l1 m1 ∧
      List.Forall₂ RefreshToken.evolves l2 m2 := by
  induction l1 generalizing m with
  | nil => exact ⟨[], m, rfl, List.Forall₂.nil, h⟩
  | cons x xs ih =>
    cases h with
    | cons hx htl =>
      obtain ⟨m1, m2, rfl, h1, h2⟩ := ih htl
      exact ⟨_ :: m1, m2, rfl, List.Forall₂.cons hx h1, h2⟩

theorem forall₂_mem_left {l k : List RefreshToken}
    (h : List.Forall₂ RefreshToken.evolves l k) (r : RefreshToken) (hr : r ∈ l) :
    ∃ r1 ∈ k, r.evolves r1 := by
  induction h with
  | nil => simp at hr
  | cons hab _ ih =>
    rcases List.mem_cons.mp hr with rfl | hr
    · exact ⟨_, List.mem_cons_self _ _, hab⟩
    · obtain ⟨r1, hr1, hev⟩ := ih hr
      exact ⟨r1, List.mem_cons_of_mem _ hr1, hev⟩

theorem forall₂_mem_right {l k : List RefreshToken}
    (h : List.Forall₂ RefreshToken.evolves l k) (r1 : RefreshToken) (hr1 : r1 ∈ k) :
    ∃ r ∈ l, r.evolves r1 := by
  induction h with
  | nil => simp at hr1
  | cons hab _ ih =>
    rcases List.mem_cons.mp hr1 with rfl | hr1
    · exact ⟨_, List.mem_cons_self _ _, hab⟩
    · obtain ⟨r, hr, hev⟩ := ih hr1
      exact ⟨r, List.mem_cons_of_mem _ hr, hev⟩

theorem forall₂_get? {l k : List RefreshToken}
    (h : List.Forall₂ RefreshToken.evolves l k) (i : Nat) (r : RefreshToken)
    (hr : l.get? i = some r) : ∃ r1, k.get? i = some r1 ∧ r.evolves r1 := by
  induction h generalizing i with
  | nil => simp at hr
  | cons hab _ ih =>
    cases i with
    | zero =>
      simp only [List.get?_cons_zero, Option.some.injEq] at hr
      subst hr
      exact ⟨_, rfl, hab⟩
    | succ j => exact ih j hr

theorem forall₂_evolves_refl (l : List RefreshToken) :
    List.Forall₂ RefreshToken.evolves l l := by
  have := forall₂_evolves_map id l evolves_refl
  simpa using this

theorem grows_refl (d : Db) : d.grows d :=
  ⟨d.refreshTokens, [], by simp, forall₂_evolves_refl _, by simp⟩

theorem grows_of_eq {d d1 : Db} (h : d1.refreshTokens = d.refreshTokens) : d.grows d1 :=
  ⟨d.refreshTokens, [], by simp [h], forall₂_evolves_refl _, by simp⟩

theorem grows_trans {d d1 d2 : Db} (h01 : d.grows d1) (h12 : d1.grows d2) : d.grows d2 := by
  obtain ⟨k1, a1, e1, f1, n1⟩ := h01
  obtain ⟨k2, a2, e2, f2, n2⟩ := h12
  rw [e1] at f2
  obtain ⟨m1, m2, rfl, g1, g2⟩ := forall₂_split_left f2
  refine ⟨m1, m2 ++ a2, by rw [e2, List.append_assoc], forall₂_evolves_trans f1 g1, ?_⟩
  intro a ha r hr
  rcases List.mem_append.mp ha with ha | ha
  · obtain ⟨y, hy, hev⟩ := forall₂_mem_right g2 a ha
    rw [hev.2.1]
    exact n1 y hy r hr
  · obtain ⟨r1, hr1, hev⟩ := forall₂_mem_left f1 r hr
    have := n2 a ha r1 (by rw [e1]; exact List.mem_append_left _ hr1)
    rw [hev.2.1] at this
    exact this

theorem grows_of_map {d d1 : Db} (f : RefreshToken → RefreshToken)
    (hf : ∀ r : RefreshToken, r.evolves (f r))
    (h : d1.refreshTokens = d.refreshTokens.map f) : d.grows d1 :=
  ⟨d.refreshTokens.map f, [], by simp [h], forall₂_evolves_map f _ hf, by simp⟩

theorem grows_of_append {d d1 : Db} (a : RefreshToken)
    (h : d1.refreshTokens = d.refreshTokens ++ [a])
    (hfresh : ∀ r ∈ d.refreshTokens, a.token ≠ r.token) : d.grows d1 :=
  ⟨d.refreshTokens, [a], h, forall₂_evolves_refl _, by simpa using hfresh⟩

theorem call_eq_ok {α : Type} (env : Env) (k : Nat) (r : Except PrismaError α) (v : α)
    (h : env.call k r = .ok v) : r = .ok v := by
  unfold Env.call at h
  split at h
  · cases h
  · exact h

theorem evolves_revoke (now : Nat) (c : RefreshToken → Prop) [DecidablePred c]
    (r : RefreshToken) :
    r.evolves (if c r then { r with revokedAt := some now } else r) := by
  by_cases h : c r
  · simp only [h, if_true]
    exact ⟨rfl, rfl, rfl, rfl, fun _ => by simp⟩
  · simp only [h, if_false]
    exact evolves_refl r

theorem grows_revokeMany (db : Db) (token : String) (now : Nat) :
    db.grows (refreshTokenRevokeMany db token now) :=
  grows_of_map _ (evolves_revoke now (fun r => r.token = token ∧ r.revokedAt = none)) rfl

theorem grows_of_revokeById {db d : Db} {id now : Nat}
    (h : refreshTokenRevokeById db id now = .ok d) : db.grows d := by
  unfold refreshTokenRevokeById at h
  split at h
  · cases h
    exact grows_of_map _ (evolves_revoke now (fun r => r.id = id)) rfl
  · cases h

theorem grows_of_create {db d : Db} {token : String} {userId expiresAt now : Nat}
    (h : refreshTokenCreate db token userId expiresAt now = .ok d) : db.grows d := by
  unfold refreshTokenCreate at h
  split at h
  · cases h
  · rename_i hnone
    cases h
    refine grows_of_append _ rfl ?_
    intro r hr heq
    apply hnone
    simp only [List.any_eq_true]
    exact ⟨r, hr, by simp [← heq]⟩

theorem grows_of_rotateTransaction {db d : Db} {oldId : Nat} {newToken : String}
    {userId now : Nat} (h : rotateTransaction db oldId newToken userId now = .ok d) :
    db.grows d := by
  unfold rotateTransaction at h
  split at h
  · cases h
  · rename_i db1 h1
    exact grows_trans (grows_of_revokeById h1) (grows_of_create h)

theorem grows_of_userUpdateLastLogin {db d : Db} {id now : Nat}
    (h : userUpdateLastLogin db id now = .ok d) : db.grows d := by
  unfold userUpdateLastLogin at h
  split at h
  · cases h
    exact grows_of_eq rfl
  · cases h

theorem grows_of_loginTransaction {db d : Db} {token : String} {userId now : Nat}
    (h : loginTransaction db token userId now = .ok d) : db.grows d := by
  unfold loginTransaction at h
  split at h
  · cases h
  · rename_i db1 h1
    exact grows_trans (grows_of_create h1) (grows_of_userUpdateLastLogin h)

theorem grows_of_userCreate {db d : Db} {userName email password : String} {now : Nat}
    {user : User} (h : userCreate db userName email password now = .ok (user, d)) :
    db.grows d := by
  unfold userCreate at h
  split at h
  · cases h
  · split at h
    · cases h
    · cases h
      exact grows_of_eq rfl

theorem grows_of_rotateLoop (lib : Crypto) (env : Env) (db : Db) (userId recordId : Nat)
    (remaining attempts : Nat) (result : Option String) (d : Db)
    (h : rotateLoop lib env db userId recordId remaining attempts = .ok (result, d)) :
    db.grows d := by
  induction remaining generalizing attempts with
  | zero =>
    simp only [rotateLoop] at h
    cases h
    exact grows_refl db
  | succ n ih =>
    simp only [rotateLoop] at h
    split at h
    · rename_i db1 h1
      cases h
      exact grows_of_rotateTransaction (call_eq_ok _ _ _ _ h1)
    · split at h
      · exact ih _ h
      · cases h

/-! ## Every handler only lets the session table grow -/

theorem grows_signup (lib : Crypto) (cfg : Config) (env : Env) (db : Db) (body : SignupBody) :
    db.grows (signup lib cfg env db body).2 := by
  unfold signup
  dsimp only
  split
  · split
    · exact grows_refl _
    · exact grows_refl _
    · split
      · exact grows_refl _
      · rename_i created db1 h1
        have g1 := grows_of_userCreate (call_eq_ok _ _ _ _ h1)
        split
        · exact g1
        · rename_i db2 h2
          exact grows_trans g1 (grows_of_create (call_eq_ok _ _ _ _ h2))
  · exact grows_refl _

theorem grows_login (lib : Crypto) (cfg : Config) (env : Env) (db : Db) (body : LoginBody) :
    db.grows (login lib cfg env db body).2 := by
  unfold login
  dsimp only
  split
  · split
    · exact grows_refl _
    · exact grows_refl _
    · split
      · exact grows_refl _
      · split
        · exact grows_refl _
        · split
          · exact grows_refl _
          · rename_i db1 h1
            exact grows_of_loginTransaction (call_eq_ok _ _ _ _ h1)
  · exact grows_refl _

theorem grows_logout (cfg : Config) (env : Env) (db : Db) (cookies : Cookies) :
    db.grows (logout cfg env db cookies).2 := by
  unfold logout
  dsimp only
  split
  · split
    · exact grows_refl _
    · rename_i db1 h1
      have := call_eq_ok _ _ _ _ h1
      cases this
      exact grows_revokeMany _ _ _
  · exact grows_refl _

theorem grows_refreshToken (lib : Crypto) (cfg : Config) (env : Env) (db : Db)
    (cookies : Cookies) : db.grows (refreshToken lib cfg env db cookies).2 := by
  unfold refreshToken
  dsimp only
  split
  · exact grows_refl _
  · split
    · exact grows_refl _
    · split
      · exact grows_refl _
      · exact grows_refl _
      · split
        · exact grows_refl _
        · exact grows_refl _
        · split
          · exact grows_refl _
          · split
            · exact grows_refl _
            · rename_i db1 h1
              exact grows_of_rotateLoop _ _ _ _ _ _ _ _ _ h1
            · rename_i db1 h1
              exact grows_of_rotateLoop _ _ _ _ _ _ _ _ _ h1

theorem grows_getCurrentUser (env : Env) (db : Db) (userId : Option Nat) :
    db.grows (getCurrentUser env db userId).2 := by
  unfold getCurrentUser
  dsimp only
  split
  · exact grows_refl _
  · split
    · exact grows_refl _
    · split
      · exact grows_refl _
      · exact grows_refl _
      · split <;> exact grows_refl _

theorem grows_exec (lib : Crypto) (cfg : Config) (env : Env) (db : Db) (op : Op) :
    db.grows (op.exec lib cfg env db) := by
  cases op with
  | signup body => exact grows_signup lib cfg env db body
  | login body => exact grows_login lib cfg env db body
  | logout cookies => exact grows_logout cfg env db cookies
  | refreshToken cookies => exact grows_refreshToken lib cfg env db cookies
  | getCurrentUser userId => exact grows_getCurrentUser env db userId
  | protect req => exact grows_refl db

theorem grows_runOps (lib : Crypto) (cfg : Config) (db : Db) (ops : List (Env × Op)) :
    db.grows (runOps lib cfg db ops) := by
  induction ops generalizing db with
  | nil => exact grows_refl db
  | cons x xs ih =>
    obtain ⟨env, op⟩ := x
    exact grows_trans (grows_exec lib cfg env db op) (ih _)

/-! ## What a successful rotation has done -/

theorem refreshTokenFindFirst_some {db : Db} {token : String} {userId now : Nat}
    {record : RefreshToken} (h : refreshTokenFindFirst db token userId now = some record) :
    record ∈ db.refreshTokens ∧ record.token = token ∧ record.userId = userId ∧
      record.revokedAt = none ∧ now < record.expiresAt := by
  unfold refreshTokenFindFirst at h
  have hp := List.find?_some h
  have hm := List.mem_of_find?_eq_some h
  simp at hp
  exact ⟨hm, hp.1.1.1, hp.1.1.2, hp.1.2, hp.2⟩

theorem rotateTransaction_inv {db d : Db} {oldId : Nat} {newToken : String}
    {userId now : Nat} (h : rotateTransaction db oldId newToken userId now = .ok d) :
    (∃ created : RefreshToken, d.refreshTokens = db.refreshTokens.map
        (fun r => if r.id = oldId then { r with revokedAt := some now } else r) ++ [created] ∧
      created.token = newToken ∧ created.userId = userId ∧ created.revokedAt = none) ∧
    (∀ r ∈ db.refreshTokens, r.token ≠ newToken) ∧ d.users = db.users := by
  unfold rotateTransaction refreshTokenRevokeById at h
  split at h
  · cases h
  · rename_i db1 h1
    split at h1
    · cases h1
      unfold refreshTokenCreate at h
      split at h
      · cases h
      · rename_i hnone
        cases h
        refine ⟨⟨_, rfl, rfl, rfl, rfl⟩, ?_, rfl⟩
        intro r hr heq
        apply hnone
        simp only [List.any_eq_true, List.mem_map]
        refine ⟨_, ⟨r, hr, rfl⟩, ?_⟩
        by_cases hid : r.id = oldId <;> simp [hid, heq]
    · cases h1

theorem rotateLoop_some {lib : Crypto} {env : Env} {db d : Db} {userId recordId : Nat}
    {remaining attempts : Nat} {token : String}
    (h : rotateLoop lib env db userId recordId remaining attempts = .ok (some token, d)) :
    ∃ k, attempts ≤ k ∧ k < attempts + remaining ∧
      token = generateRefreshToken lib env userId k ∧
      rotateTransaction db recordId token userId env.now = .ok d := by
  induction remaining generalizing attempts with
  | zero => simp [rotateLoop] at h
  | succ n ih =>
    simp only [rotateLoop] at h
    split at h
    · rename_i db1 h1
      cases h
      exact ⟨attempts, le_refl _, by omega, rfl, call_eq_ok _ _ _ _ h1⟩
    · split at h
      · obtain ⟨k, h1, h2, h3⟩ := ih h
        exact ⟨k, by omega, by omega, h3⟩
      · cases h

theorem rotateLoop_none {lib : Crypto} {env : Env} {db d : Db} {userId recordId : Nat}
    {remaining attempts : Nat}
    (h : rotateLoop lib env db userId recordId remaining attempts = .ok (none, d)) :
    d = db := by
  induction remaining generalizing attempts with
  | zero =>
    simp only [rotateLoop] at h
    cases h
    rfl
  | succ n ih =>
    simp only [rotateLoop] at h
    split at h
    · cases h
    · split at h
      · exact ih h
      · cases h

/-- A refresh request answered 200 has verified the token, matched a record that
carries it, and swapped that record for a new one. -/
theorem refreshToken_success_inv {lib : Crypto} {cfg : Config} {env : Env} {db : Db}
    {cookies : Cookies} {old : String} (hcookie : cookies.refreshToken = some old)
    (h : (refreshToken lib cfg env db cookies).1.status = 200) :
    old ≠ "" ∧ ∃ (payload : Payload) (record : RefreshToken) (newToken : String),
      lib.verify old env.now = .ok payload ∧
      refreshTokenFindFirst db old payload.userId env.now = some record ∧
      rotateTransaction db record.id newToken payload.userId env.now =
        .ok (refreshToken lib cfg env db cookies).2 := by
  unfold refreshToken at h ⊢
  simp only [hcookie, truthy] at h ⊢
  by_cases hne : old = ""
  · simp [hne, Response.withStatus, Response.json, Response.init] at h
  · refine ⟨hne, ?_⟩
    simp only [hne, if_false] at h ⊢
    split at h
    · simp [Response.withStatus, Response.json, Response.init] at h
    · rename_i payload hv
      split at h
      · simp [internalError, Response.withStatus, Response.json, Response.init] at h
      · simp [Response.withStatus, Response.json, Response.init] at h
      · rename_i record hfind
        have hfind2 := call_eq_ok _ _ _ _ hfind
        split at h
        · simp [internalError, Response.withStatus, Response.json, Response.init] at h
        · simp [Response.withStatus, Response.json, Response.init] at h
        · rename_i user huser
          split at h
          · simp [Response.withStatus, Response.json, Response.init] at h
          · rename_i hact
            split at h
            · simp [internalError, Response.withStatus, Response.json, Response.init] at h
            · simp [Response.withStatus, Response.json, Response.init] at h
            · rename_i newToken db1 hloop
              obtain ⟨k, _, _, _, htx⟩ := rotateLoop_some hloop
              refine ⟨payload, record, newToken, hv, by simpa using hfind2, ?_⟩
              rw [if_neg hact]
              exact htx

/-! ## Spent credentials -/

theorem spent_of_grows {d d1 : Db} {token : String} (hs : d.spent token) (hg : d.grows d1) :
    d1.spent token := by
  obtain ⟨kept, added, e, f, n⟩ := hg
  obtain ⟨⟨r0, hr0, ht0⟩, hall⟩ := hs
  constructor
  · obtain ⟨r1, hr1, hev⟩ := forall₂_mem_left f r0 hr0
    exact ⟨r1, by rw [e]; exact List.mem_append_left _ hr1, hev.2.1.trans ht0⟩
  · intro r1 hr1 ht1
    rw [e] at hr1
    rcases List.mem_append.mp hr1 with hk | ha
    · obtain ⟨r, hr, hev⟩ := forall₂_mem_right f r1 hk
      exact hev.2.2.2.2 (hall r hr (hev.2.1.symm.trans ht1))
    · exact absurd (ht1.trans ht0.symm) (n r1 ha r0 hr0)

theorem spent_after_rotation {db d : Db} {old newToken : String} {userId now : Nat}
    {record : RefreshToken} (hunique : (db.refreshTokens.map RefreshToken.token).Nodup)
    (hmem : record ∈ db.refreshTokens) (htoken : record.token = old)
    (h : rotateTransaction db record.id newToken userId now = .ok d) : d.spent old := by
  obtain ⟨⟨created, hd, hct, _, _⟩, hfresh, _⟩ := rotateTransaction_inv h
  constructor
  · refine ⟨{ record with revokedAt := some now }, ?_, htoken⟩
    rw [hd]
    apply List.mem_append_left
    simp only [List.mem_map]
    exact ⟨record, hmem, by simp⟩
  · intro r1 hr1 ht1
    rw [hd] at hr1
    rcases List.mem_append.mp hr1 with hk | ha
    · simp only [List.mem_map] at hk
      obtain ⟨r, hr, rfl⟩ := hk
      by_cases hid : r.id = record.id
      · simp [hid]
      · simp only [hid, if_false] at ht1
        have : r = record := eq_of_token_eq _ hunique r record hr hmem (ht1.trans htoken.symm)
        exact absurd (by rw [this]) hid
    · simp only [List.mem_singleton] at ha
      subst ha
      exact absurd (htoken.trans ht1.symm) (by rw [hct]; exact hfresh record hmem)

theorem refreshTokenFindFirst_spent {d : Db} {token : String} (hs : d.spent token)
    (userId now : Nat) : refreshTokenFindFirst d token userId now = none := by
  unfold refreshTokenFindFirst
  rw [List.find?_eq_none]
  intro r hr hp
  simp at hp
  exact hs.2 r hr hp.1.1.1 hp.1.2

theorem refreshToken_of_spent (lib : Crypto) (cfg : Config) (env : Env) (d : Db)
    (cookies : Cookies) (old : String) (hcookie : cookies.refreshToken = some old)
    (hne : old ≠ "") (hs : d.spent old) (hlookup : env.fault 0 = none) :
    refreshToken lib cfg env d cookies =
      ((Response.init.withStatus 401).json (.error "Invalid refresh token"), d) := by
  unfold refreshToken
  simp only [hcookie, truthy, hne, if_false]
  split
  · rfl
  · simp only [Env.call, hlookup, refreshTokenFindFirst_spent hs]

/-! ## Rotation -/

/-- C1. A refresh request whose token verifies, matches an unrevoked, unexpired
session record of the same user, whose user exists and is active, and whose first
swap attempt does not collide (storage being available) is answered 200 with the
new credentials; afterwards the matched record is revoked, exactly one record has
been appended, carrying the returned refresh credential, the same user and no
revocation, and every other record is unchanged. -/
theorem refreshToken_rotates (lib : Crypto) (cfg : Config) (env : Env) (db : Db)
    (cookies : Cookies) (old : String) (payload : Payload) (record : RefreshToken)
    (user : User)
    (hcookie : cookies.refreshToken = some old) (hne : old ≠ "")
    (hverify : lib.verify old env.now = .ok payload)
    (hunique : db.sessionsUnique)
    (hmem : record ∈ db.refreshTokens) (htoken : record.token = old)
    (howner : record.userId = payload.userId) (hrev : record.revokedAt = none)
    (hexp : env.now < record.expiresAt)
    (huser : userFindUniqueById db payload.userId = some user)
    (hactive : user.isActive = true)
    (hup : env.storageUp)
    (hfresh : ∀ r ∈ db.refreshTokens,
      r.token ≠ generateRefreshToken lib env payload.userId 0) :
    ∃ created : RefreshToken,
      (refreshToken lib cfg env db cookies).1.status = 200 ∧
      (refreshToken lib cfg env db cookies).1.body = some (.session
        ⟨user.id, user.userName, user.email, none, none, none, none, none⟩
        (generateAccessToken lib cfg env payload.userId) created.token) ∧
      (refreshToken lib cfg env db cookies).1.cookies =
        (setCookies cfg Response.init (generateAccessToken lib cfg env payload.userId)
          created.token).cookies ∧
      (refreshToken lib cfg env db cookies).2.refreshTokens =
        db.refreshTokens.map
          (fun r => if r = record then { r with revokedAt := some env.now } else r)
          ++ [created] ∧
      created.token = generateRefreshToken lib env payload.userId 0 ∧
      created.userId = payload.userId ∧ created.revokedAt = none ∧
      created.id ∉ db.refreshTokens.map RefreshToken.id ∧
      (refreshToken lib cfg env db cookies).2.users = db.users := by
  have hfind := refreshTokenFindFirst_eq db old payload.userId env.now record hunique.1 hmem
    htoken howner hrev hexp
  have hswap := rotateTransaction_ok db record.id
    (generateRefreshToken lib env payload.userId 0) payload.userId env.now
    ⟨record, hmem, rfl⟩ hfresh
  have hmap : db.refreshTokens.map
      (fun r => if r.id = record.id then { r with revokedAt := some env.now } else r) =
      db.refreshTokens.map
      (fun r => if r = record then { r with revokedAt := some env.now } else r) := by
    apply List.map_congr_left
    intro r hr
    by_cases h : r = record
    · simp [h]
    · have : r.id ≠ record.id := fun hid => h (eq_of_id_eq _ hunique.2 r record hr hmem hid)
      simp [h, this]
  unfold generateRefreshToken at hswap
  refine ⟨⟨freshId ((db.refreshTokens.map
      (fun r => if r.id = record.id then { r with revokedAt := some env.now } else r)).map
      RefreshToken.id), generateRefreshToken lib env payload.userId 0, payload.userId,
      env.now + 7 * 24 * 60 * 60 * 1000, none, env.now⟩, ?_⟩
  unfold refreshToken
  simp only [hcookie, truthy, hne, if_false]
  rw [hverify]
  simp only [call_of_storageUp env hup, hfind, huser, hactive, maxAttempts, rotateLoop, hswap]
  simp [setCookies, Response.json, Response.cookie, Response.init, hmap, generateRefreshToken]
  intro x hx hcontra
  have hlt := lt_freshId (db.refreshTokens.map (RefreshToken.id ∘ fun r =>
      if r = record then { r with revokedAt := some env.now } else r)) x.id (by
    simp only [List.mem_map, Function.comp]
    refine ⟨x, hx, ?_⟩
    by_cases h : x = record <;> simp [h])
  omega

theorem refreshToken_rotates_witness :
    ∃ created : RefreshToken,
      (refreshToken demoCrypto demoConfig demoEnv demoDb demoCookies).1.status = 200 ∧
      (refreshToken demoCrypto demoConfig demoEnv demoDb demoCookies).1.body = some (.session
        ⟨1, "alice", "alice@example.com", none, none, none, none, none⟩
        (generateAccessToken demoCrypto demoConfig demoEnv 1) created.token) ∧
      (refreshToken demoCrypto demoConfig demoEnv demoDb demoCookies).1.cookies =
        (setCookies demoConfig Response.init (generateAccessToken demoCrypto demoConfig demoEnv 1)
          created.token).cookies ∧
      (refreshToken demoCrypto demoConfig demoEnv demoDb demoCookies).2.refreshTokens =
        demoDb.refreshTokens.map
          (fun r => if r = ⟨1, "refresh.r0", 1, 100, none, 0⟩ then
            { r with revokedAt := some demoEnv.now } else r)
          ++ [created] ∧
      created.token = generateRefreshToken demoCrypto demoEnv 1 0 ∧
      created.userId = 1 ∧ created.revokedAt = none ∧
      created.id ∉ demoDb.refreshTokens.map RefreshToken.id ∧
      (refreshToken demoCrypto demoConfig demoEnv demoDb demoCookies).2.users = demoDb.users :=
  refreshToken_rotates demoCrypto demoConfig demoEnv demoDb demoCookies "refresh.r0"
    ⟨1, some 0, some "r0"⟩ ⟨1, "refresh.r0", 1, 100, none, 0⟩
    ⟨1, "alice", "alice@example.com", "h:secret123", true, 0, none, []⟩
    rfl (by decide) rfl (by decide) (by decide) rfl rfl rfl (by decide) rfl rfl
    (fun _ => rfl) (by decide)

/-- C2. Reuse after rotation is rejected: once a refresh request presenting `old`
has been answered 200, a refresh request presenting `old` again, after any
sequence of requests to the auth controller and middleware and at any time, is
answered 401 "Invalid refresh token" and leaves the store as it found it (the
lookup of the session record not failing in storage). -/
theorem refreshToken_reuse_rejected (lib : Crypto) (cfg : Config) (db : Db)
    (env1 env2 : Env) (cookies1 cookies2 : Cookies) (old : String)
    (between : List (Env × Op))
    (hunique : db.sessionsUnique)
    (hcookie1 : cookies1.refreshToken = some old)
    (hcookie2 : cookies2.refreshToken = some old)
    (hsuccess : (refreshToken lib cfg env1 db cookies1).1.status = 200)
    (hlookup : env2.fault 0 = none) :
    refreshToken lib cfg env2
        (runOps lib cfg (refreshToken lib cfg env1 db cookies1).2 between) cookies2 =
      ((Response.init.withStatus 401).json (.error "Invalid refresh token"),
        runOps lib cfg (refreshToken lib cfg env1 db cookies1).2 between) := by
  obtain ⟨hne, payload, record, newToken, _, hfind, htx⟩ :=
    refreshToken_success_inv hcookie1 hsuccess
  obtain ⟨hmem, htoken, _⟩ := refreshTokenFindFirst_some hfind
  have hspent := spent_after_rotation hunique.1 hmem htoken htx
  exact refreshToken_of_spent lib cfg env2 _ cookies2 old hcookie2 hne
    (spent_of_grows hspent (grows_runOps lib cfg _ between)) hlookup

theorem refreshToken_reuse_rejected_witness :
    refreshToken demoCrypto demoConfig demoEnv
        (runOps demoCrypto demoConfig
          (refreshToken demoCrypto demoConfig demoEnv demoDb demoCookies).2
          [(demoEnv, Op.logout demoCookies), (demoEnv, Op.login ⟨some "alice", some "secret123"⟩)])
        demoCookies =
      ((Response.init.withStatus 401).json (.error "Invalid refresh token"),
        runOps demoCrypto demoConfig
          (refreshToken demoCrypto demoConfig demoEnv demoDb demoCookies).2
          [(demoEnv, Op.logout demoCookies), (demoEnv, Op.login ⟨some "alice", some "secret123"⟩)]) :=
  refreshToken_reuse_rejected demoCrypto demoConfig demoDb demoEnv demoEnv demoCookies
    demoCookies "refresh.r0" _ (by decide) rfl rfl (by decide) rfl

/-! ## Rejections -/

/-- C3. Uniform rejection: for a presented non-empty refresh token whose
verification fails, or which verifies but has no session record with that exact
token, the embedded user id, no revocation and an expiry later than now, the
response is always 401 with body `error: "Invalid refresh token"`, no cookie is
set and the store is unchanged (the lookup not failing in storage). -/
theorem refreshToken_rejects_uniformly (lib : Crypto) (cfg : Config) (env : Env) (db : Db)
    (cookies : Cookies) (token : String)
    (hcookie : cookies.refreshToken = some token) (hne : token ≠ "")
    (hlookup : env.fault 0 = none)
    (hreject : ∀ payload, lib.verify token env.now = .ok payload →
      ¬ ∃ r ∈ db.refreshTokens, r.token = token ∧ r.userId = payload.userId ∧
        r.revokedAt = none ∧ env.now < r.expiresAt) :
    (refreshToken lib cfg env db cookies).1 =
        ⟨401, [], some (.error "Invalid refresh token")⟩ ∧
      (refreshToken lib cfg env db cookies).2 = db := by
  unfold refreshToken
  simp only [hcookie, truthy, hne, if_false]
  split
  · exact ⟨rfl, rfl⟩
  · rename_i payload hv
    have hnone : refreshTokenFindFirst db token payload.userId env.now = none := by
      cases hf : refreshTokenFindFirst db token payload.userId env.now with
      | none => rfl
      | some r =>
        obtain ⟨h1, h2, h3, h4, h5⟩ := refreshTokenFindFirst_some hf
        exact absurd ⟨r, h1, h2, h3, h4, h5⟩ (hreject payload hv)
    simp [Env.call, hlookup, hnone, Response.withStatus, Response.json, Response.init]

theorem refreshToken_rejects_uniformly_witness :
    (refreshToken demoCrypto demoConfig demoEnv demoDb ⟨none, some "forged"⟩).1 =
        ⟨401, [], some (.error "Invalid refresh token")⟩ ∧
      (refreshToken demoCrypto demoConfig demoEnv demoDb ⟨none, some "forged"⟩).2 = demoDb :=
  refreshToken_rejects_uniformly demoCrypto demoConfig demoEnv demoDb ⟨none, some "forged"⟩
    "forged" rfl (by decide) rfl (by
      intro payload hv
      simp [demoCrypto] at hv)

theorem refreshTokenFindFirst_isSome {db : Db} {token : String} {userId now : Nat}
    (h : ∃ r ∈ db.refreshTokens, r.token = token ∧ r.userId = userId ∧
      r.revokedAt = none ∧ now < r.expiresAt) :
    ∃ record, refreshTokenFindFirst db token userId now = some record := by
  cases hf : refreshTokenFindFirst db token userId now with
  | some r => exact ⟨r, rfl⟩
  | none =>
    exfalso
    unfold refreshTokenFindFirst at hf
    rw [List.find?_eq_none] at hf
    obtain ⟨r, hr, h1, h2, h3, h4⟩ := h
    exact hf r hr (by simp [h1, h2, h3, h4])

/-- C4. A refresh request whose token verifies and matches an unrevoked,
unexpired session record, but whose owning user is missing or inactive, is
answered 401 "User not found or inactive"; no cookie is set and the store is
unchanged, so the matched record is not revoked (the two lookups not failing in
storage). -/
theorem refreshToken_inactive_user (lib : Crypto) (cfg : Config) (env : Env) (db : Db)
    (cookies : Cookies) (token : String) (payload : Payload)
    (hcookie : cookies.refreshToken = some token) (hne : token ≠ "")
    (hverify : lib.verify token env.now = .ok payload)
    (hrecord : ∃ r ∈ db.refreshTokens, r.token = token ∧ r.userId = payload.userId ∧
      r.revokedAt = none ∧ env.now < r.expiresAt)
    (huser : ∀ user, userFindUniqueById db payload.userId = some user → user.isActive = false)
    (hlookup0 : env.fault 0 = none) (hlookup1 : env.fault 1 = none) :
    (refreshToken lib cfg env db cookies).1 =
        ⟨401, [], some (.error "User not found or inactive")⟩ ∧
      (refreshToken lib cfg env db cookies).2 = db := by
  obtain ⟨record, hfind⟩ := refreshTokenFindFirst_isSome hrecord
  unfold refreshToken
  simp only [hcookie, truthy, hne, if_false, hverify, Env.call, hlookup0, hlookup1, hfind]
  cases hu : userFindUniqueById db payload.userId with
  | none => exact ⟨rfl, rfl⟩
  | some user =>
    simp [huser user hu, Response.withStatus, Response.json, Response.init]

theorem refreshToken_inactive_user_witness :
    (refreshToken demoCrypto demoConfig demoEnv demoDbInactive demoCookies).1 =
        ⟨401, [], some (.error "User not found or inactive")⟩ ∧
      (refreshToken demoCrypto demoConfig demoEnv demoDbInactive demoCookies).2 =
        demoDbInactive :=
  refreshToken_inactive_user demoCrypto demoConfig demoEnv demoDbInactive demoCookies
    "refresh.r0" ⟨1, some 0, some "r0"⟩ rfl (by decide) rfl (by decide) (by decide) rfl rfl

/-! ## The bounded retry -/

theorem rotateLoop_collisions (lib : Crypto) (env : Env) (db : Db) (userId recordId : Nat)
    (hup : env.storageUp) (hex : ∃ r ∈ db.refreshTokens, r.id = recordId)
    (remaining attempts : Nat)
    (hcol : ∀ k, attempts ≤ k → k < attempts + remaining →
      ∃ r ∈ db.refreshTokens, r.token = generateRefreshToken lib env userId k) :
    rotateLoop lib env db userId recordId remaining attempts = .ok (none, db) := by
  induction remaining generalizing attempts with
  | zero => rfl
  | succ n ih =>
    have h0 := rotateTransaction_collision db recordId
      (generateRefreshToken lib env userId attempts) userId env.now hex
      (hcol attempts (le_refl _) (by omega))
    unfold generateRefreshToken at h0
    simp only [rotateLoop, call_of_storageUp env hup, h0]
    have hconf : (uniqueViolation "token").code = "P2002" ∧
        "token" ∈ (uniqueViolation "token").target := by
      simp [uniqueViolation]
    rw [if_pos hconf]
    exact ih (attempts + 1) (fun k h1 h2 => hcol k (by omega) (by omega))

theorem rotateLoop_succeeds (lib : Crypto) (env : Env) (db : Db) (userId recordId : Nat)
    (hup : env.storageUp) (hex : ∃ r ∈ db.refreshTokens, r.id = recordId)
    (j remaining attempts : Nat) (hj : j < remaining)
    (hcol : ∀ k, attempts ≤ k → k < attempts + j →
      ∃ r ∈ db.refreshTokens, r.token = generateRefreshToken lib env userId k)
    (hfresh : ∀ r ∈ db.refreshTokens,
      r.token ≠ generateRefreshToken lib env userId (attempts + j)) :
    ∃ d, rotateLoop lib env db userId recordId remaining attempts =
        .ok (some (generateRefreshToken lib env userId (attempts + j)), d) ∧
      rotateTransaction db recordId (generateRefreshToken lib env userId (attempts + j))
        userId env.now = .ok d := by
  induction j generalizing remaining attempts with
  | zero =>
    obtain ⟨n, rfl⟩ : ∃ n, remaining = n + 1 := ⟨remaining - 1, by omega⟩
    have h0 := rotateTransaction_ok db recordId
      (generateRefreshToken lib env userId attempts) userId env.now hex hfresh
    refine ⟨_, ?_, h0⟩
    unfold generateRefreshToken at h0
    simp only [rotateLoop, call_of_storageUp env hup, h0]
    rfl
  | succ i ih =>
    obtain ⟨n, rfl⟩ : ∃ n, remaining = n + 1 := ⟨remaining - 1, by omega⟩
    have h0 := rotateTransaction_collision db recordId
      (generateRefreshToken lib env userId attempts) userId env.now hex
      (hcol attempts (le_refl _) (by omega))
    unfold generateRefreshToken at h0
    have hconf : (uniqueViolation "token").code = "P2002" ∧
        "token" ∈ (uniqueViolation "token").target := by
      simp [uniqueViolation]
    obtain ⟨d, h1, h2⟩ := ih n (attempts + 1) (by omega)
      (fun k h1 h2 => hcol k (by omega) (by omega))
      (by rw [show attempts + 1 + i = attempts + (i + 1) by omega]; exact hfresh)
    rw [show attempts + 1 + i = attempts + (i + 1) by omega] at h1 h2
    refine ⟨d, ?_, h2⟩
    simp only [rotateLoop, call_of_storageUp env hup, h0]
    rw [if_pos hconf]
    exact h1

theorem rotateLoop_congr (lib : Crypto) (env env1 : Env) (db : Db) (userId recordId : Nat)
    (hnow : env1.now = env.now) (remaining attempts : Nat)
    (hrandom : ∀ k, attempts ≤ k → k < attempts + remaining → env1.random k = env.random k)
    (hfault : ∀ k, attempts ≤ k → k < attempts + remaining →
      env1.fault (2 + k) = env.fault (2 + k)) :
    rotateLoop lib env1 db userId recordId remaining attempts =
      rotateLoop lib env db userId recordId remaining attempts := by
  induction remaining generalizing attempts with
  | zero => rfl
  | succ n ih =>
    simp only [rotateLoop, Env.call, hnow, hrandom attempts (le_refl _) (by omega),
      hfault attempts (le_refl _) (by omega)]
    rw [ih (attempts + 1) (fun k h1 h2 => hrandom k (by omega) (by omega))
      (fun k h1 h2 => hfault k (by omega) (by omega))]

theorem refreshToken_congr (lib : Crypto) (cfg : Config) (env env1 : Env) (db : Db)
    (cookies : Cookies) (hnow : env1.now = env.now)
    (hrandom : ∀ k, k < maxAttempts → env1.random k = env.random k)
    (hfault : ∀ k, k < 2 + maxAttempts → env1.fault k = env.fault k) :
    refreshToken lib cfg env1 db cookies = refreshToken lib cfg env db cookies := by
  have hloop : ∀ userId recordId, rotateLoop lib env1 db userId recordId maxAttempts 0 =
      rotateLoop lib env db userId recordId maxAttempts 0 := fun userId recordId =>
    rotateLoop_congr lib env env1 db userId recordId hnow maxAttempts 0
      (fun k _ h2 => hrandom k (by omega)) (fun k _ h2 => hfault (2 + k) (by omega))
  unfold refreshToken
  simp only [Env.call, hnow, hfault 0 (by unfold maxAttempts; omega),
    hfault 1 (by unfold maxAttempts; omega), hloop, generateAccessToken]

/-- C5. Bounded collision retry. For a refresh request that reaches the swap
(token verified, record matched, user active, storage available):
(1) if each of the 3 minted credentials is already stored, the response is
500 "Failed to generate unique token", no cookie is set and the store is
exactly as before, so the old record is not revoked;
(2) if attempt `k` (counted from 0, `k < 3`) is the first whose credential is not
stored, the response is 200 and the store is the old one with the matched record
revoked and exactly one record appended, carrying the credential of attempt `k`;
(3) there is no fourth attempt: the outcome does not depend on random draws
from the fourth on, nor on storage calls after the fifth. -/
theorem refreshToken_bounded_retry (lib : Crypto) (cfg : Config) (env : Env) (db : Db)
    (cookies : Cookies) (old : String) (payload : Payload) (record : RefreshToken)
    (user : User)
    (hcookie : cookies.refreshToken = some old) (hne : old ≠ "")
    (hverify : lib.verify old env.now = .ok payload)
    (hfind : refreshTokenFindFirst db old payload.userId env.now = some record)
    (huser : userFindUniqueById db payload.userId = some user)
    (hactive : user.isActive = true)
    (hup : env.storageUp) :
    ((∀ k < maxAttempts, ∃ r ∈ db.refreshTokens,
          r.token = generateRefreshToken lib env payload.userId k) →
        (refreshToken lib cfg env db cookies).1 =
            ⟨500, [], some (.error "Failed to generate unique token")⟩ ∧
          (refreshToken lib cfg env db cookies).2 = db) ∧
      (∀ k < maxAttempts,
        (∀ j < k, ∃ r ∈ db.refreshTokens,
          r.token = generateRefreshToken lib env payload.userId j) →
        (∀ r ∈ db.refreshTokens, r.token ≠ generateRefreshToken lib env payload.userId k) →
        ∃ created : RefreshToken,
          (refreshToken lib cfg env db cookies).1.status = 200 ∧
          (refreshToken lib cfg env db cookies).1.body = some (.session
            ⟨user.id, user.userName, user.email, none, none, none, none, none⟩
            (generateAccessToken lib cfg env payload.userId)
            (generateRefreshToken lib env payload.userId k)) ∧
          (refreshToken lib cfg env db cookies).2.refreshTokens =
            db.refreshTokens.map
              (fun r => if r.id = record.id then { r with revokedAt := some env.now } else r)
              ++ [created] ∧
          created.token = generateRefreshToken lib env payload.userId k ∧
          created.userId = payload.userId ∧ created.revokedAt = none) ∧
      (∀ env1 : Env, env1.now = env.now →
        (∀ k, k < maxAttempts → env1.random k = env.random k) →
        (∀ k, k < 2 + maxAttempts → env1.fault k = env.fault k) →
        refreshToken lib cfg env1 db cookies = refreshToken lib cfg env db cookies) := by
  have hex : ∃ r ∈ db.refreshTokens, r.id = record.id :=
    ⟨record, (refreshTokenFindFirst_some hfind).1, rfl⟩
  refine ⟨?_, ?_, ?_⟩
  · intro hcol
    have hloop := rotateLoop_collisions lib env db payload.userId record.id hup hex
      maxAttempts 0 (fun k _ h2 => hcol k (by omega))
    unfold refreshToken
    simp only [hcookie, truthy, hne, if_false, hverify, call_of_storageUp env hup, hfind,
      huser, hactive, hloop]
    simp [Response.withStatus, Response.json, Response.init]
  · intro k hk hcol hfresh
    obtain ⟨d, hloop, htx⟩ := rotateLoop_succeeds lib env db payload.userId record.id hup hex
      k maxAttempts 0 hk (fun i _ h2 => hcol i (by omega)) (by simpa using hfresh)
    simp only [Nat.zero_add] at hloop htx
    obtain ⟨⟨created, hd, h1, h2, h3⟩, _, _⟩ := rotateTransaction_inv htx
    refine ⟨created, ?_⟩
    unfold refreshToken
    simp only [hcookie, truthy, hne, if_false, hverify, call_of_storageUp env hup, hfind,
      huser, hactive, hloop]
    simp [Response.json, setCookies, Response.cookie, Response.init, hd, h1, h2, h3]
  · intro env1 hnow hrandom hfault
    exact refreshToken_congr lib cfg env env1 db cookies hnow hrandom hfault

theorem refreshToken_bounded_retry_witness :
    (refreshToken demoCrypto demoConfig demoEnv demoDbCollide demoCookies).1 =
        ⟨500, [], some (.error "Failed to generate unique token")⟩ ∧
      (refreshToken demoCrypto demoConfig demoEnv demoDbCollide demoCookies).2 =
        demoDbCollide :=
  (refreshToken_bounded_retry demoCrypto demoConfig demoEnv demoDbCollide demoCookies
    "refresh.r0" ⟨1, some 0, some "r0"⟩ ⟨1, "refresh.r0", 1, 100, none, 0⟩
    ⟨1, "alice", "alice@example.com", "h:secret123", true, 0, none, []⟩
    rfl (by decide) rfl (by decide) (by decide) rfl (fun _ => rfl)).1 (by decide)

/-! ## Logout -/

theorem refreshTokenRevokeMany_idem (db : Db) (token : String) (now1 now2 : Nat) :
    refreshTokenRevokeMany (refreshTokenRevokeMany db token now1) token now2 =
      refreshTokenRevokeMany db token now1 := by
  unfold refreshTokenRevokeMany
  simp only [List.map_map]
  congr 1
  apply List.map_congr_left
  intro r _
  by_cases h : r.token = token ∧ r.revokedAt = none
  · simp [h]
  · simp [h]

theorem refreshTokenRevokeMany_noop (db : Db) (token : String) (now : Nat)
    (h : ∀ r ∈ db.refreshTokens, r.token = token → r.revokedAt ≠ none) :
    refreshTokenRevokeMany db token now = db := by
  unfold refreshTokenRevokeMany
  have : db.refreshTokens.map (fun r => if r.token = token ∧ r.revokedAt = none then
      { r with revokedAt := some now } else r) = db.refreshTokens := by
    conv_rhs => rw [← List.map_id db.refreshTokens]
    apply List.map_congr_left
    intro r hr
    have : ¬ (r.token = token ∧ r.revokedAt = none) := fun hc => h r hr hc.1 hc.2
    simp [this]
  rw [this]

theorem logout_eq (cfg : Config) (env : Env) (db : Db) (cookies : Cookies)
    (hup : env.fault 0 = none) :
    (logout cfg env db cookies).1.status = 200 ∧
      (logout cfg env db cookies).1.body = some (.message "Logged out successfully") ∧
      (logout cfg env db cookies).2 =
        match truthy cookies.refreshToken with
        | some token => refreshTokenRevokeMany db token env.now
        | none => db := by
  unfold logout
  cases h : truthy cookies.refreshToken with
  | none => exact ⟨rfl, rfl, rfl⟩
  | some token =>
    simp [Env.call, hup, Response.json, Response.clearCookie, Response.init]

/-- C6. Logout is idempotent: two logouts in succession with the same cookies
(the `updateMany` not failing in storage) both answer 200 "Logged out
successfully", and the second leaves the store exactly as the first left it; the
first sets `revokedAt` on precisely the unrevoked records carrying the token and
changes nothing else; when no unrevoked record carries the token the store is
unchanged. -/
theorem logout_idempotent (cfg : Config) (env1 env2 : Env) (db : Db) (cookies : Cookies)
    (hup1 : env1.fault 0 = none) (hup2 : env2.fault 0 = none) :
    (logout cfg env1 db cookies).1.status = 200 ∧
      (logout cfg env1 db cookies).1.body = some (.message "Logged out successfully") ∧
      (logout cfg env2 (logout cfg env1 db cookies).2 cookies).1.status = 200 ∧
      (logout cfg env2 (logout cfg env1 db cookies).2 cookies).1.body =
        some (.message "Logged out successfully") ∧
      (logout cfg env2 (logout cfg env1 db cookies).2 cookies).2 =
        (logout cfg env1 db cookies).2 ∧
      (∀ token, cookies.refreshToken = some token → token ≠ "" →
        (logout cfg env1 db cookies).2.refreshTokens = db.refreshTokens.map
          (fun r => if r.token = token ∧ r.revokedAt = none then
            { r with revokedAt := some env1.now } else r) ∧
        (logout cfg env1 db cookies).2.users = db.users) ∧
      ((∀ r ∈ db.refreshTokens, cookies.refreshToken = some r.token → r.revokedAt ≠ none) →
        (logout cfg env1 db cookies).2 = db) := by
  obtain ⟨a1, a2, a3⟩ := logout_eq cfg env1 db cookies hup1
  obtain ⟨b1, b2, b3⟩ := logout_eq cfg env2 (logout cfg env1 db cookies).2 cookies hup2
  refine ⟨a1, a2, b1, b2, ?_, ?_, ?_⟩
  · rw [b3]
    cases h : truthy cookies.refreshToken with
    | none => rfl
    | some token =>
      simp only
      rw [a3, h]
      exact refreshTokenRevokeMany_idem db token env1.now env2.now
  · intro token hc hne
    rw [a3]
    simp only [hc, truthy, hne, if_false]
    exact ⟨rfl, rfl⟩
  · intro hrev
    rw [a3]
    cases h : truthy cookies.refreshToken with
    | none => rfl
    | some token =>
      simp only
      apply refreshTokenRevokeMany_noop
      intro r hr ht
      apply hrev r hr
      unfold truthy at h
      split at h
      · split at h
        · cases h
        · rename_i s heq _
          cases h
          rw [heq, ht]
      · cases h

theorem logout_idempotent_witness :
    (logout demoConfig demoEnv demoDb demoCookies).1.status = 200 ∧
      (logout demoConfig demoEnv demoDb demoCookies).1.body =
        some (.message "Logged out successfully") ∧
      (logout demoConfig demoEnv (logout demoConfig demoEnv demoDb demoCookies).2
        demoCookies).1.status = 200 ∧
      (logout demoConfig demoEnv (logout demoConfig demoEnv demoDb demoCookies).2
        demoCookies).1.body = some (.message "Logged out successfully") ∧
      (logout demoConfig demoEnv (logout demoConfig demoEnv demoDb demoCookies).2
        demoCookies).2 = (logout demoConfig demoEnv demoDb demoCookies).2 ∧
      (∀ token, demoCookies.refreshToken = some token → token ≠ "" →
        (logout demoConfig demoEnv demoDb demoCookies).2.refreshTokens =
          demoDb.refreshTokens.map
            (fun r => if r.token = token ∧ r.revokedAt = none then
              { r with revokedAt := some demoEnv.now } else r) ∧
        (logout demoConfig demoEnv demoDb demoCookies).2.users = demoDb.users) ∧
      ((∀ r ∈ demoDb.refreshTokens, demoCookies.refreshToken = some r.token →
          r.revokedAt ≠ none) →
        (logout demoConfig demoEnv demoDb demoCookies).2 = demoDb) :=
  logout_idempotent demoConfig demoEnv demoEnv demoDb demoCookies rfl rfl

/-- C7. Logout never fails because of the form of the credential: whatever the
`refreshToken` cookie holds (nothing, the empty string, any string), provided
the storage call does not fail the response is 200 "Logged out successfully";
and the handler consults no signing library, its result being the same under
any two of them. -/
theorem logout_always_succeeds (cfg : Config) (env : Env) (db : Db) (cookies : Cookies)
    (hup : env.fault 0 = none) :
    (logout cfg env db cookies).1.status = 200 ∧
      (logout cfg env db cookies).1.body = some (.message "Logged out successfully") ∧
      ∀ lib1 lib2 : Crypto,
        (Op.logout cookies).exec lib1 cfg env db = (Op.logout cookies).exec lib2 cfg env db := by
  obtain ⟨a1, a2, _⟩ := logout_eq cfg env db cookies hup
  exact ⟨a1, a2, fun _ _ => rfl⟩

theorem logout_always_succeeds_witness :
    (logout demoConfig demoEnv demoDb ⟨none, some "not a token"⟩).1.status = 200 ∧
      (logout demoConfig demoEnv demoDb ⟨none, some "not a token"⟩).1.body =
        some (.message "Logged out successfully") ∧
      ∀ lib1 lib2 : Crypto,
        (Op.logout ⟨none, some "not a token"⟩).exec lib1 demoConfig demoEnv demoDb =
          (Op.logout ⟨none, some "not a token"⟩).exec lib2 demoConfig demoEnv demoDb :=
  logout_always_succeeds demoConfig demoEnv demoDb ⟨none, some "not a token"⟩ rfl

/-! ## Retention and terminal states -/

theorem grows_get? {d d1 : Db} (hg : d.grows d1) (i : Nat) (r : RefreshToken)
    (hr : d.refreshTokens.get? i = some r) :
    ∃ r1, d1.refreshTokens.get? i = some r1 ∧ r.evolves r1 := by
  obtain ⟨kept, added, e, f, _⟩ := hg
  obtain ⟨r1, h1, hev⟩ := forall₂_get? f i r hr
  refine ⟨r1, ?_, hev⟩
  rw [e]
  have hlt : i < kept.length := by
    rw [List.get?_eq_some] at h1
    exact h1.1
  rw [List.get?_eq_getElem?, List.getElem?_append_left hlt, ← List.get?_eq_getElem?]
  exact h1

theorem grows_mem {d d1 : Db} (hg : d.grows d1) (r : RefreshToken)
    (hr : r ∈ d.refreshTokens) : ∃ r1 ∈ d1.refreshTokens, r.evolves r1 := by
  obtain ⟨kept, added, e, f, _⟩ := hg
  obtain ⟨r1, h1, hev⟩ := forall₂_mem_left f r hr
  exact ⟨r1, by rw [e]; exact List.mem_append_left _ h1, hev⟩

theorem grows_length {d d1 : Db} (hg : d.grows d1) :
    d.refreshTokens.length ≤ d1.refreshTokens.length := by
  obtain ⟨kept, added, e, f, _⟩ := hg
  rw [e, List.length_append, ← f.length_eq]
  omega

/-- C8. Session records are never hard-deleted: after any one request to the auth
controller or the auth middleware, in any state, every record present before is
still present, at the same position, with the same id, token, userId and
expiresAt; hence the ids stored before are all stored after, and the table never
shrinks. -/
theorem sessions_never_deleted (lib : Crypto) (cfg : Config) (env : Env) (db : Db) (op : Op) :
    (∀ i r, db.refreshTokens.get? i = some r →
      ∃ r1, (op.exec lib cfg env db).refreshTokens.get? i = some r1 ∧ r1.id = r.id ∧
        r1.token = r.token ∧ r1.userId = r.userId ∧ r1.expiresAt = r.expiresAt) ∧
      (∀ r ∈ db.refreshTokens, ∃ r1 ∈ (op.exec lib cfg env db).refreshTokens,
        r1.id = r.id ∧ r1.token = r.token ∧ r1.userId = r.userId ∧
          r1.expiresAt = r.expiresAt) ∧
      (∀ id ∈ db.refreshTokens.map RefreshToken.id,
        id ∈ (op.exec lib cfg env db).refreshTokens.map RefreshToken.id) ∧
      db.refreshTokens.length ≤ (op.exec lib cfg env db).refreshTokens.length := by
  have hg := grows_exec lib cfg env db op
  refine ⟨?_, ?_, ?_, grows_length hg⟩
  · intro i r hr
    obtain ⟨r1, h1, hev⟩ := grows_get? hg i r hr
    exact ⟨r1, h1, hev.1, hev.2.1, hev.2.2.1, hev.2.2.2.1⟩
  · intro r hr
    obtain ⟨r1, h1, hev⟩ := grows_mem hg r hr
    exact ⟨r1, h1, hev.1, hev.2.1, hev.2.2.1, hev.2.2.2.1⟩
  · intro id hid
    simp only [List.mem_map] at hid ⊢
    obtain ⟨r, hr, rfl⟩ := hid
    obtain ⟨r1, h1, hev⟩ := grows_mem hg r hr
    exact ⟨r1, h1, hev.1⟩

theorem sessions_never_deleted_witness :
    ∃ r1, ((Op.refreshToken demoCookies).exec demoCrypto demoConfig demoEnv
        demoDb).refreshTokens.get? 0 = some r1 ∧ r1.id = 1 ∧ r1.token = "refresh.r0" ∧
      r1.userId = 1 ∧ r1.expiresAt = 100 :=
  (sessions_never_deleted demoCrypto demoConfig demoEnv demoDb
    (Op.refreshToken demoCookies)).1 0 ⟨1, "refresh.r0", 1, 100, none, 0⟩ rfl

/-- C9. Revoked and Expired are terminal: over any sequence of requests to the
auth controller and middleware, a record keeps its position, id and expiresAt,
and once revoked it stays revoked; hence, the clock not running backwards, a
record that is not valid for use at some time is not valid for use at any later
time in any later state. -/
theorem revoked_expired_terminal (lib : Crypto) (cfg : Config) (db : Db)
    (ops : List (Env × Op)) (i : Nat) (r : RefreshToken)
    (hr : db.refreshTokens.get? i = some r) :
    ∃ r1, (runOps lib cfg db ops).refreshTokens.get? i = some r1 ∧ r1.id = r.id ∧
      r1.expiresAt = r.expiresAt ∧ (r.revokedAt ≠ none → r1.revokedAt ≠ none) ∧
      ∀ now now1, now ≤ now1 → ¬ r.validAt now → ¬ r1.validAt now1 := by
  obtain ⟨r1, h1, hev⟩ := grows_get? (grows_runOps lib cfg db ops) i r hr
  refine ⟨r1, h1, hev.1, hev.2.2.2.1, hev.2.2.2.2, ?_⟩
  intro now now1 hle hinvalid hvalid
  apply hinvalid
  unfold RefreshToken.validAt at hvalid ⊢
  constructor
  · by_contra hrev
    exact hev.2.2.2.2 hrev hvalid.1
  · have := hvalid.2
    rw [hev.2.2.2.1] at this
    omega

theorem revoked_expired_terminal_witness :
    ∃ r1, (runOps demoCrypto demoConfig demoDb
        [(demoEnv, Op.logout demoCookies), (demoEnv, Op.refreshToken demoCookies)]
        ).refreshTokens.get? 0 = some r1 ∧ r1.id = 1 ∧
      r1.expiresAt = 100 ∧ ((none : Option Nat) ≠ none → r1.revokedAt ≠ none) ∧
      ∀ now now1, now ≤ now1 →
        ¬ RefreshToken.validAt ⟨1, "refresh.r0", 1, 100, none, 0⟩ now → ¬ r1.validAt now1 :=
  revoked_expired_terminal demoCrypto demoConfig demoDb
    [(demoEnv, Op.logout demoCookies), (demoEnv, Op.refreshToken demoCookies)] 0
    ⟨1, "refresh.r0", 1, 100, none, 0⟩ rfl

/-! ## The middleware on an expired access credential -/

/-- C10. On a path other than "/api/auth/refresh", a request whose access
credential is correctly signed but past its lifetime (verification throws
`TokenExpiredError`) is answered 401 with `shouldRefresh: true` and the message
"Session expired. Attempting to refresh..."; a request whose credential fails
verification for any other reason is answered 401 "Authentication failed"
without `shouldRefresh`, a different response; `next` is not called, and the
middleware leaves the store as it is. -/
theorem protect_expired (lib : Crypto) (cfg : Config) (env : Env) (db : Db) (req : Request)
    (token : String) (hpath : req.path ≠ "/api/auth/refresh")
    (htoken : extractToken req = some token) (hne : token ≠ "")
    (hsentinel : token ≠ "loggedout")
    (hexpired : lib.verify token env.now = .threw "TokenExpiredError") :
    protect lib env db req = .respond
        ⟨401, [], some (.fail "Session expired. Attempting to refresh..." (some true))⟩ ∧
      (∀ (req2 : Request) (token2 name : String), req2.path ≠ "/api/auth/refresh" →
        extractToken req2 = some token2 → token2 ≠ "" → token2 ≠ "loggedout" →
        lib.verify token2 env.now = .threw name → name ≠ "TokenExpiredError" →
        protect lib env db req2 = .respond
            ⟨401, [], some (.fail "Authentication failed" none)⟩ ∧
          protect lib env db req2 ≠ protect lib env db req) ∧
      (∀ req1, protect lib env db req ≠ .next req1) ∧
      (Op.protect req).exec lib cfg env db = db := by
  have h1 : protect lib env db req = .respond
      ⟨401, [], some (.fail "Session expired. Attempting to refresh..." (some true))⟩ := by
    unfold protect
    simp [hpath, htoken, truthy, hne, hsentinel, hexpired, protectCatch,
      Response.withStatus, Response.json, Response.init]
  refine ⟨h1, ?_, ?_, rfl⟩
  · intro req2 token2 name hpath2 htoken2 hne2 hsentinel2 hthrew hname
    have h2 : protect lib env db req2 = .respond
        ⟨401, [], some (.fail "Authentication failed" none)⟩ := by
      unfold protect
      simp [hpath2, htoken2, truthy, hne2, hsentinel2, hthrew, protectCatch, hname,
        Response.withStatus, Response.json, Response.init]
    refine ⟨h2, ?_⟩
    rw [h1, h2]
    simp
  · intro req1
    rw [h1]
    simp

theorem protect_expired_witness :
    protect demoCrypto demoEnv demoDb (demoRequest "expired") = .respond
        ⟨401, [], some (.fail "Session expired. Attempting to refresh..." (some true))⟩ ∧
      (∀ (req2 : Request) (token2 name : String), req2.path ≠ "/api/auth/refresh" →
        extractToken req2 = some token2 → token2 ≠ "" → token2 ≠ "loggedout" →
        demoCrypto.verify token2 demoEnv.now = .threw name → name ≠ "TokenExpiredError" →
        protect demoCrypto demoEnv demoDb req2 = .respond
            ⟨401, [], some (.fail "Authentication failed" none)⟩ ∧
          protect demoCrypto demoEnv demoDb req2 ≠
            protect demoCrypto demoEnv demoDb (demoRequest "expired")) ∧
      (∀ req1, protect demoCrypto demoEnv demoDb (demoRequest "expired") ≠ .next req1) ∧
      (Op.protect (demoRequest "expired")).exec demoCrypto demoConfig demoEnv demoDb = demoDb :=
  protect_expired demoCrypto demoConfig demoEnv demoDb (demoRequest "expired") "expired"
    (by decide) rfl (by decide) (by decide) rfl

/-! ## The middleware on valid and missing credentials -/

theorem protect_next_of (lib : Crypto) (env : Env) (db : Db) (req : Request)
    (token : String) (payload : Payload) (user : User)
    (hpath : req.path ≠ "/api/auth/refresh") (hup : env.fault 0 = none)
    (htoken : extractToken req = some token) (hne : token ≠ "")
    (hsentinel : token ≠ "loggedout") (hverify : lib.verify token env.now = .ok payload)
    (huser : userFindUniqueById db payload.userId = some user)
    (hactive : user.isActive = true) :
    protect lib env db req = .next { req with
      user := some ⟨user.id, user.userName, user.email, some user.createdAt, none,
        some user.isActive, none, none⟩
      userId := some user.id } := by
  unfold protect
  simp [hpath, htoken, truthy, hne, hsentinel, hverify, Env.call, hup, huser, hactive]

theorem protect_next_inv (lib : Crypto) (env : Env) (db : Db) (req req1 : Request)
    (hpath : req.path ≠ "/api/auth/refresh")
    (h : protect lib env db req = .next req1) :
    ∃ token payload user, extractToken req = some token ∧ token ≠ "" ∧
      token ≠ "loggedout" ∧ lib.verify token env.now = .ok payload ∧
      userFindUniqueById db payload.userId = some user ∧ user.isActive = true := by
  unfold protect at h
  rw [if_neg hpath] at h
  cases hx : extractToken req with
  | none => simp [hx, truthy] at h
  | some token =>
    by_cases hne : token = ""
    · simp [hx, truthy, hne] at h
    · by_cases hs : token = "loggedout"
      · simp [hx, truthy, hs] at h
      · cases hv : lib.verify token env.now with
        | threw name => simp [hx, truthy, hne, hs, hv] at h
        | ok payload =>
          simp only [hx, truthy, hne, hs, hv, if_false] at h
          cases hf : env.fault 0 with
          | some e => simp [Env.call, hf] at h
          | none =>
            cases hu : userFindUniqueById db payload.userId with
            | none => simp [Env.call, hf, hu] at h
            | some user =>
              by_cases ha : user.isActive = true
              · exact ⟨token, payload, user, rfl, hne, hs, hv, hu, ha⟩
              · simp [Env.call, hf, hu, ha] at h

theorem splitOnSpace_of_no_space (l : List Char) (h : ' ' ∉ l) : splitOnSpace l = [l] := by
  induction l with
  | nil => rfl
  | cons c cs ih =>
    have hc : c ≠ ' ' := fun hc => h (by simp [hc])
    have hcs : ' ' ∉ cs := fun hcs => h (List.mem_cons_of_mem _ hcs)
    simp [splitOnSpace, ih hcs, hc]

theorem extractToken_cookie (req : Request) (token : String)
    (hcookie : req.cookies.accessToken = some token) (hne : token ≠ "") :
    extractToken req = some token := by
  simp [extractToken, truthy, hcookie, hne]

theorem extractToken_bearer (req : Request) (token : String)
    (hcookie : truthy req.cookies.accessToken = none)
    (hheader : req.authorization = some ("Bearer " ++ token))
    (hspace : ' ' ∉ token.data) :
    extractToken req = some token := by
  have hdata : ("Bearer " ++ token).data =
      'B' :: 'e' :: 'a' :: 'r' :: 'e' :: 'r' :: ' ' :: token.data := by
    rw [String.data_append]
    rfl
  simp [extractToken, hcookie, hheader, hdata, List.isPrefixOf, splitOnSpace,
    splitOnSpace_of_no_space token.data hspace]

/-- C11. On a path other than "/api/auth/refresh" (the lookup of the user not
failing in storage) `protect` calls `next` if and only if a token is supplied
(the truthy `accessToken` cookie, else the piece after `Bearer` of the
authorization header) that is not empty, is not the sentinel "loggedout",
verifies, and names a user that exists and is active; it then sets `req.user`
and `req.userId` from the row just read. With no token or the sentinel it
answers 401 "Please log in to access this resource", with a missing or inactive
user 401 "User account is inactive or deleted". -/
theorem protect_authenticates (lib : Crypto) (env : Env) (db : Db) (req : Request)
    (hpath : req.path ≠ "/api/auth/refresh") (hup : env.fault 0 = none) :
    ((∃ req1, protect lib env db req = .next req1) ↔
        ∃ token payload user, extractToken req = some token ∧ token ≠ "" ∧
          token ≠ "loggedout" ∧ lib.verify token env.now = .ok payload ∧
          userFindUniqueById db payload.userId = some user ∧ user.isActive = true) ∧
      (∀ token payload user, extractToken req = some token → token ≠ "" →
        token ≠ "loggedout" → lib.verify token env.now = .ok payload →
        userFindUniqueById db payload.userId = some user → user.isActive = true →
        protect lib env db req = .next { req with
          user := some ⟨user.id, user.userName, user.email, some user.createdAt, none,
            some user.isActive, none, none⟩
          userId := some user.id }) ∧
      (truthy (extractToken req) = none ∨ extractToken req = some "loggedout" →
        protect lib env db req = .respond
          ⟨401, [], some (.fail "Please log in to access this resource" none)⟩) ∧
      (∀ token payload, extractToken req = some token → token ≠ "" →
        token ≠ "loggedout" → lib.verify token env.now = .ok payload →
        (∀ user, userFindUniqueById db payload.userId = some user → user.isActive = false) →
        protect lib env db req = .respond
          ⟨401, [], some (.fail "User account is inactive or deleted" none)⟩) ∧
      (∀ token, req.cookies.accessToken = some token → token ≠ "" →
        extractToken req = some token) ∧
      (∀ token, truthy req.cookies.accessToken = none →
        req.authorization = some ("Bearer " ++ token) → ' ' ∉ token.data →
        extractToken req = some token) := by
  refine ⟨⟨?_, ?_⟩, ?_, ?_, ?_, ?_, ?_⟩
  · rintro ⟨req1, h⟩
    exact protect_next_inv lib env db req req1 hpath h
  · rintro ⟨token, payload, user, h1, h2, h3, h4, h5, h6⟩
    exact ⟨_, protect_next_of lib env db req token payload user hpath hup h1 h2 h3 h4 h5 h6⟩
  · intro token payload user h1 h2 h3 h4 h5 h6
    exact protect_next_of lib env db req token payload user hpath hup h1 h2 h3 h4 h5 h6
  · intro h
    unfold protect
    rcases h with h | h
    · simp [hpath, h, Response.withStatus, Response.json, Response.init]
    · simp [hpath, h, truthy, Response.withStatus, Response.json, Response.init]
  · intro token payload h1 h2 h3 h4 h5
    unfold protect
    cases hu : userFindUniqueById db payload.userId with
    | none =>
      simp [hpath, h1, truthy, h2, h3, h4, Env.call, hup, hu, Response.withStatus,
        Response.json, Response.init]
    | some user =>
      simp [hpath, h1, truthy, h2, h3, h4, Env.call, hup, hu, h5 user hu,
        Response.withStatus, Response.json, Response.init]
  · intro token h1 h2
    exact extractToken_cookie req token h1 h2
  · intro token h1 h2 h3
    exact extractToken_bearer req token h1 h2 h3

theorem protect_authenticates_witness :
    protect demoCrypto demoEnv demoDb (demoRequest "refresh.r0") =
      .next { demoRequest "refresh.r0" with
        user := some ⟨1, "alice", "alice@example.com", some 0, none, some true, none, none⟩
        userId := some 1 } :=
  (protect_authenticates demoCrypto demoEnv demoDb (demoRequest "refresh.r0")
    (by decide) rfl).2.1 "refresh.r0" ⟨1, some 0, some "r0"⟩
    ⟨1, "alice", "alice@example.com", "h:secret123", true, 0, none, []⟩
    rfl (by decide) (by decide) rfl rfl rfl

/-! ## What a successful login, signup or refresh has done -/

theorem loginTransaction_inv {db d : Db} {token : String} {userId now : Nat}
    (h : loginTransaction db token userId now = .ok d) :
    d.refreshTokens = db.refreshTokens ++
      [⟨freshId (db.refreshTokens.map RefreshToken.id), token, userId,
        now + 7 * 24 * 60 * 60 * 1000, none, now⟩] := by
  unfold loginTransaction at h
  split at h
  · cases h
  · rename_i db1 h1
    unfold refreshTokenCreate at h1
    split at h1
    · cases h1
    · cases h1
      unfold userUpdateLastLogin at h
      split at h
      · cases h
        rfl
      · cases h

theorem refreshTokenCreate_inv {db d : Db} {token : String} {userId expiresAt now : Nat}
    (h : refreshTokenCreate db token userId expiresAt now = .ok d) :
    d.refreshTokens = db.refreshTokens ++
      [⟨freshId (db.refreshTokens.map RefreshToken.id), token, userId, expiresAt, none, now⟩] ∧
    d.users = db.users := by
  unfold refreshTokenCreate at h
  split at h
  · cases h
  · cases h
    exact ⟨rfl, rfl⟩

theorem userCreate_inv {db d : Db} {userName email password : String} {now : Nat}
    {user : User} (h : userCreate db userName email password now = .ok (user, d)) :
    d.refreshTokens = db.refreshTokens ∧ d.users = db.users ++ [user] ∧
      user.isActive = true ∧ user.userName = userName ∧ user.email = email := by
  unfold userCreate at h
  split at h
  · cases h
  · split at h
    · cases h
    · cases h
      exact ⟨rfl, rfl, rfl, rfl, rfl⟩

/-- A login answered with a session body has found an active user by the login
name, accepted the password, minted both credentials for that user, committed
the transaction and set the cookies. -/
theorem login_session_inv {lib : Crypto} {cfg : Config} {env : Env} {db : Db}
    {body : LoginBody} {view : UserView} {access refresh : String}
    (h : (login lib cfg env db body).1.body = some (.session view access refresh)) :
    ∃ userName password user, truthy body.userName = some userName ∧
      truthy body.password = some password ∧
      userFindUniqueByName db userName = some user ∧ user.isActive = true ∧
      lib.compare password user.password = true ∧
      access = generateAccessToken lib cfg env user.id ∧
      refresh = generateRefreshToken lib env user.id 0 ∧
      view = ⟨user.id, user.userName, user.email, none, none, some user.isActive, none,
        some user.communities⟩ ∧
      loginTransaction db refresh user.id env.now = .ok (login lib cfg env db body).2 ∧
      (login lib cfg env db body).1 =
        (setCookies cfg Response.init access refresh).json (.session view access refresh) := by
  unfold login at h ⊢
  dsimp only at h ⊢
  split at h
  · rename_i userName password hn hp
    split at h
    · simp [internalError, Response.withStatus, Response.json, Response.init] at h
    · simp [Response.withStatus, Response.json, Response.init] at h
    · rename_i user hfind
      have hfind2 := call_eq_ok _ _ _ _ hfind
      split at h
      · simp [Response.withStatus, Response.json, Response.init] at h
      · rename_i hact
        split at h
        · simp [Response.withStatus, Response.json, Response.init] at h
        · rename_i hcmp
          split at h
          · simp [internalError, Response.withStatus, Response.json, Response.init] at h
          · rename_i db1 htx
            have htx2 := call_eq_ok _ _ _ _ htx
            simp only [Response.json, Option.some.injEq, Body.session.injEq] at h
            obtain ⟨hv, ha, hr⟩ := h
            refine ⟨userName, password, user, hn, hp, by simpa using hfind2, by simpa using hact,
              by simpa using hcmp, ha.symm, hr.symm, hv.symm, ?_, ?_⟩
            · rw [if_neg hact, if_neg hcmp]
              rw [← hr]
              exact htx2
            · rw [if_neg hact, if_neg hcmp]
              rw [← hv, ← ha, ← hr]
  · simp [Response.withStatus, Response.json, Response.init] at h

/-- A signup answered with a session body has found no user with the login name
or email, created the user, minted both credentials for the new user, stored the
session record and set the cookies. -/
theorem signup_session_inv {lib : Crypto} {cfg : Config} {env : Env} {db : Db}
    {body : SignupBody} {view : UserView} {access refresh : String}
    (h : (signup lib cfg env db body).1.body = some (.session view access refresh)) :
    ∃ userName email password created db1, truthy body.userName = some userName ∧
      truthy body.email = some email ∧ truthy body.password = some password ∧
      userFindFirstByNameOrEmail db userName email = none ∧
      userCreate db userName email (lib.hash password) env.now = .ok (created, db1) ∧
      access = generateAccessToken lib cfg env created.id ∧
      refresh = generateRefreshToken lib env created.id 0 ∧
      view = ⟨created.id, created.userName, created.email, some created.createdAt,
        none, none, none, none⟩ ∧
      refreshTokenCreate db1 refresh created.id (env.now + 7 * 24 * 60 * 60 * 1000) env.now =
        .ok (signup lib cfg env db body).2 ∧
      (signup lib cfg env db body).1 =
        ((setCookies cfg Response.init access refresh).withStatus 201).json
          (.session view access refresh) := by
  unfold signup at h ⊢
  dsimp only at h ⊢
  split at h
  · rename_i userName email password hn he hp
    split at h
    · simp [internalError, Response.withStatus, Response.json, Response.init] at h
    · simp [Response.withStatus, Response.json, Response.init] at h
    · rename_i hfind
      have hfind2 := call_eq_ok _ _ _ _ hfind
      split at h
      · simp [internalError, Response.withStatus, Response.json, Response.init] at h
      · rename_i created db1 hcreate
        have hcreate2 := call_eq_ok _ _ _ _ hcreate
        split at h
        · simp [internalError, Response.withStatus, Response.json, Response.init] at h
        · rename_i db2 hstore
          have hstore2 := call_eq_ok _ _ _ _ hstore
          simp only [Response.json, Response.withStatus, Option.some.injEq,
            Body.session.injEq] at h
          obtain ⟨hv, ha, hr⟩ := h
          refine ⟨userName, email, password, created, db1, hn, he, hp, by simpa using hfind2,
            hcreate2, ha.symm, hr.symm, hv.symm, ?_, ?_⟩
          · rw [← hr]
            exact hstore2
          · rw [← hv, ← ha, ← hr]
  · simp [Response.withStatus, Response.json, Response.init] at h

/-- A refresh answered with a session body has set the cookies for exactly the
credentials in the body. -/
theorem refreshToken_session_inv {lib : Crypto} {cfg : Config} {env : Env} {db : Db}
    {cookies : Cookies} {view : UserView} {access refresh : String}
    (h : (refreshToken lib cfg env db cookies).1.body =
      some (.session view access refresh)) :
    (refreshToken lib cfg env db cookies).1 =
      (setCookies cfg Response.init access refresh).json (.session view access refresh) := by
  unfold refreshToken at h ⊢
  dsimp only at h ⊢
  split at h
  · simp [Response.withStatus, Response.json, Response.init] at h
  · split at h
    · simp [Response.withStatus, Response.json, Response.init] at h
    · split at h
      · simp [internalError, Response.withStatus, Response.json, Response.init] at h
      · simp [Response.withStatus, Response.json, Response.init] at h
      · split at h
        · simp [internalError, Response.withStatus, Response.json, Response.init] at h
        · simp [Response.withStatus, Response.json, Response.init] at h
        · split at h
          · simp [Response.withStatus, Response.json, Response.init] at h
          · rename_i hact
            split at h
            · simp [internalError, Response.withStatus, Response.json, Response.init] at h
            · simp [Response.withStatus, Response.json, Response.init] at h
            · simp only [Response.json, Option.some.injEq, Body.session.injEq] at h
              obtain ⟨hv, ha, hr⟩ := h
              rw [if_neg hact]
              rw [← hv, ← ha, ← hr]

/-! ## Issuing a session -/

theorem userFindUniqueById_id {db : Db} {id : Nat} {user : User}
    (h : userFindUniqueById db id = some user) : user.id = id := by
  unfold userFindUniqueById at h
  have := List.find?_some h
  simpa using this

/-- C12. Issue-then-authenticate round trip: the access credential in the body of
a successful login or signup, presented to `protect` on a protected path at a
time when verification returns the payload it was signed from and the user it
names is still active (the lookup not failing in storage), makes `protect` call
`next` with `req.userId` equal to the id of the user in that body; for a login
that user is the one found under the login name, whose password was accepted.
A signed credential is taken to be neither empty nor the sentinel. -/
theorem issue_then_authenticate (lib : Crypto) (cfg : Config) (env env2 : Env)
    (db db2 : Db) (loginBody : LoginBody) (signupBody : SignupBody) (req : Request)
    (view : UserView) (access refresh : String)
    (hissued : (login lib cfg env db loginBody).1.body =
        some (.session view access refresh) ∨
      (signup lib cfg env db signupBody).1.body = some (.session view access refresh))
    (hform : access ≠ "" ∧ access ≠ "loggedout")
    (hroundtrip : lib.verify (lib.sign ⟨view.id, none, none⟩ cfg.JWT_EXPIRES_IN env.now)
      env2.now = .ok ⟨view.id, none, none⟩)
    (hstill : ∃ user, userFindUniqueById db2 view.id = some user ∧ user.isActive = true)
    (hpath : req.path ≠ "/api/auth/refresh") (hup : env2.fault 0 = none)
    (hpresented : extractToken req = some access) :
    (∃ req1, protect lib env2 db2 req = .next req1 ∧ req1.userId = some view.id) ∧
      ((login lib cfg env db loginBody).1.body = some (.session view access refresh) →
        ∃ userName password user, truthy loginBody.userName = some userName ∧
          truthy loginBody.password = some password ∧
          userFindUniqueByName db userName = some user ∧ user.id = view.id ∧
          user.isActive = true ∧ lib.compare password user.password = true) := by
  have haccess : access = lib.sign ⟨view.id, none, none⟩ cfg.JWT_EXPIRES_IN env.now := by
    rcases hissued with h | h
    · obtain ⟨_, _, user, _, _, _, _, _, ha, _, hv, _⟩ := login_session_inv h
      rw [ha, hv]
      rfl
    · obtain ⟨_, _, _, created, _, _, _, _, _, _, ha, _, hv, _⟩ := signup_session_inv h
      rw [ha, hv]
      rfl
  obtain ⟨user2, hfind2, hactive2⟩ := hstill
  constructor
  · refine ⟨_, protect_next_of lib env2 db2 req access ⟨view.id, none, none⟩ user2 hpath hup
      hpresented hform.1 hform.2 (by rw [haccess]; exact hroundtrip) hfind2 hactive2, ?_⟩
    simp [userFindUniqueById_id hfind2]
  · intro h
    obtain ⟨userName, password, user, h1, h2, h3, h4, h5, _, _, hv, _⟩ := login_session_inv h
    exact ⟨userName, password, user, h1, h2, h3, by rw [hv], h4, h5⟩

theorem issue_then_authenticate_witness :
    (∃ req1, protect demoCryptoAccess demoEnv demoDb (demoRequest "access") = .next req1 ∧
        req1.userId = some 1) ∧
      ((login demoCryptoAccess demoConfig demoEnv demoDb
          ⟨some "alice", some "secret123"⟩).1.body =
          some (.session ⟨1, "alice", "alice@example.com", none, none, some true, none, some []⟩
            "access" "refresh.n1") →
        ∃ userName password user,
          truthy (LoginBody.mk (some "alice") (some "secret123")).userName = some userName ∧
          truthy (LoginBody.mk (some "alice") (some "secret123")).password = some password ∧
          userFindUniqueByName demoDb userName = some user ∧ user.id = 1 ∧
          user.isActive = true ∧ demoCryptoAccess.compare password user.password = true) :=
  issue_then_authenticate demoCryptoAccess demoConfig demoEnv demoEnv demoDb demoDb
    ⟨some "alice", some "secret123"⟩ ⟨none, none, none⟩ (demoRequest "access")
    ⟨1, "alice", "alice@example.com", none, none, some true, none, some []⟩
    "access" "refresh.n1" (Or.inl (by decide)) (by decide) (by decide)
    ⟨⟨1, "alice", "alice@example.com", "h:secret123", true, 0, none, []⟩, rfl, rfl⟩
    (by decide) rfl rfl

/-- C13. Every successful login and every successful signup at time `env.now`
appends exactly one session record and changes no existing one; the new record
carries the refresh credential of the response body and the id of the user in
that body, is not revoked, and expires 7 days (604800000 ms) after `env.now`. -/
theorem session_created_on_issue (lib : Crypto) (cfg : Config) (env : Env) (db : Db)
    (loginBody : LoginBody) (signupBody : SignupBody) (view : UserView)
    (access refresh : String) :
    ((login lib cfg env db loginBody).1.body = some (.session view access refresh) →
        ∃ created : RefreshToken,
          (login lib cfg env db loginBody).2.refreshTokens = db.refreshTokens ++ [created] ∧
          created.token = refresh ∧ created.userId = view.id ∧ created.revokedAt = none ∧
          created.expiresAt = env.now + 604800000) ∧
      ((signup lib cfg env db signupBody).1.body = some (.session view access refresh) →
        ∃ created : RefreshToken,
          (signup lib cfg env db signupBody).2.refreshTokens = db.refreshTokens ++ [created] ∧
          created.token = refresh ∧ created.userId = view.id ∧ created.revokedAt = none ∧
          created.expiresAt = env.now + 604800000) := by
  constructor
  · intro h
    obtain ⟨_, _, user, _, _, _, _, _, _, _, hv, htx, _⟩ := login_session_inv h
    refine ⟨_, loginTransaction_inv htx, rfl, ?_, rfl, rfl⟩
    rw [hv]
  · intro h
    obtain ⟨_, _, _, created, db1, _, _, _, _, hcreate, _, _, hv, hstore, _⟩ :=
      signup_session_inv h
    obtain ⟨h1, _⟩ := refreshTokenCreate_inv hstore
    obtain ⟨h2, _⟩ := userCreate_inv hcreate
    rw [h2] at h1
    refine ⟨_, h1, rfl, ?_, rfl, rfl⟩
    rw [hv]

theorem session_created_on_issue_witness :
    ∃ created : RefreshToken,
      (login demoCrypto demoConfig demoEnv demoDb
        ⟨some "alice", some "secret123"⟩).2.refreshTokens = demoDb.refreshTokens ++ [created] ∧
      created.token = "refresh.n1" ∧ created.userId = 1 ∧ created.revokedAt = none ∧
      created.expiresAt = demoEnv.now + 604800000 :=
  (session_created_on_issue demoCrypto demoConfig demoEnv demoDb
    ⟨some "alice", some "secret123"⟩ ⟨none, none, none⟩
    ⟨1, "alice", "alice@example.com", none, none, some true, none, some []⟩
    "access" "refresh.n1").1 (by decide)

/-! ## The refresh-credential lifetime -/

/-- C14, evaluated with the refresh lifetime configured as one day: the refresh
cookie lives the configured 86400000 ms, while the session record stored by the
same login expires 604800000 ms (7 days) after issuance and the credential is
signed with the lifetime `"7d"`. -/
theorem refresh_lifetime_hardcoded :
    parseTimespanToMs demoConfigOneDay.REFRESH_TOKEN_EXPIRES_IN = 86400000 ∧
      (login demoCrypto demoConfigOneDay demoEnv demoDb
        ⟨some "alice", some "secret123"⟩).1.cookies =
        [.set "accessToken" "access" ⟨true, false, "lax", some 900000, "/"⟩,
          .set "refreshToken" "refresh.n1"
            ⟨true, false, "lax", some 86400000, "/api/auth/refresh"⟩] ∧
      (login demoCrypto demoConfigOneDay demoEnv demoDb
        ⟨some "alice", some "secret123"⟩).2.refreshTokens =
        [⟨1, "refresh.r0", 1, 100, none, 0⟩,
          ⟨2, "refresh.n1", 1, demoEnv.now + 604800000, none, 10⟩] ∧
      generateRefreshToken lifetimeCrypto demoEnv 1 0 = "7d" := by
  decide

/-! ## Failed logins -/

/-- C15 fails as stated: a login request whose non-empty login name matches no
user, but which carries no password, is answered 400, not 401. -/
theorem login_without_password_counterexample :
    userFindUniqueByName demoDb "ghost" = none ∧
      (login demoCrypto demoConfig demoEnv demoDb ⟨some "ghost", none⟩).1 =
        ⟨400, [], some (.error "userName and password are required")⟩ := by
  decide

/-- C15, amended. A login request with a non-empty login name and a non-empty
password (the lookup not failing in storage) whose login name matches no user,
or matches an inactive user, or matches an active user whose password does not
match, always gets the same response, 401 with body `error: "Invalid
credentials"`; no cookie is set and the store is unchanged. -/
theorem login_no_enumeration (lib : Crypto) (cfg : Config) (env : Env) (db : Db)
    (body : LoginBody) (userName password : String)
    (hname : truthy body.userName = some userName)
    (hpassword : truthy body.password = some password)
    (hup : env.fault 0 = none)
    (hfail : userFindUniqueByName db userName = none ∨
      (∃ user, userFindUniqueByName db userName = some user ∧ user.isActive = false) ∨
      (∃ user, userFindUniqueByName db userName = some user ∧ user.isActive = true ∧
        lib.compare password user.password = false)) :
    (login lib cfg env db body).1 = ⟨401, [], some (.error "Invalid credentials")⟩ ∧
      (login lib cfg env db body).2 = db := by
  unfold login
  simp only [hname, hpassword, Env.call, hup]
  rcases hfail with h | ⟨user, h, ha⟩ | ⟨user, h, ha, hc⟩
  · simp [h, Response.withStatus, Response.json, Response.init]
  · simp [h, ha, Response.withStatus, Response.json, Response.init]
  · simp [h, ha, hc, Response.withStatus, Response.json, Response.init]

theorem login_no_enumeration_witness :
    (login demoCrypto demoConfig demoEnv demoDb ⟨some "ghost", some "guess"⟩).1 =
        ⟨401, [], some (.error "Invalid credentials")⟩ ∧
      (login demoCrypto demoConfig demoEnv demoDb ⟨some "ghost", some "guess"⟩).2 = demoDb :=
  login_no_enumeration demoCrypto demoConfig demoEnv demoDb ⟨some "ghost", some "guess"⟩
    "ghost" "guess" rfl rfl rfl (Or.inl (by decide))

/-! ## Cookies -/

/-- C16. Cookie scoping: `setCookies` adds to the response exactly two cookies, the
access credential under the name `accessToken` with path "/" and the refresh
credential under the name `refreshToken` with path "/api/auth/refresh", both
`httpOnly`, with `secure` the production flag and `sameSite` "strict" in
production and "lax" otherwise; and the cookies of every successful signup, login
and refresh are those `setCookies` sets for the credentials in the body. -/
theorem setCookies_scoping (lib : Crypto) (cfg : Config) (env : Env) (db : Db)
    (res : Response) (access refresh : String) (view : UserView)
    (signupBody : SignupBody) (loginBody : LoginBody) (cookies : Cookies) :
    (setCookies cfg res access refresh).cookies = res.cookies ++
        [.set "accessToken" access
            ⟨true, cfg.NODE_ENV == "production",
              if (cfg.NODE_ENV == "production") = true then "strict" else "lax",
              some (parseTimespanToMs cfg.JWT_EXPIRES_IN), "/"⟩,
          .set "refreshToken" refresh
            ⟨true, cfg.NODE_ENV == "production",
              if (cfg.NODE_ENV == "production") = true then "strict" else "lax",
              some (parseTimespanToMs cfg.REFRESH_TOKEN_EXPIRES_IN), "/api/auth/refresh"⟩] ∧
      ((signup lib cfg env db signupBody).1.body = some (.session view access refresh) →
        (signup lib cfg env db signupBody).1.cookies =
          (setCookies cfg Response.init access refresh).cookies) ∧
      ((login lib cfg env db loginBody).1.body = some (.session view access refresh) →
        (login lib cfg env db loginBody).1.cookies =
          (setCookies cfg Response.init access refresh).cookies) ∧
      ((refreshToken lib cfg env db cookies).1.body = some (.session view access refresh) →
        (refreshToken lib cfg env db cookies).1.cookies =
          (setCookies cfg Response.init access refresh).cookies) := by
  refine ⟨?_, ?_, ?_, ?_⟩
  · simp [setCookies, Response.cookie]
  · intro h
    obtain ⟨_, _, _, _, _, _, _, _, _, _, _, _, _, _, hres⟩ := signup_session_inv h
    rw [hres]
    rfl
  · intro h
    obtain ⟨_, _, _, _, _, _, _, _, _, _, _, _, hres⟩ := login_session_inv h
    rw [hres]
    rfl
  · intro h
    rw [refreshToken_session_inv h]
    rfl

theorem setCookies_scoping_witness :
    (login demoCrypto demoConfig demoEnv demoDb ⟨some "alice", some "secret123"⟩).1.cookies =
      (setCookies demoConfig Response.init "access" "refresh.n1").cookies :=
  (setCookies_scoping demoCrypto demoConfig demoEnv demoDb Response.init "access" "refresh.n1"
    ⟨1, "alice", "alice@example.com", none, none, some true, none, some []⟩
    ⟨none, none, none⟩ ⟨some "alice", some "secret123"⟩ demoCookies).2.2.1 (by decide)

/-- C17, evaluated on every logout request: the response clears a cookie named
`accessTokne` with path "/" and a cookie named `refreshToken` with path
"/api/auth/refresh"; it clears no cookie named `accessToken`, the name under
which `setCookies` sets the access credential. -/
theorem logout_clears_misnamed_cookie (cfg : Config) (env : Env) (db : Db)
    (cookies : Cookies) :
    (logout cfg env db cookies).1.cookies =
        [.clear "accessTokne"
            ⟨true, cfg.NODE_ENV == "production",
              if (cfg.NODE_ENV == "production") = true then "strict" else "lax", none, "/"⟩,
          .clear "refreshToken"
            ⟨true, cfg.NODE_ENV == "production",
              if (cfg.NODE_ENV == "production") = true then "strict" else "lax", none,
              "/api/auth/refresh"⟩] ∧
      (∀ options, CookieAction.clear "accessToken" options ∉
        (logout cfg env db cookies).1.cookies) ∧
      (∀ access refresh, ∃ options, CookieAction.set "accessToken" access options ∈
        (setCookies cfg Response.init access refresh).cookies) := by
  have hcookies : (logout cfg env db cookies).1.cookies =
      [.clear "accessTokne"
          ⟨true, cfg.NODE_ENV == "production",
            if (cfg.NODE_ENV == "production") = true then "strict" else "lax", none, "/"⟩,
        .clear "refreshToken"
          ⟨true, cfg.NODE_ENV == "production",
            if (cfg.NODE_ENV == "production") = true then "strict" else "lax", none,
            "/api/auth/refresh"⟩] := by
    unfold logout
    dsimp only
    split
    · split <;> simp [internalError, Response.json, Response.withStatus,
        Response.clearCookie, Response.init]
    · simp [Response.json, Response.clearCookie, Response.init]
  refine ⟨hcookies, ?_, ?_⟩
  · intro options hmem
    rw [hcookies] at hmem
    simp at hmem
  · intro access refresh
    refine ⟨⟨true, cfg.NODE_ENV == "production",
      if (cfg.NODE_ENV == "production") = true then "strict" else "lax",
      some (parseTimespanToMs cfg.JWT_EXPIRES_IN), "/"⟩, ?_⟩
    simp [setCookies, Response.cookie, Response.init]

/-! ## Timespans -/

theorem digitsValue_append (ds : List Char) (c : Char) :
    digitsValue (ds ++ [c]) = 10 * digitsValue ds + (c.toNat - 48) := by
  simp [digitsValue, List.foldl_append]

theorem digitsValue_eq_ofDigits (ds : List Char) :
    digitsValue ds = Nat.ofDigits 10 (ds.reverse.map (fun c => c.toNat - 48)) := by
  induction ds using List.reverseRecOn with
  | nil => rfl
  | append_singleton xs c ih =>
    rw [digitsValue_append, ih]
    simp [Nat.ofDigits_cons]
    omega

/-- Below 2^53 a natural is its own Number value. -/
theorem round_of_lt (n : Nat) (h : n < 2 ^ 53) : JsNumber.round n = .finite n := by
  have hbits : droppedBits n n = 0 := by
    cases n with
    | zero => rfl
    | succ k =>
      simp only [droppedBits]
      rw [if_pos h]
  simp [JsNumber.round, hbits]

theorem mul_of_lt (n k : Nat) (h : n * k < 2 ^ 53) :
    (JsNumber.finite n).mul k = .finite (n * k) := by
  simp [JsNumber.mul, round_of_lt _ h]

theorem parseTimespanToMs_of_form (ds : List Char) (u : Char) (hne : ds ≠ [])
    (hdigits : ∀ c ∈ ds, c.isDigit = true) :
    parseTimespanToMs (String.mk (ds ++ [u])) =
      if u = 's' then (parseInt ds).mul 1000
      else if u = 'm' then ((parseInt ds).mul 60).mul 1000
      else if u = 'h' then (((parseInt ds).mul 60).mul 60).mul 1000
      else if u = 'd' then ((((parseInt ds).mul 24).mul 60).mul 60).mul 1000
      else .finite (15 * 60 * 1000) := by
  have hall : ds.all Char.isDigit = true := by
    simpa [List.all_eq_true] using hdigits
  simp [parseTimespanToMs, List.reverse_append, hne, hall]

/-- C18 fails as stated: the digits of `"9007199254740993s"` denote 2^53 + 1, for
which `parseInt` gives the double 9007199254740992, so the result is
9007199254740992000 and not 9007199254740993 * 1000; and for `"72057594037929s"`
the digits are exact but the product is not a double, the result being
72057594037928992. -/
theorem parseTimespanToMs_rounding_counterexample :
    digitsValue "9007199254740993".data = 9007199254740993 ∧
      parseTimespanToMs "9007199254740993s" = .finite 9007199254740992000 ∧
      (9007199254740992000 : Nat) ≠ 9007199254740993 * 1000 ∧
      digitsValue "72057594037929".data = 72057594037929 ∧
      parseTimespanToMs "72057594037929s" = .finite 72057594037928992 ∧
      (72057594037928992 : Nat) ≠ 72057594037929 * 1000 := by
  decide

/-- C18, amended. `parseTimespanToMs` on a string of one or more decimal digits
denoting `n` followed by one unit letter returns `n * 1000` for `s`,
`n * 60 * 1000` for `m`, `n * 60 * 60 * 1000` for `h` and
`n * 24 * 60 * 60 * 1000` for `d`, provided that product is below 2^53 (at most
`Number.MAX_SAFE_INTEGER`); on every string not of that form it returns the
fallback 900000. -/
theorem parseTimespanToMs_safe_range :
    (∀ ds : List Char, ds ≠ [] → (∀ c ∈ ds, c.isDigit = true) →
      digitsValue ds = Nat.ofDigits 10 (ds.reverse.map (fun c => c.toNat - 48)) ∧
      (digitsValue ds * 1000 < 2 ^ 53 →
        parseTimespanToMs (String.mk (ds ++ ['s'])) = .finite (digitsValue ds * 1000)) ∧
      (digitsValue ds * 60 * 1000 < 2 ^ 53 →
        parseTimespanToMs (String.mk (ds ++ ['m'])) =
          .finite (digitsValue ds * 60 * 1000)) ∧
      (digitsValue ds * 60 * 60 * 1000 < 2 ^ 53 →
        parseTimespanToMs (String.mk (ds ++ ['h'])) =
          .finite (digitsValue ds * 60 * 60 * 1000)) ∧
      (digitsValue ds * 24 * 60 * 60 * 1000 < 2 ^ 53 →
        parseTimespanToMs (String.mk (ds ++ ['d'])) =
          .finite (digitsValue ds * 24 * 60 * 60 * 1000))) ∧
    (∀ s : String,
      (¬ ∃ ds u, s.data = ds ++ [u] ∧ ds ≠ [] ∧ (∀ c ∈ ds, c.isDigit = true) ∧
        (u = 's' ∨ u = 'm' ∨ u = 'h' ∨ u = 'd')) →
      parseTimespanToMs s = .finite 900000) := by
  constructor
  · intro ds hne hdigits
    refine ⟨digitsValue_eq_ofDigits ds, ?_, ?_, ?_, ?_⟩
    · intro h
      rw [parseTimespanToMs_of_form ds _ hne hdigits]
      simp only [if_true, parseInt]
      rw [round_of_lt _ (by omega), mul_of_lt _ _ h]
    · intro h
      rw [parseTimespanToMs_of_form ds _ hne hdigits]
      simp only [show ('m' : Char) ≠ 's' by decide, if_false, if_true, parseInt]
      rw [round_of_lt _ (by omega), mul_of_lt _ _ (by omega), mul_of_lt _ _ h]
    · intro h
      rw [parseTimespanToMs_of_form ds _ hne hdigits]
      simp only [show ('h' : Char) ≠ 's' by decide, show ('h' : Char) ≠ 'm' by decide,
        if_false, if_true, parseInt]
      rw [round_of_lt _ (by omega), mul_of_lt _ _ (by omega), mul_of_lt _ _ (by omega),
        mul_of_lt _ _ h]
    · intro h
      rw [parseTimespanToMs_of_form ds _ hne hdigits]
      simp only [show ('d' : Char) ≠ 's' by decide, show ('d' : Char) ≠ 'm' by decide,
        show ('d' : Char) ≠ 'h' by decide, if_false, if_true, parseInt]
      rw [round_of_lt _ (by omega), mul_of_lt _ _ (by omega), mul_of_lt _ _ (by omega),
        mul_of_lt _ _ (by omega), mul_of_lt _ _ h]
  · intro s hform
    unfold parseTimespanToMs
    cases hrev : s.data.reverse with
    | nil => rfl
    | cons u rest =>
      have hdata : s.data = rest.reverse ++ [u] := by
        have := congrArg List.reverse hrev
        simpa using this
      dsimp only
      split
      · rename_i hcond
        have hunit : ¬ (u = 's' ∨ u = 'm' ∨ u = 'h' ∨ u = 'd') := fun hu =>
          hform ⟨rest.reverse, u, hdata, hcond.1, by
            simpa [List.all_eq_true] using hcond.2, hu⟩
        simp only [not_or] at hunit
        simp [hunit.1, hunit.2.1, hunit.2.2.1, hunit.2.2.2]
      · rfl

theorem parseTimespanToMs_safe_range_witness :
    (digitsValue ['1', '5'] = 15 ∧
      parseTimespanToMs (String.mk (['1', '5'] ++ ['s'])) =
        .finite (digitsValue ['1', '5'] * 1000) ∧
      parseTimespanToMs (String.mk (['1', '5'] ++ ['m'])) =
        .finite (digitsValue ['1', '5'] * 60 * 1000) ∧
      parseTimespanToMs (String.mk (['1', '5'] ++ ['h'])) =
        .finite (digitsValue ['1', '5'] * 60 * 60 * 1000) ∧
      parseTimespanToMs (String.mk (['1', '5'] ++ ['d'])) =
        .finite (digitsValue ['1', '5'] * 24 * 60 * 60 * 1000)) ∧
      parseTimespanToMs "15m" = .finite 900000 ∧
      parseTimespanToMs "7d" = .finite 604800000 ∧
      parseTimespanToMs "9007199254740s" = .finite 9007199254740000 ∧
      parseTimespanToMs "" = .finite 900000 ∧
      parseTimespanToMs "15" = .finite 900000 ∧
      parseTimespanToMs "15w" = .finite 900000 ∧
      parseTimespanToMs "-15m" = .finite 900000 ∧
      parseTimespanToMs "1.5h" = .finite 900000 ∧
      parseTimespanToMs " 15m" = .finite 900000 ∧
      parseTimespanToMs "15ms" = .finite 900000 :=
  ⟨⟨by decide,
    (parseTimespanToMs_safe_range.1 ['1', '5'] (by decide) (by decide)).2.1 (by decide),
    (parseTimespanToMs_safe_range.1 ['1', '5'] (by decide) (by decide)).2.2.1 (by decide),
    (parseTimespanToMs_safe_range.1 ['1', '5'] (by decide) (by decide)).2.2.2.1 (by decide),
    (parseTimespanToMs_safe_range.1 ['1', '5'] (by decide) (by decide)).2.2.2.2 (by decide)⟩,
    by decide, by decide, by decide, by decide, by decide,
    parseTimespanToMs_safe_range.2 "15w" (by
      rintro ⟨ds, u, h, -, -, hu⟩
      have hlist : ['1', '5', 'w'] = ds ++ [u] := h
      have hlast := congrArg List.getLast? hlist
      simp at hlast
      subst hlast
      revert hu
      decide),
    by decide, by decide, by decide, by decide⟩

/-! ## Two rotations in flight -/

/-- The handler is its lookups followed, on the same store, by its swap. -/
theorem refreshToken_eq_lookups_then_swap (lib : Crypto) (cfg : Config) (env : Env) (db : Db)
    (cookies : Cookies) :
    refreshToken lib cfg env db cookies =
      match refreshTokenLookups lib env db cookies with
      | .inl res => (res, db)
      | .inr looked => refreshTokenSwap lib cfg env db looked := by
  unfold refreshToken refreshTokenLookups refreshTokenSwap
  dsimp only
  split
  · rfl
  · split
    · rfl
    · split
      · rfl
      · rfl
      · split
        · rfl
        · rfl
        · split
          · rfl
          · rfl

/-- C19, evaluated on two refresh requests that present the same valid
credential and both finish their lookups before either swaps: both are answered
200, each with a new refresh credential of its own, and both new session records
are stored unrevoked. -/
theorem concurrent_rotation_both_succeed :
    (refreshTokenRace demoCrypto demoConfig demoEnv demoEnvB demoDb demoCookies
        demoCookies).map (fun out => (out.1.1.status, out.1.2.status)) = some (200, 200) ∧
      (refreshTokenRace demoCrypto demoConfig demoEnv demoEnvB demoDb demoCookies
        demoCookies).map (fun out => (out.1.1.body, out.1.2.body)) =
        some (some (.session ⟨1, "alice", "alice@example.com", none, none, none, none, none⟩
            "access" "refresh.n1"),
          some (.session ⟨1, "alice", "alice@example.com", none, none, none, none, none⟩
            "access" "refresh.m1")) ∧
      (refreshTokenRace demoCrypto demoConfig demoEnv demoEnvB demoDb demoCookies
        demoCookies).map (fun out => out.2.refreshTokens) =
        some [⟨1, "refresh.r0", 1, 100, some 11, 0⟩,
          ⟨2, "refresh.n1", 1, 604800010, none, 10⟩,
          ⟨3, "refresh.m1", 1, 604800011, none, 11⟩] := by
  decide

/-! ## Logout from a client that respects cookie paths -/

/-- C20, evaluated on a client that logs in, stores the cookies of the response
and sends each only within its path: on the refresh route it sends both
credentials, on the logout route only the access credential, so the logout is
answered 200 while the session record created by the login stays unrevoked. -/
theorem logout_leaves_session_unrevoked :
    clientCookies
        (login demoCrypto demoConfig demoEnv demoDb ⟨some "alice", some "secret123"⟩).1.cookies
        refreshRoute = ⟨some "access", some "refresh.n1"⟩ ∧
      clientCookies
        (login demoCrypto demoConfig demoEnv demoDb ⟨some "alice", some "secret123"⟩).1.cookies
        logoutRoute = ⟨some "access", none⟩ ∧
      (logout demoConfig demoEnvB
        (login demoCrypto demoConfig demoEnv demoDb ⟨some "alice", some "secret123"⟩).2
        (clientCookies
          (login demoCrypto demoConfig demoEnv demoDb
            ⟨some "alice", some "secret123"⟩).1.cookies logoutRoute)).1.status = 200 ∧
      (logout demoConfig demoEnvB
        (login demoCrypto demoConfig demoEnv demoDb ⟨some "alice", some "secret123"⟩).2
        (clientCookies
          (login demoCrypto demoConfig demoEnv demoDb
            ⟨some "alice", some "secret123"⟩).1.cookies logoutRoute)).2.refreshTokens =
        [⟨1, "refresh.r0", 1, 100, none, 0⟩, ⟨2, "refresh.n1", 1, 604800010, none, 10⟩] ∧
      (logout demoConfig demoEnvB
        (login demoCrypto demoConfig demoEnv demoDb ⟨some "alice", some "secret123"⟩).2
        ⟨some "access", some "refresh.n1"⟩).2.refreshTokens =
        [⟨1, "refresh.r0", 1, 100, none, 0⟩, ⟨2, "refresh.n1", 1, 604800010, some 11, 10⟩] := by
  decide

/-! ## Storage failures -/

theorem rotateLoop_throws (lib : Crypto) (env : Env) (db : Db) (userId recordId : Nat)
    (k remaining attempts : Nat) (e : PrismaError) (hk : k < remaining)
    (hcol : ∀ j, attempts ≤ j → j < attempts + k → ∃ e1,
      env.call (2 + j) (rotateTransaction db recordId
        (generateRefreshToken lib env userId j) userId env.now) = .error e1 ∧
      e1.code = "P2002" ∧ "token" ∈ e1.target)
    (hother : env.call (2 + (attempts + k)) (rotateTransaction db recordId
      (generateRefreshToken lib env userId (attempts + k)) userId env.now) = .error e)
    (hnot : ¬ (e.code = "P2002" ∧ "token" ∈ e.target)) :
    rotateLoop lib env db userId recordId remaining attempts = .error e := by
  induction k generalizing remaining attempts with
  | zero =>
    obtain ⟨n, rfl⟩ : ∃ n, remaining = n + 1 := ⟨remaining - 1, by omega⟩
    simp only [Nat.add_zero, generateRefreshToken] at hother
    simp only [rotateLoop, hother]
    rw [if_neg hnot]
  | succ i ih =>
    obtain ⟨n, rfl⟩ : ∃ n, remaining = n + 1 := ⟨remaining - 1, by omega⟩
    obtain ⟨e1, h1, hconf⟩ := hcol attempts (le_refl _) (by omega)
    simp only [generateRefreshToken] at h1
    simp only [rotateLoop, h1]
    rw [if_pos hconf]
    apply ih n (attempts + 1) (by omega)
    · intro j hj1 hj2
      exact hcol j (by omega) (by omega)
    · rw [show attempts + 1 + i = attempts + (i + 1) by omega]
      exact hother

theorem refreshToken_throws (lib : Crypto) (cfg : Config) (env : Env) (db : Db)
    (cookies : Cookies) (old : String) (payload : Payload) (record : RefreshToken)
    (user : User) (k : Nat) (e : PrismaError)
    (hcookie : cookies.refreshToken = some old) (hne : old ≠ "")
    (hverify : lib.verify old env.now = .ok payload)
    (hlookup0 : env.fault 0 = none) (hlookup1 : env.fault 1 = none)
    (hfind : refreshTokenFindFirst db old payload.userId env.now = some record)
    (huser : userFindUniqueById db payload.userId = some user)
    (hactive : user.isActive = true) (hk : k < maxAttempts)
    (hcol : ∀ j, j < k → ∃ e1,
      env.call (2 + j) (rotateTransaction db record.id
        (generateRefreshToken lib env payload.userId j) payload.userId env.now) = .error e1 ∧
      e1.code = "P2002" ∧ "token" ∈ e1.target)
    (hother : env.call (2 + k) (rotateTransaction db record.id
      (generateRefreshToken lib env payload.userId k) payload.userId env.now) = .error e)
    (hnot : ¬ (e.code = "P2002" ∧ "token" ∈ e.target)) :
    refreshToken lib cfg env db cookies =
      (⟨500, [], some (.error "Internal server error")⟩, db) := by
  have hloop := rotateLoop_throws lib env db payload.userId record.id k maxAttempts 0 e hk
    (fun j _ h2 => hcol j (by omega)) (by simpa using hother) hnot
  unfold refreshToken
  simp only [hcookie, truthy, hne, if_false, hverify, Env.call, hlookup0, hlookup1, hfind,
    huser, hactive, hloop]
  simp [internalError, Response.withStatus, Response.json, Response.init]

/-- C21. Only nonce collisions are retried. For a refresh request that reaches the
swap: if attempts 0 to `k - 1` fail with a uniqueness conflict on the token
column and attempt `k` (`k < 3`) fails with any other storage error, the response
is 500 "Internal server error", no cookie is set and the store is unchanged;
and no further attempt is made, the outcome being the same whatever later random
draws and storage calls would give. Likewise a failing storage call of signup
(lookup, creation of the user, creation of the session record), of login
(lookup, transaction) or of logout (`updateMany`) yields the 500 response. -/
theorem only_collisions_retried (lib : Crypto) (cfg : Config) (env : Env) (db : Db)
    (cookies : Cookies) (old : String) (payload : Payload) (record : RefreshToken)
    (user : User) (k : Nat) (e : PrismaError)
    (hcookie : cookies.refreshToken = some old) (hne : old ≠ "")
    (hverify : lib.verify old env.now = .ok payload)
    (hlookup0 : env.fault 0 = none) (hlookup1 : env.fault 1 = none)
    (hfind : refreshTokenFindFirst db old payload.userId env.now = some record)
    (huser : userFindUniqueById db payload.userId = some user)
    (hactive : user.isActive = true) (hk : k < maxAttempts)
    (hcol : ∀ j, j < k → ∃ e1,
      env.call (2 + j) (rotateTransaction db record.id
        (generateRefreshToken lib env payload.userId j) payload.userId env.now) = .error e1 ∧
      e1.code = "P2002" ∧ "token" ∈ e1.target)
    (hother : env.call (2 + k) (rotateTransaction db record.id
      (generateRefreshToken lib env payload.userId k) payload.userId env.now) = .error e)
    (hnot : ¬ (e.code = "P2002" ∧ "token" ∈ e.target)) :
    refreshToken lib cfg env db cookies =
        (⟨500, [], some (.error "Internal server error")⟩, db) ∧
      (∀ env1 : Env, env1.now = env.now → (∀ j, j ≤ k → env1.random j = env.random j) →
        (∀ j, j ≤ 2 + k → env1.fault j = env.fault j) →
        refreshToken lib cfg env1 db cookies =
          (⟨500, [], some (.error "Internal server error")⟩, db)) ∧
      (∀ (envS : Env) (dbS : Db) (body : SignupBody) (userName email password : String)
        (eS : PrismaError), truthy body.userName = some userName →
        truthy body.email = some email → truthy body.password = some password →
        (envS.fault 0 = some eS ∨
          (envS.fault 0 = none ∧ userFindFirstByNameOrEmail dbS userName email = none ∧
            envS.call 1 (userCreate dbS userName email (lib.hash password) envS.now) =
              .error eS) ∨
          (∃ created db1, envS.fault 0 = none ∧
            userFindFirstByNameOrEmail dbS userName email = none ∧
            envS.call 1 (userCreate dbS userName email (lib.hash password) envS.now) =
              .ok (created, db1) ∧
            envS.call 2 (refreshTokenCreate db1 (generateRefreshToken lib envS created.id 0)
              created.id (envS.now + 7 * 24 * 60 * 60 * 1000) envS.now) = .error eS)) →
        (signup lib cfg envS dbS body).1 =
          ⟨500, [], some (.error "Internal server error")⟩) ∧
      (∀ (envL : Env) (dbL : Db) (body : LoginBody) (userName password : String)
        (eL : PrismaError), truthy body.userName = some userName →
        truthy body.password = some password →
        (envL.fault 0 = some eL ∨
          (∃ found, envL.fault 0 = none ∧ userFindUniqueByName dbL userName = some found ∧
            found.isActive = true ∧ lib.compare password found.password = true ∧
            envL.call 1 (loginTransaction dbL (generateRefreshToken lib envL found.id 0)
              found.id envL.now) = .error eL)) →
        login lib cfg envL dbL body =
          (⟨500, [], some (.error "Internal server error")⟩, dbL)) ∧
      (∀ (envO : Env) (dbO : Db) (cookiesO : Cookies) (token : String) (eO : PrismaError),
        truthy cookiesO.refreshToken = some token → envO.fault 0 = some eO →
        (logout cfg envO dbO cookiesO).1.status = 500 ∧
          (logout cfg envO dbO cookiesO).1.body = some (.error "Internal server error") ∧
          (logout cfg envO dbO cookiesO).2 = dbO) := by
  refine ⟨?_, ?_, ?_, ?_, ?_⟩
  · exact refreshToken_throws lib cfg env db cookies old payload record user k e hcookie hne
      hverify hlookup0 hlookup1 hfind huser hactive hk hcol hother hnot
  · intro env1 hnow hrandom hfault
    have hgen : ∀ j, j ≤ k → generateRefreshToken lib env1 payload.userId j =
        generateRefreshToken lib env payload.userId j := by
      intro j hj
      simp [generateRefreshToken, hnow, hrandom j hj]
    have hcall : ∀ j, j ≤ k → ∀ r : Except PrismaError Db,
        env1.call (2 + j) r = env.call (2 + j) r := by
      intro j hj r
      simp [Env.call, hfault (2 + j) (by omega)]
    apply refreshToken_throws lib cfg env1 db cookies old payload record user k e hcookie hne
      (by rw [hnow]; exact hverify) (by rw [hfault 0 (by omega)]; exact hlookup0)
      (by rw [hfault 1 (by omega)]; exact hlookup1) (by rw [hnow]; exact hfind) huser hactive hk
    · intro j hj
      rw [hgen j (by omega), hcall j (by omega), hnow]
      exact hcol j hj
    · rw [hgen k (le_refl _), hcall k (le_refl _), hnow]
      exact hother
    · exact hnot
  · intro envS dbS body userName email password eS h1 h2 h3 hfail
    unfold signup
    simp only [h1, h2, h3]
    rcases hfail with h | ⟨h0, hf, hc⟩ | ⟨created, db1, h0, hf, hc, hs⟩
    · simp [Env.call, h, internalError, Response.withStatus, Response.json, Response.init]
    · have h0c : envS.call 0 (Except.ok (userFindFirstByNameOrEmail dbS userName email)) =
          Except.ok none := by
        simp [Env.call, h0, hf]
      simp only [h0c, hc]
      simp [internalError, Response.withStatus, Response.json, Response.init]
    · have h0c : envS.call 0 (Except.ok (userFindFirstByNameOrEmail dbS userName email)) =
          Except.ok none := by
        simp [Env.call, h0, hf]
      simp only [h0c, hc, hs]
      simp [internalError, Response.withStatus, Response.json, Response.init]
  · intro envL dbL body userName password eL h1 h2 hfail
    unfold login
    simp only [h1, h2]
    rcases hfail with h | ⟨found, h0, hf, ha, hc, ht⟩
    · simp [Env.call, h, internalError, Response.withStatus, Response.json, Response.init]
    · have h0c : envL.call 0 (Except.ok (userFindUniqueByName dbL userName)) =
          Except.ok (some found) := by
        simp [Env.call, h0, hf]
      simp only [h0c, ha, hc, ht]
      simp [internalError, Response.withStatus, Response.json, Response.init]
  · intro envO dbO cookiesO token eO h1 h2
    unfold logout
    simp [h1, Env.call, h2, internalError, Response.withStatus, Response.json,
      Response.clearCookie, Response.init]

theorem only_collisions_retried_witness :
    refreshToken demoCrypto demoConfig demoEnvUnreachable demoDb demoCookies =
      (⟨500, [], some (.error "Internal server error")⟩, demoDb) :=
  (only_collisions_retried demoCrypto demoConfig demoEnvUnreachable demoDb demoCookies
    "refresh.r0" ⟨1, some 0, some "r0"⟩ ⟨1, "refresh.r0", 1, 100, none, 0⟩
    ⟨1, "alice", "alice@example.com", "h:secret123", true, 0, none, []⟩ 0
    ⟨"PrismaClientKnownRequestError", "P1001", []⟩
    rfl (by decide) rfl rfl rfl (by decide) rfl rfl (by decide)
    (fun j hj => absurd hj (Nat.not_lt_zero j)) rfl (by decide)).1

/-! ## The middleware and the session table -/

theorem logout_users (cfg : Config) (env : Env) (db : Db) (cookies : Cookies) :
    (logout cfg env db cookies).2.users = db.users := by
  unfold logout
  dsimp only
  split
  · split
    · rfl
    · rename_i db1 h1
      have := call_eq_ok _ _ _ _ h1
      cases this
      rfl
  · rfl

theorem refreshToken_users (lib : Crypto) (cfg : Config) (env : Env) (db : Db)
    (cookies : Cookies) : (refreshToken lib cfg env db cookies).2.users = db.users := by
  unfold refreshToken
  dsimp only
  split
  · rfl
  · split
    · rfl
    · split
      · rfl
      · rfl
      · split
        · rfl
        · rfl
        · split
          · rfl
          · split
            · rfl
            · rename_i db1 h1
              rw [rotateLoop_none h1]
            · rename_i token db1 h1
              obtain ⟨_, _, _, _, htx⟩ := rotateLoop_some h1
              exact (rotateTransaction_inv htx).2.2

/-- C22. Access-credential validation is independent of session records: on two
stores with the same users `protect` has the same outcome for every request,
whatever their session records; in particular the outcome is the same before
and after a logout or a refresh changes the session table. -/
theorem protect_ignores_sessions (lib : Crypto) (cfg : Config) (env : Env) (db db1 : Db)
    (req : Request) (husers : db1.users = db.users) :
    protect lib env db1 req = protect lib env db req ∧
      (∀ (env2 : Env) (cookies : Cookies),
        protect lib env (logout cfg env2 db cookies).2 req = protect lib env db req ∧
        protect lib env (refreshToken lib cfg env2 db cookies).2 req =
          protect lib env db req) := by
  have key : ∀ d : Db, d.users = db.users → protect lib env d req = protect lib env db req := by
    intro d hd
    unfold protect userFindUniqueById
    rw [hd]
  exact ⟨key db1 husers, fun env2 cookies =>
    ⟨key _ (logout_users cfg env2 db cookies), key _ (refreshToken_users lib cfg env2 db cookies)⟩⟩

theorem protect_ignores_sessions_witness :
    protect demoCrypto demoEnv ⟨demoDb.users, []⟩ (demoRequest "refresh.r0") =
        protect demoCrypto demoEnv demoDb (demoRequest "refresh.r0") ∧
      (∀ (env2 : Env) (cookies : Cookies),
        protect demoCrypto demoEnv (logout demoConfig env2 demoDb cookies).2
            (demoRequest "refresh.r0") =
          protect demoCrypto demoEnv demoDb (demoRequest "refresh.r0") ∧
        protect demoCrypto demoEnv (refreshToken demoCrypto demoConfig env2 demoDb cookies).2
            (demoRequest "refresh.r0") =
          protect demoCrypto demoEnv demoDb (demoRequest "refresh.r0")) :=
  protect_ignores_sessions demoCrypto demoConfig demoEnv demoDb ⟨demoDb.users, []⟩
    (demoRequest "refresh.r0") rfl

/-! ## The password hash stays in the store -/

theorem signup_userView (lib : Crypto) (cfg : Config) (env : Env) (db : Db)
    (body : SignupBody) (view : UserView)
    (h : (signup lib cfg env db body).1.userView = some view) : view.password = none := by
  unfold signup at h
  dsimp only at h
  repeat' split at h
  all_goals
    simp [Response.userView, Body.userView, internalError, Response.withStatus,
      Response.json, Response.init, setCookies, Response.cookie] at h <;>
    (subst h; rfl)

theorem login_userView (lib : Crypto) (cfg : Config) (env : Env) (db : Db)
    (body : LoginBody) (view : UserView)
    (h : (login lib cfg env db body).1.userView = some view) : view.password = none := by
  unfold login at h
  dsimp only at h
  repeat' split at h
  all_goals
    simp [Response.userView, Body.userView, internalError, Response.withStatus,
      Response.json, Response.init, setCookies, Response.cookie] at h <;>
    (subst h; rfl)

theorem refreshToken_userView (lib : Crypto) (cfg : Config) (env : Env) (db : Db)
    (cookies : Cookies) (view : UserView)
    (h : (refreshToken lib cfg env db cookies).1.userView = some view) :
    view.password = none := by
  unfold refreshToken at h
  dsimp only at h
  repeat' split at h
  all_goals
    simp [Response.userView, Body.userView, internalError, Response.withStatus,
      Response.json, Response.init, setCookies, Response.cookie] at h <;>
    (subst h; rfl)

theorem getCurrentUser_userView (env : Env) (db : Db) (userId : Option Nat)
    (view : UserView) (h : (getCurrentUser env db userId).1.userView = some view) :
    view.password = none := by
  unfold getCurrentUser at h
  dsimp only at h
  repeat' split at h
  all_goals
    simp [Response.userView, Body.userView, internalError, Response.withStatus,
      Response.json, Response.init] at h <;>
    (subst h; rfl)

theorem protect_user (lib : Crypto) (env : Env) (db : Db) (req req1 : Request)
    (hpath : req.path ≠ "/api/auth/refresh") (h : protect lib env db req = .next req1) :
    ∃ view, req1.user = some view ∧ view.password = none := by
  unfold protect at h
  rw [if_neg hpath] at h
  repeat' split at h
  all_goals first
    | (cases h; exact ⟨_, rfl, rfl⟩)
    | (simp at h)

/-- C23. No auth response carries the password hash: whenever the body of a
response of signup, login, refreshToken or getCurrentUser holds a user object,
and whenever `protect` attaches a user object to the request, that object has no
password field. -/
theorem no_password_in_responses (lib : Crypto) (cfg : Config) (env : Env) (db : Db) :
    (∀ body view, (signup lib cfg env db body).1.userView = some view →
        view.password = none) ∧
      (∀ body view, (login lib cfg env db body).1.userView = some view →
        view.password = none) ∧
      (∀ cookies view, (refreshToken lib cfg env db cookies).1.userView = some view →
        view.password = none) ∧
      (∀ userId view, (getCurrentUser env db userId).1.userView = some view →
        view.password = none) ∧
      (∀ req req1, req.path ≠ "/api/auth/refresh" → protect lib env db req = .next req1 →
        ∃ view, req1.user = some view ∧ view.password = none) :=
  ⟨fun body view h => signup_userView lib cfg env db body view h,
    fun body view h => login_userView lib cfg env db body view h,
    fun cookies view h => refreshToken_userView lib cfg env db cookies view h,
    fun userId view h => getCurrentUser_userView env db userId view h,
    fun req req1 hpath h => protect_user lib env db req req1 hpath h⟩

theorem no_password_in_responses_witness :
    (login demoCrypto demoConfig demoEnv demoDb ⟨some "alice", some "secret123"⟩).1.userView =
        some ⟨1, "alice", "alice@example.com", none, none, some true, none, some []⟩ ∧
      (⟨1, "alice", "alice@example.com", none, none, some true, none, some []⟩ :
        UserView).password = none :=
  ⟨by decide,
    (no_password_in_responses demoCrypto demoConfig demoEnv demoDb).2.1
      ⟨some "alice", some "secret123"⟩
      ⟨1, "alice", "alice@example.com", none, none, some true, none, some []⟩ (by decide)⟩

/-! ## Votes -/

theorem voteFindUnique_none {db : Forum} {userId postId : Nat}
    (h : voteFindUnique db userId postId = none) :
    db.votes.any (fun v => v.userId == userId && v.postId == postId) = false ∧
      ∀ v ∈ db.votes, ¬ (v.userId = userId ∧ v.postId = postId) := by
  unfold voteFindUnique at h
  rw [List.find?_eq_none] at h
  constructor
  · rw [Bool.eq_false_iff]
    intro hc
    simp only [List.any_eq_true] at hc
    obtain ⟨v, hv, hp⟩ := hc
    exact h v hv hp
  · intro v hv hc
    exact h v hv (by simp [hc.1, hc.2])

theorem voteFindUnique_some {db : Forum} {userId postId : Nat} {found : Vote}
    (h : voteFindUnique db userId postId = some found) :
    found ∈ db.votes ∧ found.userId = userId ∧ found.postId = postId ∧
      db.votes.any (fun v => v.userId == userId && v.postId == postId) = true := by
  unfold voteFindUnique at h
  have hp := List.find?_some h
  have hm := List.mem_of_find?_eq_some h
  simp at hp
  refine ⟨hm, hp.1, hp.2, ?_⟩
  simp only [List.any_eq_true]
  exact ⟨found, hm, by simp [hp.1, hp.2]⟩

/-- The count query returns the number of votes of that type on the post. -/
theorem voteCount_eq_votesOn (db : Forum) (postId : Nat) (type : String) :
    voteCount db postId type = votesOn db.votes postId type := by
  unfold voteCount votesOn
  rw [List.countP_eq_length_filter]
  congr 1
  apply List.filter_congr
  intro v _
  by_cases h1 : v.postId = postId <;> by_cases h2 : v.type = type <;> simp [h1, h2]

/-- A first vote is created. -/
theorem castVote_create (env : Env) (db : Forum) (userId postId : Nat) (type : String)
    (body : VoteRequest) (post : Post)
    (hpost : body.postId = some postId) (hid : postId ≠ 0) (htype : body.type = some type)
    (hvalid : type = "UP" ∨ type = "DOWN") (hup : env.storageUp)
    (hexists : postFindUnique db postId = some post)
    (hvote : voteFindUnique db userId postId = none) :
    castVote env db userId body =
      (voteReport ⟨db.posts, db.votes ++
          [⟨freshId (db.votes.map Vote.id), type, userId, postId, env.now, env.now⟩]⟩ postId
          (some ⟨freshId (db.votes.map Vote.id), type, userId, postId, env.now, env.now⟩),
        ⟨db.posts, db.votes ++
          [⟨freshId (db.votes.map Vote.id), type, userId, postId, env.now, env.now⟩]⟩) := by
  have hne : type ≠ "" := by rcases hvalid with h | h <;> simp [h]
  have hnot : ¬ (type ≠ "UP" ∧ type ≠ "DOWN") := by
    rcases hvalid with h | h <;> simp [h]
  unfold castVote
  simp only [hpost, htype, truthyId, truthy, hid, hne, if_false, if_neg hnot,
    call_of_storageUp env hup, hexists, hvote, voteCreate, (voteFindUnique_none hvote).1,
    voteCount_eq_votesOn, voteReport]
  rfl

/-- A vote of the same type is removed. -/
theorem castVote_remove (env : Env) (db : Forum) (userId postId : Nat) (type : String)
    (body : VoteRequest) (post : Post) (found : Vote)
    (hpost : body.postId = some postId) (hid : postId ≠ 0) (htype : body.type = some type)
    (hvalid : type = "UP" ∨ type = "DOWN") (hup : env.storageUp)
    (hexists : postFindUnique db postId = some post)
    (hvote : voteFindUnique db userId postId = some found) (hsame : found.type = type) :
    castVote env db userId body =
      (voteReport ⟨db.posts, votesWithout db.votes userId postId⟩ postId none,
        ⟨db.posts, votesWithout db.votes userId postId⟩) := by
  have hne : type ≠ "" := by rcases hvalid with h | h <;> simp [h]
  have hnot : ¬ (type ≠ "UP" ∧ type ≠ "DOWN") := by
    rcases hvalid with h | h <;> simp [h]
  unfold castVote
  simp only [hpost, htype, truthyId, truthy, hid, hne, if_false, if_neg hnot,
    call_of_storageUp env hup, hexists, hvote, hsame, if_true, voteDelete,
    (voteFindUnique_some hvote).2.2.2, voteCount_eq_votesOn, voteReport]
  rfl

/-- A vote of the other type is changed. -/
theorem castVote_change (env : Env) (db : Forum) (userId postId : Nat) (type : String)
    (body : VoteRequest) (post : Post) (found : Vote)
    (hpost : body.postId = some postId) (hid : postId ≠ 0) (htype : body.type = some type)
    (hvalid : type = "UP" ∨ type = "DOWN") (hup : env.storageUp)
    (hexists : postFindUnique db postId = some post)
    (hvote : voteFindUnique db userId postId = some found) (hother : found.type ≠ type) :
    castVote env db userId body =
      (voteReport ⟨db.posts, votesRetyped db.votes userId postId type env.now⟩ postId
          (some { found with type := type, updatedAt := env.now }),
        ⟨db.posts, votesRetyped db.votes userId postId type env.now⟩) := by
  have hne : type ≠ "" := by rcases hvalid with h | h <;> simp [h]
  have hnot : ¬ (type ≠ "UP" ∧ type ≠ "DOWN") := by
    rcases hvalid with h | h <;> simp [h]
  unfold castVote
  simp only [hpost, htype, truthyId, truthy, hid, hne, if_false, if_neg hnot,
    call_of_storageUp env hup, hexists, hvote, hother, voteUpdate, voteCount_eq_votesOn,
    voteReport]
  rfl

theorem vote_eq_of_key_eq (votes : List Vote)
    (h : (votes.map (fun v => (v.userId, v.postId))).Nodup) (a b : Vote) (ha : a ∈ votes)
    (hb : b ∈ votes) (huser : a.userId = b.userId) (hpost : a.postId = b.postId) : a = b :=
  List.inj_on_of_nodup_map h ha hb (by simp [huser, hpost])

theorem voteFindUnique_eq (db : Forum) (userId postId : Nat) (found : Vote)
    (hunique : db.votesUnique) (hmem : found ∈ db.votes) (huser : found.userId = userId)
    (hpost : found.postId = postId) : voteFindUnique db userId postId = some found := by
  unfold voteFindUnique
  apply find?_eq_of_unique _ _ _ hmem
  · simp [huser, hpost]
  · intro b hb hpb
    simp at hpb
    exact vote_eq_of_key_eq _ hunique b found hb hmem (by rw [hpb.1, huser])
      (by rw [hpb.2, hpost])

theorem votesOf_eq_nil_iff (db : Forum) (userId postId : Nat) :
    db.votesOf userId postId = [] ↔ voteFindUnique db userId postId = none := by
  unfold Forum.votesOf voteFindUnique
  rw [List.filter_eq_nil_iff, List.find?_eq_none]

theorem filter_singleton_of_unique (votes : List Vote) (userId postId : Nat) (found : Vote)
    (hunique : (votes.map (fun v => (v.userId, v.postId))).Nodup) (hmem : found ∈ votes)
    (huser : found.userId = userId) (hpost : found.postId = postId) :
    votes.filter (fun v => v.userId == userId && v.postId == postId) = [found] := by
  induction votes with
  | nil => simp at hmem
  | cons x xs ih =>
    simp only [List.map_cons, List.nodup_cons] at hunique
    by_cases hx : x = found
    · subst hx
      have hrest : xs.filter (fun v => v.userId == userId && v.postId == postId) = [] := by
        rw [List.filter_eq_nil_iff]
        intro v hv hp
        simp at hp
        apply hunique.1
        simp only [List.mem_map]
        exact ⟨v, hv, by simp [hp.1, hp.2, huser, hpost]⟩
      simp [List.filter_cons, huser, hpost, hrest]
    · have hmem2 : found ∈ xs := by
        rcases List.mem_cons.mp hmem with h | h
        · exact absurd h.symm hx
        · exact h
      have hxkey : ¬ (x.userId = userId ∧ x.postId = postId) := by
        intro hc
        apply hunique.1
        simp only [List.mem_map]
        exact ⟨found, hmem2, by simp [hc.1, hc.2, huser, hpost]⟩
      have hxb : (x.userId == userId && x.postId == postId) = false := by
        rw [Bool.eq_false_iff]
        intro hc
        simp at hc
        exact hxkey hc
      simp [List.filter_cons, hxb, ih hunique.2 hmem2]

theorem votesRetyped_keys (votes : List Vote) (userId postId : Nat) (type : String)
    (now : Nat) :
    (votesRetyped votes userId postId type now).map (fun v => (v.userId, v.postId)) =
      votes.map (fun v => (v.userId, v.postId)) := by
  unfold votesRetyped
  rw [List.map_map]
  apply List.map_congr_left
  intro v _
  by_cases h : v.userId = userId ∧ v.postId = postId <;> simp [h]

theorem votesRetyped_filter (votes : List Vote) (userId postId : Nat) (type : String)
    (now : Nat) :
    (votesRetyped votes userId postId type now).filter
        (fun v => v.userId == userId && v.postId == postId) =
      (votes.filter (fun v => v.userId == userId && v.postId == postId)).map
        (fun v => { v with type := type, updatedAt := now }) := by
  unfold votesRetyped
  induction votes with
  | nil => rfl
  | cons x xs ih =>
    by_cases h : x.userId = userId ∧ x.postId = postId
    · simp [List.filter_cons, h, ih]
    · have hb : (x.userId == userId && x.postId == postId) = false := by
        rw [Bool.eq_false_iff]
        intro hc
        simp at hc
        exact h hc
      simp only [List.map_cons, if_neg h, List.filter_cons, hb]
      simpa using ih

theorem votesRetyped_mem_other (votes : List Vote) (userId postId : Nat) (type : String)
    (now : Nat) (v : Vote) (hv : ¬ (v.userId = userId ∧ v.postId = postId)) :
    v ∈ votesRetyped votes userId postId type now ↔ v ∈ votes := by
  unfold votesRetyped
  simp only [List.mem_map]
  constructor
  · rintro ⟨w, hw, hwv⟩
    by_cases h : w.userId = userId ∧ w.postId = postId
    · rw [if_pos h] at hwv
      exfalso
      apply hv
      rw [← hwv]
      exact h
    · rw [if_neg h] at hwv
      rw [← hwv]
      exact hw
  · intro hmem
    exact ⟨v, hmem, by rw [if_neg hv]⟩

theorem votesWithout_mem_other (votes : List Vote) (userId postId : Nat) (v : Vote)
    (hv : ¬ (v.userId = userId ∧ v.postId = postId)) :
    v ∈ votesWithout votes userId postId ↔ v ∈ votes := by
  unfold votesWithout
  simp only [List.mem_filter]
  constructor
  · exact fun h => h.1
  · intro h
    refine ⟨h, ?_⟩
    simp only [Bool.not_eq_true', Bool.and_eq_false_iff, beq_eq_false_iff_ne]
    by_cases hu : v.userId = userId
    · exact Or.inr (fun hp => hv ⟨hu, hp⟩)
    · exact Or.inl hu

theorem votesWithout_append_new (votes : List Vote) (userId postId : Nat) (new : Vote)
    (hnone : ∀ v ∈ votes, ¬ (v.userId = userId ∧ v.postId = postId))
    (huser : new.userId = userId) (hpost : new.postId = postId) :
    votesWithout (votes ++ [new]) userId postId = votes := by
  unfold votesWithout
  rw [List.filter_append]
  have h1 : votes.filter (fun v => !(v.userId == userId && v.postId == postId)) = votes := by
    rw [List.filter_eq_self]
    intro v hv
    have := hnone v hv
    simp only [Bool.not_eq_true', Bool.and_eq_false_iff, beq_eq_false_iff_ne]
    by_cases hu : v.userId = userId
    · exact Or.inr (fun hp => this ⟨hu, hp⟩)
    · exact Or.inl hu
  rw [h1]
  simp [List.filter_cons, huser, hpost]

theorem votesOf_length_le_one (db : Forum) (userId postId : Nat) (hunique : db.votesUnique) :
    (db.votesOf userId postId).length ≤ 1 := by
  cases hv : db.votesOf userId postId with
  | nil => simp
  | cons x xs =>
    have hx : x ∈ db.votesOf userId postId := by rw [hv]; exact List.mem_cons_self _ _
    unfold Forum.votesOf at hx hv
    simp only [List.mem_filter, Bool.and_eq_true, beq_iff_eq] at hx
    have := filter_singleton_of_unique db.votes userId postId x hunique hx.1 hx.2.1 hx.2.2
    rw [this] at hv
    rw [← hv]
    simp

theorem votesUnique_create (db : Forum) (userId postId : Nat) (new : Vote)
    (hunique : db.votesUnique)
    (hnone : ∀ v ∈ db.votes, ¬ (v.userId = userId ∧ v.postId = postId))
    (huser : new.userId = userId) (hpost : new.postId = postId) :
    Forum.votesUnique ⟨db.posts, db.votes ++ [new]⟩ := by
  unfold Forum.votesUnique at hunique ⊢
  simp only [List.map_append, List.map_cons, List.map_nil]
  rw [List.nodup_append]
  refine ⟨hunique, by simp, ?_⟩
  intro key hkey hnew
  simp only [List.mem_map] at hkey
  simp only [List.mem_singleton] at hnew
  obtain ⟨v, hv, rfl⟩ := hkey
  simp only [Prod.mk.injEq] at hnew
  exact hnone v hv ⟨hnew.1.trans huser, hnew.2.trans hpost⟩

theorem votesUnique_remove (db : Forum) (userId postId : Nat) (hunique : db.votesUnique) :
    Forum.votesUnique ⟨db.posts, votesWithout db.votes userId postId⟩ := by
  unfold Forum.votesUnique at hunique ⊢
  unfold votesWithout
  exact hunique.sublist ((List.filter_sublist _).map _)

theorem votesUnique_retype (db : Forum) (userId postId : Nat) (type : String) (now : Nat)
    (hunique : db.votesUnique) :
    Forum.votesUnique ⟨db.posts, votesRetyped db.votes userId postId type now⟩ := by
  unfold Forum.votesUnique at hunique ⊢
  simp only
  rw [votesRetyped_keys]
  exact hunique

/-- C24. `castVote` toggles. For an authenticated user, an existing post and a type
`"UP"` or `"DOWN"` (storage available, the vote table respecting its unique
constraint, ids being positive):
(1) with no vote of the user on the post, one vote of that type is appended;
(2) with a vote of that type, it is removed and the response vote is null;
(3) with a vote of the other type, it changes to that type;
(4) casting the same type a second time after (1) restores the store;
(5) afterwards the user has at most one vote on the post;
(6) votes of other users or on other posts, and the posts, are unchanged;
(7) the response is 200 and reports as upvotes and downvotes the numbers of
`"UP"` and of `"DOWN"` votes on the post in the vote table after the change,
counted on that table, with `voteScore` their difference (`voteReport` in (1)
to (4) is that same response). -/
theorem castVote_toggles (env : Env) (db : Forum) (userId postId : Nat) (type : String)
    (body : VoteRequest) (post : Post)
    (hpost : body.postId = some postId) (hid : postId ≠ 0) (htype : body.type = some type)
    (hvalid : type = "UP" ∨ type = "DOWN") (hup : env.storageUp)
    (hexists : postFindUnique db postId = some post) (hunique : db.votesUnique) :
    (db.votesOf userId postId = [] →
        ∃ created : Vote, (castVote env db userId body).2.votes = db.votes ++ [created] ∧
          created.type = type ∧ created.userId = userId ∧ created.postId = postId ∧
          (castVote env db userId body).1 =
            voteReport (castVote env db userId body).2 postId (some created)) ∧
      (∀ found ∈ db.votes, found.userId = userId → found.postId = postId →
        found.type = type →
        (castVote env db userId body).2.votes = votesWithout db.votes userId postId ∧
          (castVote env db userId body).2.votesOf userId postId = [] ∧
          (castVote env db userId body).1 =
            voteReport (castVote env db userId body).2 postId none) ∧
      (∀ found ∈ db.votes, found.userId = userId → found.postId = postId →
        found.type ≠ type →
        (castVote env db userId body).2.votes =
            votesRetyped db.votes userId postId type env.now ∧
          (castVote env db userId body).2.votesOf userId postId =
            [{ found with type := type, updatedAt := env.now }] ∧
          (castVote env db userId body).1 =
            voteReport (castVote env db userId body).2 postId
              (some { found with type := type, updatedAt := env.now })) ∧
      (db.votesOf userId postId = [] → ∀ env2 : Env, env2.storageUp →
        castVote env2 (castVote env db userId body).2 userId body =
          (voteReport db postId none, db)) ∧
      ((castVote env db userId body).2.votesUnique ∧
        ((castVote env db userId body).2.votesOf userId postId).length ≤ 1) ∧
      (∀ v : Vote, ¬ (v.userId = userId ∧ v.postId = postId) →
        (v ∈ (castVote env db userId body).2.votes ↔ v ∈ db.votes)) ∧
      (castVote env db userId body).2.posts = db.posts ∧
      ((castVote env db userId body).1.status = 200 ∧
        ∃ vote, (castVote env db userId body).1.body = .success vote
          (((castVote env db userId body).2.votes.countP
              (fun v => decide (v.postId = postId ∧ v.type = "UP")) : Nat) -
            ((castVote env db userId body).2.votes.countP
              (fun v => decide (v.postId = postId ∧ v.type = "DOWN")) : Nat) : Int)
          ((castVote env db userId body).2.votes.countP
            (fun v => decide (v.postId = postId ∧ v.type = "UP")))
          ((castVote env db userId body).2.votes.countP
            (fun v => decide (v.postId = postId ∧ v.type = "DOWN")))) := by
  cases hfind : voteFindUnique db userId postId with
  | none =>
    have hout := castVote_create env db userId postId type body post hpost hid htype hvalid
      hup hexists hfind
    have hnone := (voteFindUnique_none hfind).2
    have hu1 := votesUnique_create db userId postId
      ⟨freshId (db.votes.map Vote.id), type, userId, postId, env.now, env.now⟩ hunique hnone
      rfl rfl
    rw [hout]
    refine ⟨fun _ => ⟨_, rfl, rfl, rfl, rfl, rfl⟩, ?_, ?_, ?_, ⟨hu1, votesOf_length_le_one _ _ _ hu1⟩,
      ?_, rfl, rfl, ⟨_, rfl⟩⟩
    · intro found hmem hu hp _
      exact absurd ⟨hu, hp⟩ (hnone found hmem)
    · intro found hmem hu hp _
      exact absurd ⟨hu, hp⟩ (hnone found hmem)
    · intro _ env2 hup2
      have hfind2 := voteFindUnique_eq
        ⟨db.posts, db.votes ++
          [⟨freshId (db.votes.map Vote.id), type, userId, postId, env.now, env.now⟩]⟩
        userId postId ⟨freshId (db.votes.map Vote.id), type, userId, postId, env.now, env.now⟩
        hu1 (by simp) rfl rfl
      have hout2 := castVote_remove env2
        ⟨db.posts, db.votes ++
          [⟨freshId (db.votes.map Vote.id), type, userId, postId, env.now, env.now⟩]⟩
        userId postId type body post _ hpost hid htype hvalid hup2 hexists hfind2 rfl
      rw [hout2]
      simp only
      rw [votesWithout_append_new db.votes userId postId _ hnone rfl rfl]
    · intro v hv
      simp only [List.mem_append, List.mem_singleton]
      constructor
      · rintro (h | h)
        · exact h
        · exact absurd (by rw [h]; exact ⟨rfl, rfl⟩) hv
      · exact fun h => Or.inl h
  | some found0 =>
    obtain ⟨hmem0, hu0, hp0, _⟩ := voteFindUnique_some hfind
    have hsingle := filter_singleton_of_unique db.votes userId postId found0 hunique hmem0 hu0 hp0
    have hsame : ∀ found ∈ db.votes, found.userId = userId → found.postId = postId →
        found = found0 := fun found hmem hu hp =>
      vote_eq_of_key_eq _ hunique found found0 hmem hmem0 (hu.trans hu0.symm)
        (hp.trans hp0.symm)
    have hnotnil : db.votesOf userId postId ≠ [] := by
      unfold Forum.votesOf
      rw [hsingle]
      simp
    by_cases hty : found0.type = type
    · have hout := castVote_remove env db userId postId type body post found0 hpost hid htype
        hvalid hup hexists hfind hty
      have hu1 := votesUnique_remove db userId postId hunique
      have hgone : Forum.votesOf ⟨db.posts, votesWithout db.votes userId postId⟩ userId
          postId = [] := by
        unfold Forum.votesOf votesWithout
        rw [List.filter_filter, List.filter_eq_nil_iff]
        intro v _ hc
        simp at hc
        rcases hc.2 with h | h
        · exact h hc.1.1
        · exact h hc.1.2
      rw [hout]
      refine ⟨fun h => absurd h hnotnil, ?_, ?_, fun h => absurd h hnotnil,
        ⟨hu1, votesOf_length_le_one _ _ _ hu1⟩, ?_, rfl, rfl, ⟨_, rfl⟩⟩
      · intro found hmem hu hp _
        exact ⟨rfl, hgone, rfl⟩
      · intro found hmem hu hp hne
        rw [hsame found hmem hu hp] at hne
        exact absurd hty hne
      · intro v hv
        exact votesWithout_mem_other db.votes userId postId v hv
    · have hout := castVote_change env db userId postId type body post found0 hpost hid htype
        hvalid hup hexists hfind hty
      have hu1 := votesUnique_retype db userId postId type env.now hunique
      rw [hout]
      refine ⟨fun h => absurd h hnotnil, ?_, ?_, fun h => absurd h hnotnil,
        ⟨hu1, votesOf_length_le_one _ _ _ hu1⟩, ?_, rfl, rfl, ⟨_, rfl⟩⟩
      · intro found hmem hu hp heq
        rw [hsame found hmem hu hp] at heq
        exact absurd heq hty
      · intro found hmem hu hp _
        rw [hsame found hmem hu hp]
        refine ⟨rfl, ?_, rfl⟩
        unfold Forum.votesOf
        simp only
        rw [votesRetyped_filter, hsingle]
        rfl
      · intro v hv
        exact votesRetyped_mem_other db.votes userId postId type env.now v hv

theorem castVote_toggles_witness :
    (∃ created : Vote,
      (castVote demoEnv demoForum 1 ⟨some 7, some "UP"⟩).2.votes =
        demoForum.votes ++ [created] ∧
      created.type = "UP" ∧ created.userId = 1 ∧ created.postId = 7 ∧
      (castVote demoEnv demoForum 1 ⟨some 7, some "UP"⟩).1 =
        voteReport (castVote demoEnv demoForum 1 ⟨some 7, some "UP"⟩).2 7 (some created)) ∧
      (castVote demoEnv demoForum 1 ⟨some 7, some "UP"⟩).1 =
        ⟨200, .success (some ⟨2, "UP", 1, 7, 10, 10⟩) 2 2 0⟩ ∧
      (castVote demoEnv demoForum 2 ⟨some 7, some "DOWN"⟩).1 =
        ⟨200, .success (some ⟨1, "DOWN", 2, 7, 0, 10⟩) (-1) 0 1⟩ :=
  ⟨(castVote_toggles demoEnv demoForum 1 7 "UP" ⟨some 7, some "UP"⟩ ⟨7, 1, 1, 0⟩
    rfl (by decide) rfl (Or.inl rfl) (fun _ => rfl) rfl (by decide)).1 (by decide),
    by decide, by decide⟩

/-! ## Vote tallies -/

theorem selected_filter_eq (db : Forum) (postIds : List Nat) (postId : Nat) (type : String)
    (hmem : postId ∈ postIds) :
    ((db.votes.filter (fun v => postIds.contains v.postId)).filter
        (fun v => v.postId == postId && v.type == type)).length =
      voteCount db postId type := by
  unfold voteCount
  rw [List.filter_filter]
  congr 1
  apply List.filter_congr
  intro v _
  by_cases h : v.postId = postId
  · simp [h, hmem]
  · simp [h]

/-- The grouped query holds, for a post of the selection, exactly the number the
count query returns; an absent row stands for 0. -/
theorem voteGroupBy_lookup (db : Forum) (postIds : List Nat) (postId : Nat) (type : String)
    (hmem : postId ∈ postIds) :
    ((((voteGroupBy db postIds).filter (fun v => v.postId == postId)).find?
        (fun v => v.type == type)).map VoteGroup.count).getD 0 =
      voteCount db postId type := by
  cases hfind : ((voteGroupBy db postIds).filter (fun v => v.postId == postId)).find?
      (fun v => v.type == type) with
  | some g =>
    have htype := List.find?_some hfind
    have hg := List.mem_of_find?_eq_some hfind
    simp only [List.mem_filter, beq_iff_eq] at hg
    simp only [beq_iff_eq] at htype
    obtain ⟨hgroup, hgpost⟩ := hg
    unfold voteGroupBy at hgroup
    simp only [List.mem_map] at hgroup
    obtain ⟨key, _, rfl⟩ := hgroup
    simp only at hgpost htype
    simp only [Option.map_some', Option.getD_some]
    rw [hgpost, htype]
    exact selected_filter_eq db postIds postId type hmem
  | none =>
    simp only [Option.map_none', Option.getD_none]
    rw [List.find?_eq_none] at hfind
    symm
    unfold voteCount
    rw [List.length_eq_zero, List.filter_eq_nil_iff]
    intro v hv hp
    simp only [Bool.and_eq_true, beq_iff_eq] at hp
    apply hfind ⟨postId, type,
      ((db.votes.filter (fun v => postIds.contains v.postId)).filter
        (fun v => v.postId == postId && v.type == type)).length⟩
    · simp only [List.mem_filter, beq_iff_eq, and_true]
      unfold voteGroupBy
      simp only [List.mem_map]
      refine ⟨(postId, type), ?_, rfl⟩
      rw [List.mem_dedup]
      simp only [List.mem_map, List.mem_filter]
      exact ⟨v, ⟨hv, by simp [hp.1, hmem]⟩, by simp [hp.1, hp.2]⟩
    · simp

/-- C25. The batched vote tally equals the per-post tally: for every list of posts
and every vote table, `getPostsByAuthorId` derives from the grouped counts, for
each post, the same upvotes, downvotes and voteScore that `getPosts` computes
for it with two separate counts. -/
theorem batched_tally_eq_per_post_tally (db : Forum) (posts : List Post) :
    getPostsByAuthorIdVoteCounts db posts = getPostsVoteCounts db posts := by
  unfold getPostsByAuthorIdVoteCounts getPostsVoteCounts
  apply List.map_congr_left
  intro post hpost
  have hmem : post.id ∈ posts.map (fun post => post.id) := List.mem_map.mpr ⟨post, hpost, rfl⟩
  simp only [voteGroupBy_lookup db _ post.id "UP" hmem,
    voteGroupBy_lookup db _ post.id "DOWN" hmem]

end RedditClone
